import Mathlib

/-!
# GPS-LoRa-Tracker: fix store and LoRa uplink pipeline

A shallow embedding of `src/src/track_storage.cpp` (the ring buffer of GPS
fixes), of the send path of `src/src/lora_manager.cpp` with the loop of
`loraTask` in `src/src/main.cpp`, of the network arbitration of
`src/src/wifi_manager.cpp`, of the upload of `src/src/upload_manager.cpp`, of
the sampler of `src/src/gps_sampler.cpp` and of `gpsIsWinterTime` in
`src/src/gps.cpp`.

Conventions of the embedding:

* `uint32_t` values are `Nat`, wrapped explicitly with `% 4294967296` where the
  code can overflow (`nextSeq++`, `millis()` differences, `loraTxCount++`);
  `int32_t` values are `Int`; `uint8_t` values are `Nat`.
* `size_t` ring indices are `Nat`: `head < cap` and `count <= cap` keep every
  index expression below `2 * cap`, and a ring of `cap` records has to fit in
  memory, so no index computation wraps.
* The global variables of a translation unit are the fields of a state
  structure that every operation takes and returns.
* `xSemaphoreTake(mtx, portMAX_DELAY) == pdTRUE` is the Boolean argument `took`
  of each store operation.
* An operation returns `none` where the C++ has no defined behaviour: a ring
  access outside the vector, or a remainder modulo zero.
-/

namespace GpsTracker

/-! ## Fix store (`track_storage.h`, `track_storage.cpp`) -/

/-- GPS fix record, `struct FixRec` of `track_storage.h`. -/
structure FixRec where
  /-- Sequence number (`uint32_t`). -/
  seq : Nat
  /-- Epoch seconds (`uint32_t`). -/
  ts : Nat
  /-- Latitude in degrees times 1e7 (`int32_t`). -/
  latE7 : Int
  /-- Longitude in degrees times 1e7 (`int32_t`). -/
  lonE7 : Int
  /-- Battery percentage (`uint8_t`). -/
  bat : Nat
  /-- Flags bitfield (`uint8_t`). -/
  flags : Nat
deriving DecidableEq, Repr

/-- The value-initialised record `FixRec{}`: every field zero. -/
def FixRec.zero : FixRec :=
  { seq := 0, ts := 0, latE7 := 0, lonE7 := 0, bat := 0, flags := 0 }

/-- The static variables of `track_storage.cpp`. -/
structure TrackStore where
  /-- Ring storage `std::vector<FixRec> ring`. -/
  ring : List FixRec
  /-- Storage capacity `cap`. -/
  cap : Nat
  /-- Next write position `head`. -/
  head : Nat
  /-- Number of valid records `count`. -/
  count : Nat
  /-- Next sequence number to assign, `uint32_t nextSeq`. -/
  nextSeq : Nat
  /-- Highest acknowledged timestamp, `uint32_t ackedTs`. -/
  ackedTs : Nat
deriving DecidableEq, Repr

/-- Translation of `initTrackStore(capacity)`. -/
def initTrackStore (capacity : Nat) : TrackStore :=
  { ring := List.replicate capacity FixRec.zero
    cap := capacity
    head := 0
    count := 0
    nextSeq := 1
    ackedTs := 0 }

/-- Translation of `trackStorePush(recIn)`. The result is the returned Boolean, the
caller's record after the call (`recIn` is a reference and receives `seq`), and
the new store. -/
def trackStorePush (took : Bool) (s : TrackStore) (recIn : FixRec) :
    Option (Bool × FixRec × TrackStore) :=
  if took then
    -- rec.seq = nextSeq++;
    let r : FixRec := { recIn with seq := s.nextSeq }
    -- ring[head] = rec;
    if s.head < s.ring.length then
      -- head = (head + 1) % cap;
      if s.cap = 0 then none
      else
        some (true, r,
          { s with
            ring := s.ring.set s.head r
            head := (s.head + 1) % s.cap
            count := if s.count < s.cap then s.count + 1 else s.count
            nextSeq := (s.nextSeq + 1) % 4294967296 })
    else none
  else some (false, recIn, s)

/-- Translation of `trackStoreGetAckedTs()`. -/
def trackStoreGetAckedTs (took : Bool) (s : TrackStore) : Nat :=
  if took then s.ackedTs else 0

/-- Translation of `trackStoreSetAckedTs(ts)`: the returned Boolean and the new store. -/
def trackStoreSetAckedTs (took : Bool) (s : TrackStore) (ts : Nat) : Bool × TrackStore :=
  if took then
    (true, if ts > s.ackedTs then { s with ackedTs := ts } else s)
  else (false, s)

/-- Translation of `oldestIdx = (head + cap - count) % cap`, computed by
`trackStoreGetOldestTs` and `trackStoreGetBatch` when `count != 0`. -/
def oldestIdx (s : TrackStore) : Option Nat :=
  if s.cap = 0 then none else some ((s.head + s.cap - s.count) % s.cap)

/-- Translation of `trackStoreGetOldestTs()`. -/
def trackStoreGetOldestTs (took : Bool) (s : TrackStore) : Option Nat :=
  if took then
    if s.count = 0 then some 0
    else
      match oldestIdx s with
      | none => none
      | some i =>
        match s.ring[i]? with
        | none => none
        | some r => some r.ts
  else some 0

/-- Translation of `trackStoreGetLatest(out)`: the returned Boolean and the caller's
`out` after the call. -/
def trackStoreGetLatest (took : Bool) (s : TrackStore) (out : FixRec) :
    Option (Bool × FixRec) :=
  if took then
    if s.count > 0 then
      -- latestIdx = (head + cap - 1) % cap
      if s.cap = 0 then none
      else
        match s.ring[(s.head + s.cap - 1) % s.cap]? with
        | none => none
        | some r => some (true, r)
    else some (false, out)
  else some (false, out)

/-- The `for` loop of `trackStoreGetBatch`. The first argument is `count - i`, the
number of iterations the bound `i < count` still allows; `idx` is the ring
index and `out` the records copied so far (`n = out.length`). -/
def getBatchLoop (ring : List FixRec) (cap maxN afterTs : Nat) :
    Nat → Nat → List FixRec → Option (List FixRec)
  | 0, _, out => some out
  | todo + 1, idx, out =>
    if out.length < maxN then
      match ring[idx]? with
      | none => none
      | some r =>
        if cap = 0 then none
        else
          getBatchLoop ring cap maxN afterTs todo ((idx + 1) % cap)
            (if r.ts > afterTs then out ++ [r] else out)
    else some out

/-- Translation of `trackStoreGetBatch(outBuf, maxN, afterTs)`. `outBufOk` says that
`outBuf` is not null; the result is the list of records copied to
`outBuf[0..n)`, and the returned `n` is its length. -/
def trackStoreGetBatch (took : Bool) (s : TrackStore) (outBufOk : Bool)
    (maxN afterTs : Nat) : Option (List FixRec) :=
  if !outBufOk || maxN == 0 then some []
  else if took then
    if s.count = 0 then some []
    else
      match oldestIdx s with
      | none => none
      | some i => getBatchLoop s.ring s.cap maxN afterTs s.count i []
  else some []

/-- Translation of `trackStoreSize()`. -/
def trackStoreSize (took : Bool) (s : TrackStore) : Nat :=
  if took then s.count else 0

/-- Successive `trackStorePush` calls, each with the mutex acquired, for the
records of a list in order. -/
def pushAll : TrackStore → List FixRec → Option TrackStore
  | s, [] => some s
  | s, r :: rs =>
    match trackStorePush true s r with
    | none => none
    | some (_, _, s') => pushAll s' rs

/-- The records of a list as successive pushes stamp them: the first receives
`next`, each further one the previous sequence number plus 1 modulo `2^32`. -/
def stamp : Nat → List FixRec → List FixRec
  | _, [] => []
  | next, r :: rs => { r with seq := next } :: stamp ((next + 1) % 4294967296) rs

/-- The stored records from the logically oldest to the newest: the `count`
ring slots starting at `(head + cap - count) % cap`, each next one at
`(idx + 1) % cap`. -/
def stored (s : TrackStore) : List FixRec :=
  (List.range s.count).map
    (fun j => s.ring.getD ((s.head + s.cap - s.count + j) % s.cap) FixRec.zero)

/-- The sequence numbers of a list of records are consecutive modulo `2^32` and
end just before `next`. -/
def SeqChain (l : List FixRec) (next : Nat) : Prop :=
  ∀ i, i < l.length →
    (l.getD i FixRec.zero).seq < 4294967296 ∧
    ((l.getD i FixRec.zero).seq + (l.length - i)) % 4294967296 = next

/-- The invariant of the store: what holds after `initTrackStore(capacity)` with
`capacity >= 1` and is kept by every operation. -/
def TrackStore.Inv (s : TrackStore) : Prop :=
  1 ≤ s.cap ∧ s.ring.length = s.cap ∧ s.head < s.cap ∧ s.count ≤ s.cap ∧
  (s.count < s.cap → s.head = s.count) ∧ s.nextSeq < 4294967296 ∧
  SeqChain (stored s) s.nextSeq

/-- The states the store can be in: `initTrackStore(capacity)` with
`capacity >= 1`, followed by pushes and watermark updates. -/
inductive Reachable : TrackStore → Prop
  | init (capacity : Nat) (h : 1 ≤ capacity) : Reachable (initTrackStore capacity)
  | push (took : Bool) (s : TrackStore) (recIn : FixRec) (ok : Bool) (r : FixRec)
      (s' : TrackStore) (hs : Reachable s)
      (h : trackStorePush took s recIn = some (ok, r, s')) : Reachable s'
  | setAcked (took : Bool) (s : TrackStore) (ts : Nat) (hs : Reachable s) :
      Reachable (trackStoreSetAckedTs took s ts).2

/-- The 32-bit sequence counter has not wrapped within the stored window: the
last assigned sequence number is at least `count - 1`. -/
def NoSeqWrap (s : TrackStore) : Prop :=
  s.count ≤ (s.nextSeq + 4294967295) % 4294967296 + 1

/-- A record with timestamp 1 and every other field zero, the record pushed in
the concrete runs below. -/
def fixOne : FixRec :=
  { seq := 0, ts := 1, latE7 := 0, lonE7 := 0, bat := 0, flags := 0 }

/-- The store of capacity 2 after 4294967294 pushes of `fixOne`: the next
sequence number to assign is the largest 32-bit value. -/
def lastSeqStore : TrackStore :=
  { ring := [{ fixOne with seq := 4294967293 }, { fixOne with seq := 4294967294 }]
    cap := 2
    head := 0
    count := 2
    nextSeq := 4294967295
    ackedTs := 0 }

/-- The store of capacity 2 after 4294967296 pushes of `fixOne`: the sequence
counter has wrapped between the two stored records. -/
def wrappedStore : TrackStore :=
  { ring := [{ fixOne with seq := 4294967295 }, { fixOne with seq := 0 }]
    cap := 2
    head := 0
    count := 2
    nextSeq := 1
    ackedTs := 0 }

/-! ## LoRa uplink pipeline (`lora_manager.cpp`) -/

/-- A value of type `float`: not-a-number, or a number. Every finite `float` is a
rational; the code below only compares values with thresholds. -/
inductive Flt where
  | nan : Flt
  | num (q : ℚ) : Flt
deriving DecidableEq

/-- The comparison `x >= t` on `float`: false when `x` is not a number. -/
def Flt.ge (x : Flt) (t : ℚ) : Bool :=
  match x with
  | Flt.nan => false
  | Flt.num q => decide (t ≤ q)

/-- The comparison `x <= t` on `float`: false when `x` is not a number. -/
def Flt.le (x : Flt) (t : ℚ) : Bool :=
  match x with
  | Flt.nan => false
  | Flt.num q => decide (q ≤ t)

/-- Constant `MOVE_START_KMH = 2.0f`. -/
def MOVE_START_KMH : ℚ := 2

/-- Constant `MOVE_STOP_KMH = 1.0f`. -/
def MOVE_STOP_KMH : ℚ := 1

/-- Constant `DIST_TRIGGER_M = 50.0f`. -/
def DIST_TRIGGER_M : ℚ := 50

/-- Constant `HEARTBEAT_INTERVAL_MS = 15 * 60 * 1000`. -/
def HEARTBEAT_INTERVAL_MS : Nat := 15 * 60 * 1000

/-- Constant `MIN_SEND_INTERVAL_MS = 2.5 * 60 * 1000`, converted to `uint32_t`. -/
def MIN_SEND_INTERVAL_MS : Nat := 150000

/-- The static variables of `lora_manager.cpp`, with `node != NULL` as a Boolean, the
function-local static `lastJoinRetry` of `loraUpdate`, and the list of payloads
handed to `node->sendReceive` so far (oldest first). -/
structure LoraState where
  /-- Flag `isInitialized`. -/
  isInitialized : Bool
  /-- Whether `node` is not `NULL`. -/
  nodePresent : Bool
  /-- Flag `hasJoined`. -/
  hasJoined : Bool
  /-- Variable `lastTxMs`. -/
  lastTxMs : Nat
  /-- Static local `lastJoinRetry` of `loraUpdate`. -/
  lastJoinRetry : Nat
  /-- Variable `lastSendMs` (`uint32_t`). -/
  lastSendMs : Nat
  /-- Variable `lastHeartbeatMs` (`uint32_t`). -/
  lastHeartbeatMs : Nat
  /-- Variable `lastLatE7` (`int32_t`). -/
  lastLatE7 : Int
  /-- Variable `lastLonE7` (`int32_t`). -/
  lastLonE7 : Int
  /-- Flag `moving`. -/
  moving : Bool
  /-- Flag `prevMoving`. -/
  prevMoving : Bool
  /-- Variable `lastLoraTxMs` (`uint32_t`). -/
  lastLoraTxMs : Nat
  /-- Variable `loraTxCount` (`uint32_t`). -/
  loraTxCount : Nat
  /-- Flag `loraTxActive`. -/
  loraTxActive : Bool
  /-- Payloads passed to `node->sendReceive`, in order. -/
  sent : List (List Nat)
deriving DecidableEq

/-- Conversion of a `uint32_t` value to `int32_t` (two's complement), as when
`latestFix.ts` is passed for the parameter `int32_t ts` of `sendPayload`. -/
def toInt32 (u : Nat) : Int :=
  if u % 4294967296 < 2147483648 then ((u % 4294967296 : Nat) : Int)
  else ((u % 4294967296 : Nat) : Int) - 4294967296

/-- Conversion `static_cast<uint32_t>(x)` of an `int32_t`: the value modulo `2^32`. -/
def toUInt32 (x : Int) : Nat := (x % 4294967296).toNat

/-- Unsigned 32-bit difference `a - b`, as in `millis() - lastSendMs`. -/
def subU32 (a b : Nat) : Nat := (a % 4294967296 + 4294967296 - b % 4294967296) % 4294967296

/-- The four bytes `(u >> 24) & 0xFF`, `(u >> 16) & 0xFF`, `(u >> 8) & 0xFF`, `u & 0xFF`. -/
def bytesBE (u : Nat) : List Nat :=
  [(u >>> 24) &&& 0xFF, (u >>> 16) &&& 0xFF, (u >>> 8) &&& 0xFF, u &&& 0xFF]

/-- The array `payload[13]` that `sendPayload(ts, latE7, lonE7, bat)` fills. The
parameter `bat` is a `uint8_t`. -/
def buildPayload (ts latE7 lonE7 : Int) (bat : Nat) : List Nat :=
  bytesBE (toUInt32 ts) ++ bytesBE (toUInt32 latE7) ++ bytesBE (toUInt32 lonE7) ++ [bat % 256]

/-- Translation of `sendPayload(ts, latE7, lonE7, bat)`, up to its serial output: `msTx`
is the value `millis()` returns at its start. The call `node->sendReceive` has no
defined behaviour when `node` is `NULL`. -/
def sendPayload (msTx : Nat) (st : LoraState) (ts latE7 lonE7 : Int) (bat : Nat) :
    Option LoraState :=
  if st.nodePresent then
    some { st with
      lastLoraTxMs := msTx
      loraTxCount := (st.loraTxCount + 1) % 4294967296
      loraTxActive := false
      sent := st.sent ++ [buildPayload ts latE7 lonE7 bat] }
  else none

/-- The movement detection of `checkAndSend`:
`if (!moving && speedKmh >= MOVE_START_KMH) moving = true;
else if (moving && speedKmh <= MOVE_STOP_KMH) moving = false;`. -/
def updateMoving (moving : Bool) (speedKmh : Flt) : Bool :=
  if !moving && speedKmh.ge MOVE_START_KMH then true
  else if moving && speedKmh.le MOVE_STOP_KMH then false
  else moving

/-- What one evaluation of `checkAndSend` reads from outside `lora_manager.cpp`. -/
structure SendEnv where
  /-- Value of `millis()` in the rate-limiter test. -/
  msCheck : Nat
  /-- Value of `millis()` assigned to `nowMs`. -/
  msNow : Nat
  /-- Value of `millis()` at the start of `sendPayload`. -/
  msTx : Nat
  /-- Value of `millis()` assigned to `lastSendMs` after the send. -/
  msSent : Nat
  /-- Whether `trackStoreGetLatest` acquires the store mutex. -/
  took : Bool
  /-- The fix store at the time of the call. -/
  store : TrackStore
  /-- Result of `GPS.speed.isValid()`. -/
  speedValid : Bool
  /-- Result of `GPS.speed.kmph()`, converted to `float`. -/
  speedKmh : Flt
  /-- The function `distanceMeters` (haversine formula in `float` arithmetic). -/
  distanceMeters : Int → Int → Int → Int → Flt

/-- Translation of `checkAndSend()`. -/
def checkAndSend (e : SendEnv) (st : LoraState) : Option LoraState :=
  if subU32 e.msCheck st.lastSendMs < MIN_SEND_INTERVAL_MS then some st
  else if !st.hasJoined || !st.nodePresent then some st
  else
    let nowMs := e.msNow
    let heartBeatDue : Bool := decide (subU32 nowMs st.lastHeartbeatMs ≥ HEARTBEAT_INTERVAL_MS)
    let movementChanged : Bool := st.moving != st.prevMoving
    match trackStoreGetLatest e.took e.store FixRec.zero with
    | none => none
    | some (found, latestFix) =>
      if !found then some st
      else if latestFix.ts == 0 || latestFix.ts < 946684800 then some st
      else if latestFix.latE7 < -900000000 || latestFix.latE7 > 900000000 then some st
      else if latestFix.lonE7 < -1800000000 || latestFix.lonE7 > 1800000000 then some st
      else
        let latE7 := latestFix.latE7
        let lonE7 := latestFix.lonE7
        let speedKmh : Flt := if e.speedValid then e.speedKmh else Flt.num 0
        let moving := updateMoving st.moving speedKmh
        let st₁ : LoraState := { st with moving := moving }
        let reasonDistance : Bool :=
          moving && st₁.lastLatE7 != 0 &&
            (e.distanceMeters st₁.lastLatE7 st₁.lastLonE7 latE7 lonE7).ge DIST_TRIGGER_M
        let shouldSend := movementChanged || reasonDistance || heartBeatDue
        if shouldSend then
          match sendPayload e.msTx st₁ (toInt32 latestFix.ts) latE7 lonE7 latestFix.bat with
          | none => none
          | some st₂ =>
            some { st₂ with
              lastSendMs := e.msSent
              lastLatE7 := latE7
              lastLonE7 := lonE7
              prevMoving := if movementChanged then moving else st₂.prevMoving
              lastHeartbeatMs := if heartBeatDue then nowMs else st₂.lastHeartbeatMs }
        else some st₁

/-- Big-endian decoding of the four bytes of a payload from position `i`, as an
unsigned 32-bit value. -/
def decodeU32BE (p : List Nat) (i : Nat) : Nat :=
  p.getD i 0 * 16777216 + p.getD (i + 1) 0 * 65536 + p.getD (i + 2) 0 * 256 + p.getD (i + 3) 0

/-- Big-endian decoding of four bytes as a two's complement 32-bit value. -/
def decodeI32BE (p : List Nat) (i : Nat) : Int := toInt32 (decodeU32BE p i)

/-- The LoRa state after a `loraInit` whose join succeeded at time 0: the initial values
of the static variables, with `isInitialized`, `node` and `hasJoined` set. -/
def idleLora : LoraState :=
  { isInitialized := true
    nodePresent := true
    hasJoined := true
    lastTxMs := 0
    lastJoinRetry := 0
    lastSendMs := 0
    lastHeartbeatMs := 0
    lastLatE7 := 0
    lastLonE7 := 0
    moving := false
    prevMoving := false
    lastLoraTxMs := 0
    loraTxCount := 0
    loraTxActive := false
    sent := [] }

/-- The store of capacity 1 after one push of the given record. -/
def oneFixStore (r : FixRec) : TrackStore :=
  { ring := [{ r with seq := 1 }]
    cap := 1
    head := 0
    count := 1
    nextSeq := 2
    ackedTs := 0 }

/-- A fix taken with a known time and no position: the sampler stores latitude and
longitude 0. -/
def fixNoPosition : FixRec :=
  { seq := 0, ts := 1700000000, latE7 := 0, lonE7 := 0, bat := 77, flags := 0 }

/-- A fix in Paris (48.8566 N, 2.3522 E). -/
def fixParis : FixRec :=
  { seq := 0, ts := 1700003000, latE7 := 488566000, lonE7 := 23522000, bat := 77, flags := 2 }

/-- A stand-in for `distanceMeters` in the concrete runs: 0 between equal positions,
5437 km otherwise (the distance from 0 N 0 E to Paris). -/
def distanceStub (lat1E7 lon1E7 lat2E7 lon2E7 : Int) : Flt :=
  if lat1E7 = lat2E7 ∧ lon1E7 = lon2E7 then Flt.num 0 else Flt.num 5437000

/-- An evaluation at `ms` milliseconds, at 5 km/h, with the given latest fix. -/
def envAt (ms : Nat) (r : FixRec) : SendEnv :=
  { msCheck := ms
    msNow := ms
    msTx := ms
    msSent := ms
    took := true
    store := oneFixStore r
    speedValid := true
    speedKmh := Flt.num 5
    distanceMeters := distanceStub }

/-- The LoRa state after two evaluations from `idleLora` at 200000 ms and 200100 ms, at
5 km/h with latest fix `fixNoPosition`: the second one sent the fix because the
movement changed, so the last sent position is latitude 0, longitude 0. -/
def equatorLora : LoraState :=
  { idleLora with
    lastSendMs := 200100
    moving := true
    prevMoving := true
    lastLoraTxMs := 200100
    loraTxCount := 1
    sent := [buildPayload (toInt32 1700000000) 0 0 77] }

/-- The value of `moving` after the movement detection of an evaluation. -/
def movingAfter (e : SendEnv) (st : LoraState) : Bool :=
  updateMoving st.moving (if e.speedValid then e.speedKmh else Flt.num 0)

/-- The value of `shouldSend` in an evaluation of `checkAndSend` whose latest fix is
`fix`: `movementChanged || reasonDistance || heartBeatDue`. -/
def shouldSendNow (e : SendEnv) (st : LoraState) (fix : FixRec) : Bool :=
  st.moving != st.prevMoving ||
    movingAfter e st && st.lastLatE7 != 0 &&
      (e.distanceMeters st.lastLatE7 st.lastLonE7 fix.latE7 fix.lonE7).ge DIST_TRIGGER_M ||
    decide (subU32 e.msNow st.lastHeartbeatMs ≥ HEARTBEAT_INTERVAL_MS)

/-- The state in which `checkAndSend` leaves the static variables when it sends the
latest fix `fix`. -/
def sentState (e : SendEnv) (st : LoraState) (fix : FixRec) : LoraState :=
  { st with
    moving := movingAfter e st
    lastLoraTxMs := e.msTx
    loraTxCount := (st.loraTxCount + 1) % 4294967296
    loraTxActive := false
    sent := st.sent ++ [buildPayload (toInt32 fix.ts) fix.latE7 fix.lonE7 fix.bat]
    lastSendMs := e.msSent
    lastLatE7 := fix.latE7
    lastLonE7 := fix.lonE7
    prevMoving := if (st.moving != st.prevMoving) = true then movingAfter e st else st.prevMoving
    lastHeartbeatMs :=
      if decide (subU32 e.msNow st.lastHeartbeatMs ≥ HEARTBEAT_INTERVAL_MS) = true then e.msNow
      else st.lastHeartbeatMs }

/-- Successive evaluations of `checkAndSend`, one for each environment of the list. -/
def runChecks : List SendEnv → LoraState → Option LoraState
  | [], st => some st
  | e :: es, st =>
    match checkAndSend e st with
    | none => none
    | some st' => runChecks es st'

/-- An evaluation of `checkAndSend` in the Joined state with a valid latest fix, no
movement change and no distance trigger: `hasJoined` and `node` are set, the
latest stored fix exists and passes the validation, `moving == prevMoving` before
the speed update and the update keeps `moving`, and the distance test of the
evaluation is false. -/
def QuietEval (e : SendEnv) (st : LoraState) : Prop :=
  st.hasJoined = true ∧ st.nodePresent = true ∧ st.moving = st.prevMoving ∧
  updateMoving st.moving (if e.speedValid then e.speedKmh else Flt.num 0) = st.moving ∧
  ∃ fix, trackStoreGetLatest e.took e.store FixRec.zero = some (true, fix) ∧
    946684800 ≤ fix.ts ∧
    (-900000000 ≤ fix.latE7 ∧ fix.latE7 ≤ 900000000) ∧
    (-1800000000 ≤ fix.lonE7 ∧ fix.lonE7 ≤ 1800000000) ∧
    (st.moving && st.lastLatE7 != 0 &&
      (e.distanceMeters st.lastLatE7 st.lastLonE7 fix.latE7 fix.lonE7).ge DIST_TRIGGER_M) = false

/-- The two RadioLib status codes that `lora_manager.cpp` compares with; their values
are declared in the RadioLib headers. -/
structure RadioLibCodes where
  /-- Code `RADIOLIB_ERR_NONE`. -/
  errNone : Int
  /-- Code `RADIOLIB_LORAWAN_NEW_SESSION`. -/
  newSession : Int

/-- The values of the static variables of `lora_manager.cpp` at program start. -/
def loraBoot : LoraState :=
  { isInitialized := false
    nodePresent := false
    hasJoined := false
    lastTxMs := 0
    lastJoinRetry := 0
    lastSendMs := 0
    lastHeartbeatMs := 0
    lastLatE7 := 0
    lastLonE7 := 0
    moving := false
    prevMoving := false
    lastLoraTxMs := 0
    loraTxCount := 0
    loraTxActive := false
    sent := [] }

/-- What `loraInit` reads from outside. -/
structure InitEnv where
  /-- Result of `radio.begin(...)`. -/
  beginState : Int
  /-- Whether `new LoRaWANNode(...)` gave a non-null pointer. -/
  nodeAllocated : Bool
  /-- Result of the initial `node->activateOTAA()`. -/
  joinState : Int
  /-- Value of `millis()` assigned to `lastTxMs`. -/
  ms : Nat

/-- Translation of `loraInit()`, up to its serial output and the radio configuration
calls. -/
def loraInit (k : RadioLibCodes) (e : InitEnv) (st : LoraState) : LoraState :=
  if e.beginState ≠ k.errNone then st
  else if !e.nodeAllocated then { st with nodePresent := false }
  else
    { st with
      nodePresent := true
      hasJoined := decide (e.joinState = k.errNone ∨ e.joinState = k.newSession)
      isInitialized := true
      lastTxMs := e.ms }

/-- What one call of `loraUpdate` reads from outside `lora_manager.cpp`. -/
structure UpdateEnv where
  /-- Value of the flag `wifiConnected` read by `loraUpdate`. -/
  wifiConnected : Bool
  /-- Value of `millis()` in the join retry test. -/
  msRetryCheck : Nat
  /-- Result of `node->activateOTAA()`. -/
  joinState : Int
  /-- Value of `millis()` assigned to `lastJoinRetry`. -/
  msRetryDone : Nat
  /-- What `checkAndSend` reads. -/
  send : SendEnv

/-- Translation of `loraUpdate()`: the new state and whether `node->activateOTAA()` was
called. -/
def loraUpdate (k : RadioLibCodes) (e : UpdateEnv) (st : LoraState) :
    Option (LoraState × Bool) :=
  if e.wifiConnected then some (st, false)
  else if !st.isInitialized || !st.nodePresent then some (st, false)
  else if !st.hasJoined then
    if subU32 e.msRetryCheck st.lastJoinRetry ≥ 10000 then
      some ({ st with
        hasJoined :=
          if e.joinState = k.errNone ∨ e.joinState = k.newSession then true else st.hasJoined
        lastJoinRetry := e.msRetryDone }, true)
    else some (st, false)
  else
    match checkAndSend e.send st with
    | none => none
    | some st' => some (st', false)

/-- Translation of `loraStop()`: the new state and whether `radio.sleep()` was called. -/
def loraStop (st : LoraState) : LoraState × Bool :=
  if !st.nodePresent || !st.isInitialized then (st, false)
  else ({ st with hasJoined := false }, true)

/-- Translation of `loraResume()`; `ms` is the value of `millis()`. -/
def loraResume (ms : Nat) (st : LoraState) : LoraState :=
  if !st.nodePresent || !st.isInitialized then st
  else { st with hasJoined := false, lastTxMs := ms }

/-- The variables of `loraTask`: the LoRa state and the local `wasWifiConnected`. -/
structure TaskState where
  /-- The static variables of `lora_manager.cpp`. -/
  lora : LoraState
  /-- Local variable `wasWifiConnected`. -/
  wasWifiConnected : Bool
deriving DecidableEq

/-- What one iteration of the `loraTask` loop reads from outside. The flag
`wifiConnected` is volatile and written by other tasks, so each read is a
separate input. -/
structure TaskEnv where
  /-- Flag `wifiConnected` read in `if (wifiConnected && !wasWifiConnected)`. -/
  wifiAtStop : Bool
  /-- Flag `wifiConnected` read in `else if (!wifiConnected && wasWifiConnected)`. -/
  wifiAtResume : Bool
  /-- Flag `wifiConnected` read in `if (!wifiConnected)` before `loraUpdate()`. -/
  wifiAtUpdate : Bool
  /-- Value of `millis()` in `loraResume`. -/
  msResume : Nat
  /-- What `loraUpdate` reads. -/
  update : UpdateEnv

/-- The result of one iteration of the `loraTask` loop. -/
structure TaskStep where
  /-- The variables after the iteration. -/
  state : TaskState
  /-- Whether `node->activateOTAA()` was called. -/
  joinAttempted : Bool
  /-- Whether `radio.sleep()` was called. -/
  radioSlept : Bool
deriving DecidableEq

/-- The edge detection at the start of an iteration of the `loraTask` loop: the
variables after it and whether `radio.sleep()` was called. -/
def taskEdge (e : TaskEnv) (t : TaskState) : TaskState × Bool :=
  if e.wifiAtStop && !t.wasWifiConnected then
    ({ lora := (loraStop t.lora).1, wasWifiConnected := true }, (loraStop t.lora).2)
  else if !e.wifiAtResume && t.wasWifiConnected then
    ({ lora := loraResume e.msResume t.lora, wasWifiConnected := false }, false)
  else (t, false)

/-- Translation of one iteration of the `while (true)` loop of `loraTask`. -/
def loraTaskIteration (k : RadioLibCodes) (e : TaskEnv) (t : TaskState) : Option TaskStep :=
  if !e.wifiAtUpdate then
    match loraUpdate k e.update (taskEdge e t).1.lora with
    | none => none
    | some (st', attempted) =>
      some { state := { (taskEdge e t).1 with lora := st' }
             joinAttempted := attempted
             radioSlept := (taskEdge e t).2 }
  else some { state := (taskEdge e t).1, joinAttempted := false, radioSlept := (taskEdge e t).2 }

/-- The states of `loraTask` at the start of a loop iteration: after `loraInit()` at
program start, and after each further iteration. -/
inductive TaskReachable (k : RadioLibCodes) : TaskState → Prop
  | start (e : InitEnv) :
      TaskReachable k { lora := loraInit k e loraBoot, wasWifiConnected := false }
  | step (e : TaskEnv) (t : TaskState) (out : TaskStep) (ht : TaskReachable k t)
      (h : loraTaskIteration k e t = some out) : TaskReachable k out.state

/-- The LoRa state after two evaluations from `idleLora` at 200000 ms and 800000 ms, at
5 km/h with latest fix `fixParis`: the second one sent the fix because the movement
had changed; the heartbeat time is still 0. -/
def recentSendLora : LoraState :=
  { idleLora with
    lastSendMs := 800000
    lastLatE7 := 488566000
    lastLonE7 := 23522000
    moving := true
    prevMoving := true
    lastLoraTxMs := 800000
    loraTxCount := 1
    sent := [buildPayload (toInt32 1700003000) 488566000 23522000 77] }

/-- The RadioLib codes used in the concrete runs below. -/
def radioCodes : RadioLibCodes :=
  { errNone := 0, newSession := -1118 }

/-- A `loraInit` that completes while its initial join fails, at 1000 ms. -/
def initJoinFails : InitEnv :=
  { beginState := 0, nodeAllocated := true, joinState := -1116, ms := 1000 }

/-- An iteration of `loraTask` at 20000 ms in which `wifiConnected` reads true in the
rising-edge test and false from the `loraUpdate` test on (the WiFi task cleared the
flag in between), and the join retry succeeds. -/
def flagDropsEnv : TaskEnv :=
  { wifiAtStop := true
    wifiAtResume := true
    wifiAtUpdate := false
    msResume := 20000
    update :=
      { wifiConnected := false
        msRetryCheck := 20000
        joinState := 0
        msRetryDone := 25000
        send := envAt 20000 fixParis } }

/-- An iteration of `loraTask` at 26000 ms in which `wifiConnected` reads true at every
read. -/
def wifiUpEnv : TaskEnv :=
  { wifiAtStop := true
    wifiAtResume := true
    wifiAtUpdate := true
    msResume := 26000
    update :=
      { wifiConnected := true
        msRetryCheck := 26000
        joinState := 0
        msRetryDone := 26000
        send := envAt 26000 fixParis } }

/-- The variables of `loraTask` after the iteration `flagDropsEnv` that follows
`loraInit` with `initJoinFails`: `wasWifiConnected` and `hasJoined` are both set. -/
def staleJoinTask : TaskState :=
  { lora :=
      { loraInit radioCodes initJoinFails loraBoot with
        hasJoined := true
        lastJoinRetry := 25000 }
    wasWifiConnected := true }

/-! ## WiFi network arbitration (`wifi_manager.cpp`) -/

/-- Enumeration `CurrentNet` of `wifi_manager.h`. -/
inductive CurrentNet where
  | NONE : CurrentNet
  | IPHONE : CurrentNet
  | HOME : CurrentNet
deriving DecidableEq

/-- Result of `WiFi.status()`, as far as the code distinguishes it: `WL_CONNECTED`,
`WL_DISCONNECTED`, or another status. -/
inductive WlStatus where
  | connected : WlStatus
  | disconnected : WlStatus
  | other : WlStatus
deriving DecidableEq

/-- Result of `WiFi.scanComplete()`: `WIFI_SCAN_RUNNING`, `WIFI_SCAN_FAILED`, or the
number of networks found. -/
inductive ScanState where
  | running : ScanState
  | failed : ScanState
  | done (n : Nat) : ScanState
deriving DecidableEq

/-- The event kinds that `onWiFiEvent` distinguishes. -/
inductive WifiEvent where
  | staGotIp : WifiEvent
  | staDisconnected : WifiEvent
  | other : WifiEvent
deriving DecidableEq

/-- The calls to the WiFi driver that change what the radio does. -/
inductive WifiCall where
  | scanNetworks : WifiCall
  | scanDelete : WifiCall
  | disconnect (wifioff erase : Bool) : WifiCall
  | begin (ssid pass : String) : WifiCall
deriving DecidableEq

/-- The configuration that `wifi_manager.cpp` takes from `secrets.h` and the Arduino
headers. -/
structure WifiConfig where
  /-- Macro `SSID_IPHONE`. -/
  ssidIphone : String
  /-- Macro `PASS_IPHONE`. -/
  passIphone : String
  /-- Macro `SSID_HOME`. -/
  ssidHome : String
  /-- Macro `PASS_HOME`. -/
  passHome : String
  /-- Address `INADDR_NONE`. -/
  inaddrNone : Nat

/-- Constant `SCAN_INTERVAL_MS`. -/
def SCAN_INTERVAL_MS : Nat := 5000

/-- Constant `RECONNECT_BACKOFF_MS`. -/
def RECONNECT_BACKOFF_MS : Nat := 4000

/-- The global variables of `wifi_manager.cpp`, and the list of driver calls issued so
far (oldest first). IP addresses are their 32-bit values. -/
structure NetState where
  /-- Flag `wifiConnected`. -/
  wifiConnected : Bool
  /-- Variable `currentNet`. -/
  currentNet : CurrentNet
  /-- Variable `connectedSsid`. -/
  connectedSsid : String
  /-- Variable `staIP`. -/
  staIP : Nat
  /-- Variable `apIP`. -/
  apIP : Nat
  /-- Counter `activeUploads` (`uint32_t`). -/
  activeUploads : Nat
  /-- Gate `acceptUploads`. -/
  acceptUploads : Bool
  /-- Flag `switchRequested`. -/
  switchRequested : Bool
  /-- Variable `switchReason`. -/
  switchReason : String
  /-- Variable `lastScanMs` (`uint32_t`). -/
  lastScanMs : Nat
  /-- Variable `lastConnectAttemptMs` (`uint32_t`). -/
  lastConnectAttemptMs : Nat
  /-- Flag `scanInProgress`. -/
  scanInProgress : Bool
  /-- Driver calls issued so far. -/
  calls : List WifiCall
deriving DecidableEq

/-- The values of the global variables of `wifi_manager.cpp` at program start. -/
def netBoot : NetState :=
  { wifiConnected := false
    currentNet := CurrentNet.NONE
    connectedSsid := ""
    staIP := 0
    apIP := 0
    activeUploads := 0
    acceptUploads := true
    switchRequested := false
    switchReason := ""
    lastScanMs := 0
    lastConnectAttemptMs := 0
    scanInProgress := false
    calls := [] }

/-- What `updateStatusFromWiFi` reads from the driver. -/
structure StatusQuery where
  /-- Result of `WiFi.status()`. -/
  status : WlStatus
  /-- Result of `WiFi.SSID()`. -/
  ssid : String
  /-- Result of `WiFi.localIP()`. -/
  localIP : Nat
  /-- Result of `WiFi.softAPIP()`. -/
  softAPIP : Nat

/-- What `connectTo` reads from outside. -/
structure ConnectQuery where
  /-- Value of `millis()` in the back-off test. -/
  msCheck : Nat
  /-- Value of `millis()` assigned to `lastConnectAttemptMs`. -/
  msSet : Nat
  /-- Result of `WiFi.status()`. -/
  status : WlStatus
  /-- Result of `WiFi.SSID()`. -/
  ssid : String

/-- Translation of `updateStatusFromWiFi()`. -/
def updateStatusFromWiFi (c : WifiConfig) (q : StatusQuery) (st : NetState) : NetState :=
  if q.status ≠ WlStatus.connected then
    { st with
      wifiConnected := false
      currentNet := CurrentNet.NONE
      connectedSsid := ""
      staIP := c.inaddrNone
      activeUploads := 0
      acceptUploads := true }
  else
    { st with
      wifiConnected := true
      connectedSsid := q.ssid
      staIP := q.localIP
      apIP := q.softAPIP
      currentNet :=
        if q.ssid = c.ssidIphone then CurrentNet.IPHONE
        else if q.ssid = c.ssidHome then CurrentNet.HOME
        else CurrentNet.NONE }

/-- Translation of `connectTo(ssid, pass)`. -/
def connectTo (q : ConnectQuery) (ssid pass : String) (st : NetState) : NetState :=
  if subU32 q.msCheck st.lastConnectAttemptMs < RECONNECT_BACKOFF_MS then st
  else if q.status = WlStatus.connected ∧ q.ssid = ssid then
    { st with lastConnectAttemptMs := q.msSet }
  else
    { st with
      lastConnectAttemptMs := q.msSet
      calls := st.calls ++ [WifiCall.disconnect true true, WifiCall.begin ssid pass] }

/-- Translation of `requestSwitchToIphone()`. -/
def requestSwitchToIphone (st : NetState) : NetState :=
  { st with switchRequested := true, acceptUploads := false }

/-- Translation of `performSwitchIfSafe()`. -/
def performSwitchIfSafe (c : WifiConfig) (q : ConnectQuery) (st : NetState) : NetState :=
  if !st.switchRequested then st
  else if st.activeUploads > 0 then { st with switchReason := "waiting: activeUploads>0" }
  else connectTo q c.ssidIphone c.passIphone { st with switchReason := "", switchRequested := false }

/-- What one call of `ensurePriorityConnectionGraceful` reads from outside. -/
structure CycleEnv where
  /-- What `connectTo` reads in the `performSwitchIfSafe()` at the start. -/
  connectFirst : ConnectQuery
  /-- Result of `WiFi.scanComplete()`. -/
  scan : ScanState
  /-- Result of `WiFi.SSID(i)`. -/
  scanSsid : Nat → String
  /-- What the first `updateStatusFromWiFi()` reads. -/
  statusFirst : StatusQuery
  /-- What `connectTo` reads after the scan results are processed. -/
  connectSecond : ConnectQuery
  /-- First result of `WiFi.status()` in the test before `WiFi.disconnect(false, false)`. -/
  statusDropA : WlStatus
  /-- Second result of `WiFi.status()` in that test. -/
  statusDropB : WlStatus
  /-- What the last `updateStatusFromWiFi()` reads. -/
  statusLast : StatusQuery

/-- The cancellation in `ensurePriorityConnectionGraceful()` when the iPhone network is
not visible: `if (switchRequested) { switchRequested = false; acceptUploads = true; }`. -/
def cancelSwitch (st : NetState) : NetState :=
  if st.switchRequested then { st with switchRequested := false, acceptUploads := true }
  else st

/-- The end of `ensurePriorityConnectionGraceful()` when no known network is visible:
the station is dropped, the status refreshed and the gate opened. -/
def dropStation (c : WifiConfig) (e : CycleEnv) (st : NetState) : NetState :=
  { updateStatusFromWiFi c e.statusLast
      (if e.statusDropA = WlStatus.connected ∨ e.statusDropB = WlStatus.disconnected then
        { st with calls := st.calls ++ [WifiCall.disconnect false false] }
      else st) with
    acceptUploads := true }

/-- The part of `ensurePriorityConnectionGraceful()` after the scan has completed:
from `scanInProgress = false` in the results branch to the end. -/
def processScanResults (c : WifiConfig) (e : CycleEnv) (n : Nat) (st : NetState) : NetState :=
  let iphoneVisible : Bool := (List.range n).any (fun i => e.scanSsid i == c.ssidIphone)
  let homeVisible : Bool := (List.range n).any (fun i => e.scanSsid i == c.ssidHome)
  let st₁ := updateStatusFromWiFi c e.statusFirst
    { st with scanInProgress := false, calls := st.calls ++ [WifiCall.scanDelete] }
  if iphoneVisible then
    if st₁.currentNet = CurrentNet.IPHONE then { st₁ with acceptUploads := true }
    else performSwitchIfSafe c e.connectSecond (requestSwitchToIphone st₁)
  else if homeVisible then
    if (cancelSwitch st₁).currentNet = CurrentNet.HOME then
      { cancelSwitch st₁ with acceptUploads := true }
    else connectTo e.connectSecond c.ssidHome c.passHome (cancelSwitch st₁)
  else dropStation c e (cancelSwitch st₁)

/-- Translation of `ensurePriorityConnectionGraceful()`. -/
def ensurePriorityConnectionGraceful (c : WifiConfig) (e : CycleEnv) (st : NetState) :
    NetState :=
  let st₁ := performSwitchIfSafe c e.connectFirst st
  if !st₁.scanInProgress then
    { st₁ with calls := st₁.calls ++ [WifiCall.scanNetworks], scanInProgress := true }
  else
    match e.scan with
    | ScanState.running => st₁
    | ScanState.failed => { st₁ with scanInProgress := false }
    | ScanState.done n => processScanResults c e n st₁

/-- Translation of `onWiFiEvent(event)`. -/
def onWiFiEvent (c : WifiConfig) (event : WifiEvent) (q : StatusQuery) (st : NetState) :
    NetState :=
  match event with
  | WifiEvent.staGotIp => { updateStatusFromWiFi c q st with acceptUploads := true }
  | WifiEvent.staDisconnected => updateStatusFromWiFi c q st
  | WifiEvent.other => st

/-- Translation of `uploadBegin()`: the returned Boolean and the new state. -/
def uploadBegin (st : NetState) : Bool × NetState :=
  if !st.acceptUploads then (false, st)
  else (true, { st with activeUploads := (st.activeUploads + 1) % 4294967296 })

/-- Translation of `uploadEnd()`. -/
def uploadEnd (st : NetState) : NetState :=
  if st.activeUploads > 0 then { st with activeUploads := st.activeUploads - 1 } else st

/-- Translation of `WiFiInit()`, up to the creation of the mutex and the registration of
`onWiFiEvent`. -/
def WiFiInit (c : WifiConfig) (e : CycleEnv) (st : NetState) : NetState :=
  ensurePriorityConnectionGraceful c e { st with scanInProgress := false }

/-- What one call of `updateWiFi` reads from outside. -/
structure PollEnv where
  /-- Value of `millis()` in the interval test. -/
  msCheck : Nat
  /-- Value of `millis()` assigned to `lastScanMs`. -/
  msSet : Nat
  /-- What `ensurePriorityConnectionGraceful` reads. -/
  cycle : CycleEnv
  /-- What the `updateStatusFromWiFi()` after it reads. -/
  statusAfter : StatusQuery

/-- Translation of `updateWiFi()`. -/
def updateWiFi (c : WifiConfig) (e : PollEnv) (st : NetState) : NetState :=
  if subU32 e.msCheck st.lastScanMs ≥ SCAN_INTERVAL_MS then
    updateStatusFromWiFi c e.statusAfter
      (ensurePriorityConnectionGraceful c e.cycle { st with lastScanMs := e.msSet })
  else st

/-- The states of the network arbitrator: the values at program start, followed by any
sequence of `WiFiInit`, `updateWiFi`, WiFi events, `uploadBegin` and `uploadEnd`. -/
inductive NetReachable (c : WifiConfig) : NetState → Prop
  | boot : NetReachable c netBoot
  | init (e : CycleEnv) (st : NetState) (h : NetReachable c st) :
      NetReachable c (WiFiInit c e st)
  | poll (e : PollEnv) (st : NetState) (h : NetReachable c st) :
      NetReachable c (updateWiFi c e st)
  | event (ev : WifiEvent) (q : StatusQuery) (st : NetState) (h : NetReachable c st) :
      NetReachable c (onWiFiEvent c ev q st)
  | uploadBegin (st : NetState) (h : NetReachable c st) : NetReachable c (uploadBegin st).2
  | uploadEnd (st : NetState) (h : NetReachable c st) : NetReachable c (uploadEnd st)

/-- The driver calls of state `b` are those of state `a` followed by further calls. -/
def CallsExtend (a b : NetState) : Prop :=
  ∃ rest, b.calls = a.calls ++ rest

/-- The configuration of the concrete runs below. -/
def homeConfig : WifiConfig :=
  { ssidIphone := "iphone", passIphone := "p1", ssidHome := "home", passHome := "p2",
    inaddrNone := 0 }

/-- Driver answers while the station has no link. -/
def statusDown : StatusQuery :=
  { status := WlStatus.disconnected, ssid := "", localIP := 0, softAPIP := 0 }

/-- Driver answers while the station is connected to the home network. -/
def statusHome : StatusQuery :=
  { status := WlStatus.connected, ssid := "home", localIP := 3232235786, softAPIP := 0 }

/-- What `connectTo` reads at `ms` milliseconds with the driver answers `q`. -/
def connectAt (ms : Nat) (q : StatusQuery) : ConnectQuery :=
  { msCheck := ms, msSet := ms, status := q.status, ssid := q.ssid }

/-- An arbitration cycle at `ms` milliseconds with the given scan outcome, scanned
network names and driver answers. -/
def cycleAt (ms : Nat) (scan : ScanState) (ssids : List String) (q : StatusQuery) : CycleEnv :=
  { connectFirst := connectAt ms q
    scan := scan
    scanSsid := fun i => ssids.getD i ""
    statusFirst := q
    connectSecond := connectAt ms q
    statusDropA := q.status
    statusDropB := q.status
    statusLast := q }

/-- A call of `updateWiFi` at `ms` milliseconds. -/
def pollAt (ms : Nat) (scan : ScanState) (ssids : List String) (q : StatusQuery) : PollEnv :=
  { msCheck := ms, msSet := ms, cycle := cycleAt ms scan ssids q, statusAfter := q }

/-- The arbitrator after start-up, a connection to the home network at 5000 ms and the
`GOT_IP` event: `WiFiInit` at 2100 ms starts a scan, the cycle at 5000 ms finds
only the home network and connects to it. -/
def netOnHome : NetState :=
  onWiFiEvent homeConfig WifiEvent.staGotIp statusHome
    (updateWiFi homeConfig (pollAt 5000 (ScanState.done 1) ["home"] statusDown)
      (WiFiInit homeConfig (cycleAt 2100 ScanState.running [] statusDown) netBoot))

/-- From `netOnHome`: an upload begins and the cycle at 10000 ms starts a scan. -/
def netUploading : NetState :=
  updateWiFi homeConfig (pollAt 10000 ScanState.running [] statusHome) (uploadBegin netOnHome).2

/-- From `netUploading`: the cycle at 15000 ms finds the iPhone network while the
station is on the home network, so the switch is requested and waits for the
upload. -/
def netSwitchWaiting : NetState :=
  updateWiFi homeConfig (pollAt 15000 (ScanState.done 2) ["iphone", "home"] statusHome)
    netUploading

/-- From `netOnHome`, 49.7 days later (the 32-bit `millis()` count wraps): the cycle at
count 4294960000 starts a scan, an upload begins, the cycle at count 1000 finds
the iPhone network and requests the switch, and the upload ends. -/
def netSwitchReadyAfterWrap : NetState :=
  uploadEnd
    (updateWiFi homeConfig (pollAt 1000 (ScanState.done 2) ["iphone", "home"] statusHome)
      (uploadBegin
        (updateWiFi homeConfig (pollAt 4294960000 ScanState.running [] statusHome)
          netOnHome)).2)

/-- From `netSwitchWaiting`: the cycle at 20000 ms starts the next scan while the upload
is still running, and then the upload ends. A switch is pending, no upload is
in flight and a scan is outstanding. -/
def netSwitchReadyScanning : NetState :=
  uploadEnd (updateWiFi homeConfig (pollAt 20000 ScanState.running [] statusHome)
    netSwitchWaiting)

/-- The runs of the network arbitrator together with the number of uploads currently
running: granted `uploadBegin` calls whose `uploadEnd` has not been called yet.
Every `uploadEnd` belongs to a running upload. -/
inductive NetRun (c : WifiConfig) : NetState → Nat → Prop
  | boot : NetRun c netBoot 0
  | init (e : CycleEnv) (st : NetState) (r : Nat) (h : NetRun c st r) :
      NetRun c (WiFiInit c e st) r
  | poll (e : PollEnv) (st : NetState) (r : Nat) (h : NetRun c st r) :
      NetRun c (updateWiFi c e st) r
  | event (ev : WifiEvent) (q : StatusQuery) (st : NetState) (r : Nat) (h : NetRun c st r) :
      NetRun c (onWiFiEvent c ev q st) r
  | uploadBegin (st : NetState) (r : Nat) (h : NetRun c st r) :
      NetRun c (uploadBegin st).2 (if (uploadBegin st).1 then r + 1 else r)
  | uploadEnd (st : NetState) (r : Nat) (h : NetRun c st r) (hr : 0 < r) :
      NetRun c (uploadEnd st) (r - 1)

/-- Every status answer that an arbitration cycle can read reports `WL_CONNECTED`. -/
def CycleEnv.linkUp (e : CycleEnv) : Prop :=
  e.statusFirst.status = WlStatus.connected ∧ e.statusLast.status = WlStatus.connected

/-- The runs of `NetRun` in which no status refresh finds the station not connected
while an upload is running, and fewer than `2^32` uploads run at the same time. -/
inductive NetRunLinked (c : WifiConfig) : NetState → Nat → Prop
  | boot : NetRunLinked c netBoot 0
  | init (e : CycleEnv) (st : NetState) (r : Nat) (h : NetRunLinked c st r)
      (hl : r = 0 ∨ e.linkUp) : NetRunLinked c (WiFiInit c e st) r
  | poll (e : PollEnv) (st : NetState) (r : Nat) (h : NetRunLinked c st r)
      (hl : r = 0 ∨ (e.cycle.linkUp ∧ e.statusAfter.status = WlStatus.connected)) :
      NetRunLinked c (updateWiFi c e st) r
  | event (ev : WifiEvent) (q : StatusQuery) (st : NetState) (r : Nat)
      (h : NetRunLinked c st r) (hl : r = 0 ∨ q.status = WlStatus.connected) :
      NetRunLinked c (onWiFiEvent c ev q st) r
  | uploadBegin (st : NetState) (r : Nat) (h : NetRunLinked c st r) (hr : r < 4294967295) :
      NetRunLinked c (uploadBegin st).2 (if (uploadBegin st).1 then r + 1 else r)
  | uploadEnd (st : NetState) (r : Nat) (h : NetRunLinked c st r) (hr : 0 < r) :
      NetRunLinked c (uploadEnd st) (r - 1)

/-! ## WiFi upload pipeline (`upload_manager.cpp`) -/

/-- Constant `MAX_UPLOAD_BATCH_SIZE` of `upload_manager.h`. -/
def MAX_UPLOAD_BATCH_SIZE : Nat := 60

/-- The static variables of `upload_manager.cpp`. -/
structure UploadStats where
  /-- Variable `lastWiFiTxMs` (`uint32_t`). -/
  lastWiFiTxMs : Nat
  /-- Variable `wiFiTxCount` (`uint32_t`). -/
  wiFiTxCount : Nat
  /-- Flag `wiFiTxActive`. -/
  wiFiTxActive : Bool
deriving DecidableEq

/-- What ArduinoJson yields for a response body: whether `deserializeJson` reports an
error, and the value of `doc["ackedTs"]` when `doc["ackedTs"].is<uint32_t>()` holds
(a value below `2^32`). -/
structure AckDoc where
  /-- Whether `deserializeJson(doc, response)` returns an error. -/
  error : Bool
  /-- Value `doc["ackedTs"].as<uint32_t>()` when `doc["ackedTs"].is<uint32_t>()`. -/
  ackedTs : Option Nat

/-- Translation of `parseACKResponse(response, ackedTs)`: the returned Boolean and the
caller's `ackedTs` after the call. `json` is `deserializeJson`. -/
def parseACKResponse (json : String → AckDoc) (response : String) (ackedTs : Nat) :
    Bool × Nat :=
  if (json response).error then (false, ackedTs)
  else
    match (json response).ackedTs with
    | none => (false, ackedTs)
    | some v => (true, v)

/-- What one call of `uploadBatchOverWiFi` reads from outside. -/
structure UploadEnv where
  /-- Whether `trackStoreGetAckedTs` acquires the store mutex. -/
  tookAcked : Bool
  /-- Whether the buffer `batch` passed by the caller is not null. -/
  batchOk : Bool
  /-- Whether `trackStoreGetBatch` acquires the store mutex. -/
  tookBatch : Bool
  /-- Result of `http.begin(client, UPLOAD_URL)`. -/
  httpBeginOk : Bool
  /-- Result of `http.POST(jsonPayload)`: an HTTP status, or a negative error code. -/
  code : Int
  /-- Result of `http.getString()`. -/
  response : String
  /-- The function `deserializeJson` with the lookup of `"ackedTs"`. -/
  json : String → AckDoc
  /-- Whether `trackStoreSetAckedTs` acquires the store mutex. -/
  tookSet : Bool
  /-- Value of `millis()` assigned to `lastWiFiTxMs`. -/
  ms : Nat

/-- The variables after a call of `uploadBatchOverWiFi`, with what the call did: the
calls of `uploadBegin` and `uploadEnd` it made, and the records it posted. -/
structure UploadRun where
  /-- The variables of `wifi_manager.cpp`. -/
  net : NetState
  /-- The variables of `track_storage.cpp`. -/
  store : TrackStore
  /-- The variables of `upload_manager.cpp`. -/
  stats : UploadStats
  /-- Number of calls of `uploadBegin()`. -/
  beginCalls : Nat
  /-- Whether a call of `uploadBegin()` returned true. -/
  granted : Bool
  /-- Number of calls of `uploadEnd()`. -/
  endCalls : Nat
  /-- The records of the JSON payload passed to `http.POST`, if it was called. -/
  posted : Option (List FixRec)
deriving DecidableEq

/-- Translation of `uploadBatchOverWiFi(batch)`, up to the serial output and the
construction of the JSON text. No other task runs between its statements. -/
def uploadBatchOverWiFi (e : UploadEnv) (net : NetState) (store : TrackStore)
    (stats : UploadStats) : Option UploadRun :=
  if !net.wifiConnected then
    some { net := net, store := store, stats := stats, beginCalls := 0, granted := false,
           endCalls := 0, posted := none }
  else if !(uploadBegin net).1 then
    some { net := (uploadBegin net).2, store := store, stats := stats, beginCalls := 1,
           granted := false, endCalls := 0, posted := none }
  else
    let net₁ := (uploadBegin net).2
    let ackedTs := trackStoreGetAckedTs e.tookAcked store
    match trackStoreGetBatch e.tookBatch store e.batchOk MAX_UPLOAD_BATCH_SIZE ackedTs with
    | none => none
    | some batch =>
      if batch.length = 0 then
        some { net := uploadEnd net₁, store := store, stats := stats, beginCalls := 1,
               granted := true, endCalls := 1, posted := none }
      else if !e.httpBeginOk then
        some { net := uploadEnd net₁, store := store, stats := stats, beginCalls := 1,
               granted := true, endCalls := 1, posted := none }
      else
        -- wiFiTxActive = true; http.POST; http.getString; wiFiTxActive = false;
        let stats₁ : UploadStats := { stats with wiFiTxActive := false }
        if e.code = 200 then
          -- uint32_t newAckedTs = ackedTs;
          let parsed := parseACKResponse e.json e.response ackedTs
          if parsed.1 && decide (parsed.2 > ackedTs) then
            some { net := uploadEnd net₁
                   store := (trackStoreSetAckedTs e.tookSet store parsed.2).2
                   stats := { stats₁ with
                     lastWiFiTxMs := e.ms
                     wiFiTxCount := (stats₁.wiFiTxCount + batch.length) % 4294967296 }
                   beginCalls := 1, granted := true, endCalls := 1, posted := some batch }
          else
            some { net := uploadEnd net₁, store := store, stats := stats₁, beginCalls := 1,
                   granted := true, endCalls := 1, posted := some batch }
        else
          some { net := uploadEnd net₁, store := store, stats := stats₁, beginCalls := 1,
                 granted := true, endCalls := 1, posted := some batch }

/-- A response body parser for the concrete runs: the body `{"ackedTs":1700003000}` gives
the value 1700003000, every other body is a parse error. -/
def jsonStub (response : String) : AckDoc :=
  if response = "\x7b\"ackedTs\":1700003000\x7d" then { error := false, ackedTs := some 1700003000 }
  else { error := true, ackedTs := none }

/-- A call of `uploadBatchOverWiFi` in which the server answers 200 with
`{"ackedTs":1700003000}`. -/
def uploadOkEnv : UploadEnv :=
  { tookAcked := true, batchOk := true, tookBatch := true, httpBeginOk := true, code := 200,
    response := "\x7b\"ackedTs\":1700003000\x7d", json := jsonStub, tookSet := true, ms := 61000 }

/-- The values of the static variables of `upload_manager.cpp` at program start. -/
def uploadBoot : UploadStats :=
  { lastWiFiTxMs := 0, wiFiTxCount := 0, wiFiTxActive := false }

/-! ## Winter time (`gps.cpp`) -/

/-- The cache of `gpsIsWinterTime()`: the static variables `gpsIsWinterTime_cachedResult`,
`gpsIsWinterTime_cachedDay`, `gpsIsWinterTime_cachedMonth` and
`gpsIsWinterTime_cachedYear`. -/
structure WinterCache where
  /-- Variable `gpsIsWinterTime_cachedResult`. -/
  cachedResult : Bool
  /-- Variable `gpsIsWinterTime_cachedDay` (`uint8_t`). -/
  cachedDay : Nat
  /-- Variable `gpsIsWinterTime_cachedMonth` (`uint8_t`). -/
  cachedMonth : Nat
  /-- Variable `gpsIsWinterTime_cachedYear` (`uint16_t`). -/
  cachedYear : Nat
deriving DecidableEq

/-- The values of the cache variables at program start. -/
def winterCacheBoot : WinterCache :=
  { cachedResult := false, cachedDay := 0, cachedMonth := 0, cachedYear := 0 }

/-- What one call of `gpsIsWinterTime()` reads from outside. -/
structure ClockEnv where
  /-- Result of `GPS.date.isValid()`. -/
  dateValid : Bool
  /-- Result of `GPS.time.isValid()`. -/
  timeValid : Bool
  /-- Result of `GPS.date.year()` (`uint16_t`). -/
  gpsYear : Nat
  /-- Result of `GPS.date.month()` (`uint8_t`). -/
  gpsMonth : Nat
  /-- Result of `GPS.date.day()` (`uint8_t`). -/
  gpsDay : Nat
  /-- Result of `GPS.time.hour()` (`uint8_t`). -/
  gpsHour : Nat
  /-- Result of `year()` of TimeLib (`int`). -/
  libYear : Int
  /-- Result of `month()` of TimeLib (`int`). -/
  libMonth : Int
  /-- Result of `day()` of TimeLib (`int`). -/
  libDay : Int
  /-- Result of `hour()` of TimeLib (`int`). -/
  libHour : Int

/-- The lambda `isLeap` of `gpsIsWinterTime()`. -/
def isLeap (year : Nat) : Bool :=
  (year % 4 == 0 && year % 100 != 0) || year % 400 == 0

/-- The lambda `daysInMonth` of `gpsIsWinterTime()`, for `month` from 1 to 12 (it is
called with 3 and 10 only). -/
def daysInMonth (year month : Nat) : Nat :=
  if month = 2 then (if isLeap year then 29 else 28)
  else [31, 28, 31, 30, 31, 30, 31, 31, 30, 31, 30, 31].getD (month - 1) 0

/-- The lambda `calcDayOfWeek` of `gpsIsWinterTime()`, for `month` from 1 to 12: `year` is a
`uint16_t`, the expression is evaluated in `int` and its remainder modulo 7
converted to `uint8_t`; 0 is Sunday. -/
def calcDayOfWeek (year month day : Nat) : Nat :=
  let y := if month < 3 then (year + 65535) % 65536 else year
  (y + y / 4 - y / 100 + y / 400 + [0, 3, 2, 5, 0, 3, 5, 1, 4, 6, 2, 4].getD (month - 1) 0 + day) % 7

/-- The loop `for (int day = dim; day >= 1; --day)` of the lambda `lastSunday`, from
`day` downwards: the first day that is a Sunday, or `dim` if there is none. -/
def lastSundayFrom (year month dim : Nat) : Nat → Nat
  | 0 => dim
  | day + 1 =>
    if calcDayOfWeek year month (day + 1) = 0 then day + 1
    else lastSundayFrom year month dim day

/-- The lambda `lastSunday` of `gpsIsWinterTime()`. -/
def lastSunday (year month : Nat) : Nat :=
  lastSundayFrom year month (daysInMonth year month) (daysInMonth year month)

/-- The value of `isSummer` that `gpsIsWinterTime()` computes for the date `y`-`m`-`d` and
the hour `h` when the cache does not apply. -/
def isSummer (y m d h : Nat) : Bool :=
  if m < 3 ∨ m > 10 then false
  else if m > 3 ∧ m < 10 then true
  else if m = 3 then
    if d > lastSunday y 3 then true
    else if d < lastSunday y 3 then false
    else decide (h ≥ 1)
  else
    if d < lastSunday y 10 then true
    else if d > lastSunday y 10 then false
    else decide (h < 1)

/-- The part of `gpsIsWinterTime()` after `y`, `m`, `d`, `h` are set: the cache test, the
computation and the cache update. -/
def winterTimeOf (y m d h : Nat) (c : WinterCache) : Bool × WinterCache :=
  if y = c.cachedYear ∧ m = c.cachedMonth ∧ d = c.cachedDay then (c.cachedResult, c)
  else
    (!isSummer y m d h,
      { cachedResult := !isSummer y m d h, cachedYear := y, cachedMonth := m, cachedDay := d })

/-- Translation of `gpsIsWinterTime()`: the returned Boolean and the cache after the
call. -/
def gpsIsWinterTime (e : ClockEnv) (c : WinterCache) : Bool × WinterCache :=
  if e.dateValid && e.timeValid then
    winterTimeOf (e.gpsYear % 65536) (e.gpsMonth % 256) (e.gpsDay % 256) (e.gpsHour % 256) c
  else
    -- static_cast<uint16_t>(year()), static_cast<uint8_t>(month()), ...
    let y := (e.libYear % 65536).toNat
    let m := (e.libMonth % 256).toNat
    let d := (e.libDay % 256).toNat
    let h := (e.libHour % 256).toNat
    if y < 1971 ∨ m = 0 ∨ d = 0 then (true, c)
    else winterTimeOf y m d h c

/-- A call of `gpsIsWinterTime()` while the receiver reports the valid UTC date
`y`-`m`-`d` and the hour `h`. -/
def utcClock (y m d h : Nat) : ClockEnv :=
  { dateValid := true, timeValid := true, gpsYear := y, gpsMonth := m, gpsDay := d,
    gpsHour := h, libYear := 1970, libMonth := 1, libDay := 1, libHour := 0 }

/-! ## GPS sampler (`gps_sampler.cpp`) -/

/-- Constant `FL_CHARGING` of `track_storage.h`. -/
def FL_CHARGING : Nat := 1

/-- Constant `FL_GPS_VALID` of `track_storage.h`. -/
def FL_GPS_VALID : Nat := 2

/-- Constant `FL_LOW_BATTERY` of `track_storage.h`. -/
def FL_LOW_BATTERY : Nat := 64

/-- Translation of `getTimestampSeconds()`: `now` is the result of `now()` (a `time_t`),
`winter` the result of `gpsIsWinterTime()` and `ms` the result of `millis()`. The
subtraction is made in `uint32_t`. -/
def getTimestampSeconds (now : Int) (winter : Bool) (ms : Nat) : Nat :=
  if now > 100000 then subU32 (toUInt32 now) ((if winter then 1 else 0) * 3600)
  else (ms % 4294967296) / 1000

/-- What one call of `sampleGPSFix` reads from outside. -/
structure SampleEnv where
  /-- Result of `now()`. -/
  now : Int
  /-- Result of `gpsIsWinterTime()`. -/
  winter : Bool
  /-- Result of `millis()`. -/
  ms : Nat
  /-- Result of `llround(GPS.location.lat() * 1e7)`. -/
  latRounded : Int
  /-- Result of `llround(GPS.location.lng() * 1e7)`. -/
  lngRounded : Int
  /-- Result of `getBatteryPercent()` (`uint8_t`). -/
  battery : Nat
  /-- Result of `isCharging()`. -/
  charging : Bool
  /-- Result of `GPS.location.isValid()`. -/
  locationValid : Bool
  /-- Whether `trackStorePush` acquires the store mutex. -/
  took : Bool

/-- The result of a call of `sampleGPSFix`: whether `trackStorePush` was called, whether
it returned true, the record after the call, and the store. -/
structure SampleRun where
  /-- Whether `trackStorePush(rec)` was called. -/
  pushCalled : Bool
  /-- Whether `trackStorePush(rec)` returned true. -/
  stored : Bool
  /-- The local `rec` at the end of the call. -/
  record : FixRec
  /-- The store after the call. -/
  store : TrackStore
deriving DecidableEq

/-- Translation of `sampleGPSFix()`, up to the serial output. The conversion of the
rounded coordinates to `int32_t` keeps the low 32 bits. -/
def sampleGPSFix (e : SampleEnv) (s : TrackStore) : Option SampleRun :=
  let ts := getTimestampSeconds e.now e.winter e.ms
  if ts < 946684800 then
    some { pushCalled := false, stored := false, record := { FixRec.zero with ts := ts },
           store := s }
  else
    let bat := e.battery % 256
    let flags :=
      ((if e.charging then FL_CHARGING else 0) ||| (if e.locationValid then FL_GPS_VALID else 0))
        ||| (if bat ≤ 15 then FL_LOW_BATTERY else 0)
    let r : FixRec :=
      { seq := 0
        ts := ts
        latE7 := toInt32 (toUInt32 e.latRounded)
        lonE7 := toInt32 (toUInt32 e.lngRounded)
        bat := bat
        flags := flags }
    match trackStorePush e.took s r with
    | none => none
    | some (ok, r', s') => some { pushCalled := true, stored := ok, record := r', store := s' }

/-- A sample taken with a known time (14 November 2023) while the receiver reports the
latitude 95 degrees and the longitude 2.3522 degrees. -/
def latitude95Env : SampleEnv :=
  { now := 1700003000, winter := true, ms := 60000, latRounded := 950000000,
    lngRounded := 23522000, battery := 77, charging := false, locationValid := true,
    took := true }

/-! ## Longitude difference of `distanceMeters` (`lora_manager.cpp`) -/

/-- The subtraction `lon2E7 - lon1E7` of `distanceMeters`, made in `int32_t`: `none` where
the mathematical difference is not representable (signed overflow has no defined
behaviour). -/
def lonDiffE7 (lon1E7 lon2E7 : Int) : Option Int :=
  if -2147483648 ≤ lon2E7 - lon1E7 ∧ lon2E7 - lon1E7 ≤ 2147483647 then some (lon2E7 - lon1E7)
  else none

/-- A fix just west of the antimeridian, at 17 S 179.9 E. -/
def fixEastOfFiji : FixRec :=
  { seq := 0, ts := 1700003000, latE7 := -170000000, lonE7 := 1799000000, bat := 77, flags := 2 }

/-- A fix just east of the antimeridian, at 17 S 179.9 W, about 21 km from
`fixEastOfFiji`. -/
def fixWestOfSamoa : FixRec :=
  { seq := 0, ts := 1700003600, latE7 := -170000000, lonE7 := -1799000000, bat := 77, flags := 2 }

/-- The LoRa state after two evaluations from `idleLora` at 200000 ms and 400000 ms, at
5 km/h with latest fix `fixEastOfFiji`: the second one sent the fix because the
movement had changed. -/
def antimeridianLora : LoraState :=
  { idleLora with
    lastSendMs := 400000
    lastLatE7 := -170000000
    lastLonE7 := 1799000000
    moving := true
    prevMoving := true
    lastLoraTxMs := 400000
    loraTxCount := 1
    sent := [buildPayload (toInt32 1700003000) (-170000000) 1799000000 77] }

/-! ## The bounded FIFO that the fix store refines -/

/-- Modelled from the spec: a push onto a bounded FIFO of capacity `C`. The record
receives the sequence number `n`, is appended as the newest, and the oldest record
is evicted if the queue then holds more than `C` records. -/
def fifoPush (C : Nat) (q : List FixRec) (n : Nat) (r : FixRec) : List FixRec :=
  if (q ++ [{ r with seq := n }]).length > C then (q ++ [{ r with seq := n }]).tail
  else q ++ [{ r with seq := n }]

/-- Modelled from the spec: successive pushes onto a bounded FIFO of capacity `C`, the
first one with sequence number `n`, each further one with the next number. -/
def fifoPushAll (C : Nat) : List FixRec → Nat → List FixRec → List FixRec
  | q, _, [] => q
  | q, n, r :: rs => fifoPushAll C (fifoPush C q n r) (n + 1) rs

/-- Modelled from the spec: the bounded FIFO of capacity `C` after the records `rs` were
pushed onto the empty queue, with the sequence numbers 1, 2, 3, ... -/
def boundedFifo (C : Nat) (rs : List FixRec) : List FixRec :=
  fifoPushAll C [] 1 rs

/-- A record with its sequence number reduced to 32 bits. -/
def wrapSeq (r : FixRec) : FixRec :=
  { r with seq := r.seq % 4294967296 }

/-- An evaluation of `checkAndSend` that the rate limiter or the validation of the latest
fix does not permit: fewer than `MIN_SEND_INTERVAL_MS` since the last send, or no
stored fix, or a latest fix with a timestamp or a coordinate out of range. -/
def HeldBack (e : SendEnv) (st : LoraState) : Prop :=
  subU32 e.msCheck st.lastSendMs < MIN_SEND_INTERVAL_MS ∨
  ∃ found fix, trackStoreGetLatest e.took e.store FixRec.zero = some (found, fix) ∧
    (found = false ∨ fix.ts < 946684800 ∨
      fix.latE7 < -900000000 ∨ 900000000 < fix.latE7 ∨
      fix.lonE7 < -1800000000 ∨ 1800000000 < fix.lonE7)

/-- The records of a list with the consecutive sequence numbers `n`, `n + 1`, ... in
place of their own. -/
def numbered : Nat → List FixRec → List FixRec
  | _, [] => []
  | n, r :: rs => { r with seq := n } :: numbered (n + 1) rs

/-! ## Theorems about the fix store -/

theorem stored_length (s : TrackStore) : (stored s).length = s.count := by
  simp [stored]

/-- Ring index arithmetic: a sum below `2 * cap` is reduced by one subtraction. -/
theorem mod_wrap (a cap : Nat) (h : a < 2 * cap) :
    a % cap = if a < cap then a else a - cap := by
  split
  · exact Nat.mod_eq_of_lt (by assumption)
  · rw [Nat.mod_eq_sub_mod (by omega)]
    exact Nat.mod_eq_of_lt (by omega)

theorem stored_getD (s : TrackStore) (j : Nat) (hj : j < s.count) :
    (stored s).getD j FixRec.zero =
      s.ring.getD ((s.head + s.cap - s.count + j) % s.cap) FixRec.zero := by
  simp [stored, List.getD_eq_getElem?_getD, List.getElem?_map, List.getElem?_range, hj]

theorem ext_getD (l₁ l₂ : List FixRec) (hl : l₁.length = l₂.length)
    (h : ∀ i, i < l₁.length → l₁.getD i FixRec.zero = l₂.getD i FixRec.zero) : l₁ = l₂ := by
  apply List.ext_getElem hl
  intro n h₁ h₂
  have := h n h₁
  simpa [List.getD_eq_getElem?_getD, List.getElem?_eq_getElem, h₁, h₂] using this

theorem getD_set_self (l : List FixRec) (i : Nat) (a d : FixRec) (h : i < l.length) :
    (l.set i a).getD i d = a := by
  simp [List.getD_eq_getElem?_getD, List.getElem?_set, h]

theorem getD_set_other (l : List FixRec) (i j : Nat) (a d : FixRec) (h : i ≠ j) :
    (l.set i a).getD j d = l.getD j d := by
  simp [List.getD_eq_getElem?_getD, List.getElem?_set, h]

theorem getD_drop_one (l : List FixRec) (i : Nat) (d : FixRec) :
    (l.drop 1).getD i d = l.getD (i + 1) d := by
  simp [List.getD_eq_getElem?_getD, List.getElem?_drop, Nat.add_comm]

/-- One slot of the ring after a push, read at the position of the `j`-th stored
record of the new state: the pushed record for the newest position, otherwise
the record that was stored at position `j` (or `j + 1` when the ring was full). -/
theorem ring_push_getD (ring : List FixRec) (cap head count j : Nat) (r : FixRec)
    (hlen : ring.length = cap) (hhead : head < cap) (hcount : count ≤ cap)
    (hheq : count < cap → head = count)
    (hj : j < (if count < cap then count + 1 else count)) :
    (ring.set head r).getD
        (((head + 1) % cap + cap - (if count < cap then count + 1 else count) + j) % cap)
        FixRec.zero =
      if j + 1 = (if count < cap then count + 1 else count) then r
      else ring.getD ((head + cap - count + (j + (if count < cap then 0 else 1))) % cap)
        FixRec.zero := by
  have e1 : (head + 1) % cap = head + 1 ∧ head + 1 < cap ∨
      (head + 1) % cap = 0 ∧ head + 1 = cap := by
    rw [mod_wrap _ _ (by omega)]
    split_ifs <;> omega
  generalize (head + 1) % cap = h' at e1 ⊢
  by_cases hfull : count < cap
  · have hh := hheq hfull
    simp only [if_pos hfull] at hj ⊢
    have i1 : (h' + cap - (count + 1) + j) % cap = j := by
      rw [mod_wrap _ _ (by omega)]
      split_ifs <;> omega
    rw [i1]
    by_cases hlast : j + 1 = count + 1
    · rw [if_pos hlast]
      have : j = head := by omega
      subst this
      exact getD_set_self _ _ _ _ (by omega)
    · rw [if_neg hlast]
      have i2 : (head + cap - count + (j + 0)) % cap = j := by
        rw [mod_wrap _ _ (by omega)]
        split_ifs <;> omega
      rw [i2]
      exact getD_set_other _ _ _ _ _ (by omega)
  · have hc : count = cap := by omega
    simp only [if_neg hfull] at hj ⊢
    by_cases hlast : j + 1 = count
    · rw [if_pos hlast]
      have i1 : (h' + cap - count + j) % cap = head := by
        rw [mod_wrap _ _ (by omega)]
        split_ifs <;> omega
      rw [i1]
      exact getD_set_self _ _ _ _ (by omega)
    · rw [if_neg hlast]
      have i1 : (h' + cap - count + j) % cap = (head + cap - count + (j + 1)) % cap := by
        rw [mod_wrap _ _ (by omega), mod_wrap (head + cap - count + (j + 1)) _ (by omega)]
        split_ifs <;> omega
      have i2 : head ≠ (head + cap - count + (j + 1)) % cap := by
        rw [mod_wrap _ _ (by omega)]
        split_ifs <;> omega
      rw [i1]
      exact getD_set_other _ _ _ _ _ i2

/-- The effect of a push on the stored window: the stamped record is appended
and, when the ring was full, the oldest record is dropped. -/
theorem stored_push (s : TrackStore) (recIn : FixRec) (hinv : s.Inv) :
    ∃ s', trackStorePush true s recIn = some (true, { recIn with seq := s.nextSeq }, s') ∧
      s'.cap = s.cap ∧ s'.ring.length = s.cap ∧ s'.head = (s.head + 1) % s.cap ∧
      s'.count = (if s.count < s.cap then s.count + 1 else s.count) ∧
      s'.nextSeq = (s.nextSeq + 1) % 4294967296 ∧ s'.ackedTs = s.ackedTs ∧
      stored s' = (if s.count < s.cap then stored s else (stored s).drop 1) ++
        [{ recIn with seq := s.nextSeq }] := by
  obtain ⟨hcap, hlen, hhead, hcount, hheq, -, -⟩ := hinv
  refine ⟨{ s with
      ring := s.ring.set s.head { recIn with seq := s.nextSeq }
      head := (s.head + 1) % s.cap
      count := if s.count < s.cap then s.count + 1 else s.count
      nextSeq := (s.nextSeq + 1) % 4294967296 }, ?_, ?_⟩
  · simp only [trackStorePush, if_true]
    rw [if_pos (by omega), if_neg (by omega)]
  · refine ⟨rfl, by simp [hlen], rfl, rfl, rfl, rfl, ?_⟩
    apply ext_getD
    · rw [stored_length]
      by_cases hfull : s.count < s.cap
      · simp [stored_length, hfull]
      · simp only [if_neg hfull, List.length_append, List.length_drop, stored_length,
          List.length_singleton]
        omega
    · intro j hj
      rw [stored_length] at hj
      rw [stored_getD _ _ hj]
      have key := ring_push_getD s.ring s.cap s.head s.count j { recIn with seq := s.nextSeq }
        hlen hhead hcount hheq hj
      refine key.trans ?_
      by_cases hfull : s.count < s.cap
      · simp only [if_pos hfull] at hj ⊢
        by_cases hlast : j + 1 = s.count + 1
        · rw [if_pos hlast, List.getD_append_right _ _ _ _ (by rw [stored_length]; omega)]
          have : j - (stored s).length = 0 := by rw [stored_length]; omega
          rw [this]
          rfl
        · rw [if_neg hlast, List.getD_append _ _ _ _ (by rw [stored_length]; omega),
            stored_getD _ _ (by omega), Nat.add_zero]
      · simp only [if_neg hfull] at hj ⊢
        by_cases hlast : j + 1 = s.count
        · rw [if_pos hlast, List.getD_append_right _ _ _ _
            (by rw [List.length_drop, stored_length]; omega)]
          have : j - ((stored s).drop 1).length = 0 := by
            rw [List.length_drop, stored_length]; omega
          rw [this]
          rfl
        · rw [if_neg hlast, List.getD_append _ _ _ _
            (by rw [List.length_drop, stored_length]; omega), getD_drop_one,
            stored_getD _ _ (by omega)]

theorem seqChain_snoc (l : List FixRec) (n : Nat) (r : FixRec) (h : SeqChain l n)
    (hn : n < 4294967296) :
    SeqChain (l ++ [{ r with seq := n }]) ((n + 1) % 4294967296) := by
  intro i hi
  rw [List.length_append, List.length_singleton] at hi ⊢
  by_cases hlast : i < l.length
  · rw [List.getD_append _ _ _ _ hlast]
    obtain ⟨h1, h2⟩ := h i hlast
    exact ⟨h1, by omega⟩
  · rw [List.getD_append_right _ _ _ _ (by omega)]
    have : i - l.length = 0 := by omega
    rw [this]
    have hi' : i = l.length := by omega
    subst hi'
    show n < 4294967296 ∧ (n + (l.length + 1 - l.length)) % 4294967296 = _
    have : l.length + 1 - l.length = 1 := by omega
    rw [this]
    exact ⟨hn, rfl⟩

theorem seqChain_drop_one (l : List FixRec) (n : Nat) (h : SeqChain l n) :
    SeqChain (l.drop 1) n := by
  intro i hi
  rw [List.length_drop] at hi ⊢
  rw [getD_drop_one]
  obtain ⟨h1, h2⟩ := h (i + 1) (by omega)
  refine ⟨h1, ?_⟩
  have : l.length - 1 - i = l.length - (i + 1) := by omega
  rw [this]
  exact h2

theorem init_inv (capacity : Nat) (h : 1 ≤ capacity) : (initTrackStore capacity).Inv := by
  refine ⟨h, by simp [initTrackStore], h, Nat.zero_le _, fun _ => rfl, by simp [initTrackStore], ?_⟩
  intro i hi
  simp [stored, initTrackStore] at hi

/-- A push with the mutex acquired keeps the invariant. -/
theorem push_inv (s : TrackStore) (recIn : FixRec) (hinv : s.Inv) :
    ∃ s', trackStorePush true s recIn = some (true, { recIn with seq := s.nextSeq }, s') ∧
      s'.Inv ∧ s'.cap = s.cap ∧
      s'.count = (if s.count < s.cap then s.count + 1 else s.count) ∧
      s'.nextSeq = (s.nextSeq + 1) % 4294967296 ∧ s'.ackedTs = s.ackedTs ∧
      stored s' = (if s.count < s.cap then stored s else (stored s).drop 1) ++
        [{ recIn with seq := s.nextSeq }] := by
  obtain ⟨s', hpush, hcap', hlen', hhead', hcount', hnext', hacked', hstored'⟩ :=
    stored_push s recIn hinv
  obtain ⟨hcap, hlen, hhead, hcount, hheq, hnext, hchain⟩ := hinv
  refine ⟨s', hpush, ⟨?_, ?_, ?_, ?_, ?_, ?_, ?_⟩, hcap', hcount', hnext', hacked', hstored'⟩
  · omega
  · omega
  · rw [hhead', hcap']
    exact Nat.mod_lt _ (by omega)
  · rw [hcount', hcap']
    split_ifs <;> omega
  · rw [hcount', hcap', hhead']
    intro hlt
    split_ifs at hlt ⊢
    · rw [Nat.mod_eq_of_lt (by omega)]
      omega
    · omega
  · rw [hnext']
    exact Nat.mod_lt _ (by decide)
  · rw [hstored', hnext']
    split_ifs
    · exact seqChain_snoc _ _ _ hchain hnext
    · exact seqChain_snoc _ _ _ (seqChain_drop_one _ _ hchain) hnext

theorem stored_setAcked (took : Bool) (s : TrackStore) (ts : Nat) :
    stored (trackStoreSetAckedTs took s ts).2 = stored s := by
  unfold trackStoreSetAckedTs
  split_ifs <;> rfl

theorem setAcked_inv (took : Bool) (s : TrackStore) (ts : Nat) (hinv : s.Inv) :
    (trackStoreSetAckedTs took s ts).2.Inv := by
  have hst := stored_setAcked took s ts
  unfold TrackStore.Inv
  rw [hst]
  unfold trackStoreSetAckedTs
  split_ifs <;> exact hinv

/-- Every reachable store state satisfies the invariant. -/
theorem reachable_inv (s : TrackStore) (h : Reachable s) : s.Inv := by
  induction h with
  | init capacity h => exact init_inv capacity h
  | push took s recIn ok r s' _ h ih =>
    cases took with
    | false =>
      simp only [trackStorePush, Bool.false_eq_true, if_false, Option.some.injEq,
        Prod.mk.injEq] at h
      rw [← h.2.2]
      exact ih
    | true =>
      obtain ⟨s'', hpush, hinv, -⟩ := push_inv s recIn ih
      rw [hpush] at h
      simp only [Option.some.injEq, Prod.mk.injEq] at h
      rw [← h.2.2]
      exact hinv
  | setAcked took s ts _ ih => exact setAcked_inv took s ts ih

theorem reachable_pushAll (rs : List FixRec) (s s' : TrackStore) (hs : Reachable s)
    (h : pushAll s rs = some s') : Reachable s' := by
  induction rs generalizing s with
  | nil =>
    simp only [pushAll, Option.some.injEq] at h
    rw [← h]
    exact hs
  | cons r rs ih =>
    unfold pushAll at h
    split at h
    · exact absurd h (by simp)
    · next ok a s1 heq => exact ih s1 (Reachable.push true s r ok a s1 hs heq) h

/-- Two pushes on a ring of capacity 2 with `head = 0` overwrite both slots. -/
theorem pushAll_two (r : FixRec) (rest : List FixRec) (s : TrackStore) (hcap : s.cap = 2)
    (hhead : s.head = 0) (hlen : s.ring.length = 2) (hcount : s.count ≤ 2) :
    pushAll s (r :: r :: rest) = pushAll
      { ring := [{ r with seq := s.nextSeq },
                 { r with seq := (s.nextSeq + 1) % 4294967296 }]
        cap := 2
        head := 0
        count := 2
        nextSeq := ((s.nextSeq + 1) % 4294967296 + 1) % 4294967296
        ackedTs := s.ackedTs } rest := by
  obtain ⟨ring, cap, head, count, nextSeq, acked⟩ := s
  simp only at hcap hhead hlen hcount
  subst hcap hhead
  match ring, hlen with
  | [a, b], _ =>
    have hc : count = 0 ∨ count = 1 ∨ count = 2 := by omega
    rcases hc with hc | hc | hc <;> subst hc <;> simp [pushAll, trackStorePush]

/-- On a ring of capacity 2 with `head = 0`, an even number of pushes of the same
record leaves the last two stamped records in the two slots. -/
theorem pushAll_cap_two (r : FixRec) (k : Nat) (s : TrackStore) (hcap : s.cap = 2)
    (hhead : s.head = 0) (hlen : s.ring.length = 2) (hcount : s.count ≤ 2)
    (hnext : s.nextSeq < 4294967296) :
    pushAll s (List.replicate (2 * (k + 1)) r) = some
      { ring := [{ r with seq := (s.nextSeq + 2 * k) % 4294967296 },
                 { r with seq := (s.nextSeq + 2 * k + 1) % 4294967296 }]
        cap := 2
        head := 0
        count := 2
        nextSeq := (s.nextSeq + 2 * k + 2) % 4294967296
        ackedTs := s.ackedTs } := by
  induction k generalizing s with
  | zero =>
    have e : List.replicate (2 * (0 + 1)) r = r :: r :: [] := rfl
    rw [e, pushAll_two r [] s hcap hhead hlen hcount]
    simp only [pushAll, Nat.mul_zero, Nat.add_zero, Option.some.injEq, TrackStore.mk.injEq,
      List.cons.injEq, FixRec.mk.injEq, and_true, true_and]
    omega
  | succ k ih =>
    have e : List.replicate (2 * (k + 1 + 1)) r = r :: r :: List.replicate (2 * (k + 1)) r := by
      have : 2 * (k + 1 + 1) = 2 * (k + 1) + 1 + 1 := by omega
      rw [this, List.replicate_succ, List.replicate_succ]
    rw [e, pushAll_two r _ s hcap hhead hlen hcount, ih]
    · simp only [Option.some.injEq, TrackStore.mk.injEq, List.cons.injEq, FixRec.mk.injEq,
        and_true, true_and]
      omega
    · rfl
    · rfl
    · rfl
    · exact Nat.le_refl _
    · exact Nat.mod_lt _ (by decide)

theorem lastSeqStore_reachable : Reachable lastSeqStore := by
  have h := pushAll_cap_two fixOne 2147483646 (initTrackStore 2) rfl rfl rfl (by decide)
    (by decide)
  exact reachable_pushAll _ _ _ (Reachable.init 2 (by decide)) h

theorem wrappedStore_reachable : Reachable wrappedStore := by
  have h := pushAll_cap_two fixOne 2147483647 (initTrackStore 2) rfl rfl rfl (by decide)
    (by decide)
  exact reachable_pushAll _ _ _ (Reachable.init 2 (by decide)) h

/-- The loop of `trackStoreGetBatch`, started at ring index `a % cap` with `todo`
iterations left, appends to `out` the first `maxN - out.length` records with
`ts > afterTs` among the `todo` ring slots read from there on. -/
theorem getBatchLoop_eq (ring : List FixRec) (cap maxN afterTs : Nat) (hcap : 1 ≤ cap)
    (hlen : ring.length = cap) (todo a : Nat) (out : List FixRec) :
    getBatchLoop ring cap maxN afterTs todo (a % cap) out = some
      (out ++ (((List.range todo).map
        (fun j => ring.getD ((a + j) % cap) FixRec.zero)).filter
          (fun r => decide (r.ts > afterTs))).take (maxN - out.length)) := by
  induction todo generalizing a out with
  | zero => simp [getBatchLoop]
  | succ todo ih =>
    have hidx : a % cap < ring.length := by
      rw [hlen]
      exact Nat.mod_lt _ (by omega)
    have hnext : (a % cap + 1) % cap = (a + 1) % cap := Nat.mod_add_mod _ _ _
    have hwin : (List.range (todo + 1)).map (fun j => ring.getD ((a + j) % cap) FixRec.zero) =
        ring.getD (a % cap) FixRec.zero ::
          (List.range todo).map (fun j => ring.getD ((a + 1 + j) % cap) FixRec.zero) := by
      rw [List.range_succ_eq_map, List.map_cons, List.map_map]
      congr 1
      apply List.map_congr_left
      intro j _
      show ring.getD ((a + (j + 1)) % cap) FixRec.zero = _
      rw [Nat.add_assoc, Nat.add_comm 1 j]
    have hget : ring[a % cap]? = some (ring.getD (a % cap) FixRec.zero) := by
      rw [List.getD_eq_getElem?_getD, List.getElem?_eq_getElem hidx]
      rfl
    rw [hwin]
    unfold getBatchLoop
    by_cases hroom : out.length < maxN
    · rw [if_pos hroom, hget]
      simp only
      rw [if_neg (by omega), hnext, ih]
      by_cases hts : (ring.getD (a % cap) FixRec.zero).ts > afterTs
      · rw [if_pos hts, List.filter_cons_of_pos (by simpa using hts)]
        have hk : maxN - out.length = (maxN - (out ++ [ring.getD (a % cap) FixRec.zero]).length) + 1 := by
          rw [List.length_append, List.length_singleton]
          omega
        rw [hk, List.take_succ_cons, List.append_assoc]
        rfl
      · rw [if_neg hts, List.filter_cons_of_neg (by simpa using hts)]
    · rw [if_neg hroom]
      have : maxN - out.length = 0 := by omega
      rw [this, List.take_zero, List.append_nil]

/-- The result of `trackStoreGetBatch` on a store that satisfies the invariant. -/
theorem getBatch_eq (s : TrackStore) (hinv : s.Inv) (maxN afterTs : Nat) :
    trackStoreGetBatch true s true maxN afterTs =
      some (((stored s).filter (fun r => decide (r.ts > afterTs))).take maxN) := by
  obtain ⟨hcap, hlen, -, -, -, -, -⟩ := hinv
  unfold trackStoreGetBatch
  by_cases hmax : maxN = 0
  · simp [hmax]
  · by_cases hcount : s.count = 0
    · simp [hmax, hcount, stored]
    · have hold : oldestIdx s = some ((s.head + s.cap - s.count) % s.cap) := by
        unfold oldestIdx
        rw [if_neg (by omega)]
      simp only [Bool.not_true, Bool.false_or, beq_iff_eq, hmax, if_false, if_true, hcount, hold]
      rw [getBatchLoop_eq _ _ _ _ hcap hlen]
      simp [stored]

/-- While the sequence counter has not wrapped within the stored window, the
stored records carry strictly ascending sequence numbers. -/
theorem stored_pairwise (s : TrackStore) (hinv : s.Inv) (hw : NoSeqWrap s) :
    (stored s).Pairwise (fun a b => a.seq < b.seq) := by
  obtain ⟨-, -, -, -, -, hnext, hchain⟩ := hinv
  rw [List.pairwise_iff_getElem]
  intro i j hi hj hij
  obtain ⟨a1, a2⟩ := hchain i hi
  obtain ⟨b1, b2⟩ := hchain j hj
  rw [List.getD_eq_getElem _ _ hi] at a1 a2
  rw [List.getD_eq_getElem _ _ hj] at b1 b2
  rw [stored_length] at hi hj a2 b2
  unfold NoSeqWrap at hw
  omega

/-- Without a wrap of the counter, stamping assigns consecutive sequence numbers. -/
theorem stamp_seqs (n : Nat) (l : List FixRec) (h : n + l.length ≤ 4294967296) :
    (stamp n l).map FixRec.seq = List.range' n l.length := by
  induction l generalizing n with
  | nil => rfl
  | cons r rs ih =>
    rw [List.length_cons] at h ⊢
    rw [stamp, List.map_cons, List.range'_succ]
    congr 1
    cases rs with
    | nil => rfl
    | cons r' rs' =>
      rw [List.length_cons] at h
      rw [Nat.mod_eq_of_lt (by omega)]
      exact ih (n + 1) (by rw [List.length_cons]; omega)

/-- The stored window after a run of pushes: the last `cap` of the records stored
before followed by the pushed records as stamped. -/
theorem pushAll_stored (rs : List FixRec) (s : TrackStore) (hinv : s.Inv) :
    ∃ s', pushAll s rs = some s' ∧ s'.Inv ∧ s'.cap = s.cap ∧
      s'.count = min s.cap (s.count + rs.length) ∧
      s'.nextSeq = (s.nextSeq + rs.length) % 4294967296 ∧ s'.ackedTs = s.ackedTs ∧
      stored s' = (stored s ++ stamp s.nextSeq rs).drop (s.count + rs.length - s.cap) := by
  induction rs generalizing s with
  | nil =>
    obtain ⟨hcap, hlen, hhead, hcount, hheq, hnext, hchain⟩ := hinv
    refine ⟨s, rfl, ⟨hcap, hlen, hhead, hcount, hheq, hnext, hchain⟩, rfl, ?_, ?_, rfl, ?_⟩
    · rw [List.length_nil, Nat.add_zero, Nat.min_eq_right hcount]
    · rw [List.length_nil, Nat.add_zero, Nat.mod_eq_of_lt hnext]
    · have : s.count + ([] : List FixRec).length - s.cap = 0 := by
        rw [List.length_nil]; omega
      rw [this, stamp, List.append_nil, List.drop_zero]
  | cons r rs ih =>
    obtain ⟨s₁, hpush, hinv₁, hcap₁, hcount₁, hnext₁, hacked₁, hstored₁⟩ := push_inv s r hinv
    obtain ⟨s', hall, hinv', hcap', hcount', hnext', hacked', hstored'⟩ := ih s₁ hinv₁
    obtain ⟨hcap, -, -, hcount, -, -, -⟩ := hinv
    refine ⟨s', ?_, hinv', hcap'.trans hcap₁, ?_, ?_, hacked'.trans hacked₁, ?_⟩
    · unfold pushAll
      rw [hpush]
      exact hall
    · rw [hcount', hcap₁, hcount₁, List.length_cons]
      split_ifs <;> omega
    · rw [hnext', hnext₁, List.length_cons]
      omega
    · rw [hstored', hstored₁, hnext₁, hcount₁, hcap₁, stamp, List.length_cons]
      by_cases hfull : s.count < s.cap
      · rw [if_pos hfull, if_pos hfull, List.append_assoc, List.singleton_append]
        have : s.count + 1 + rs.length - s.cap = s.count + (rs.length + 1) - s.cap := by omega
        rw [this]
      · rw [if_neg hfull, if_neg hfull, List.append_assoc, List.singleton_append,
          ← List.drop_append_of_le_length (by rw [stored_length]; omega), List.drop_drop]
        have : 1 + (s.count + rs.length - s.cap) = s.count + (rs.length + 1) - s.cap := by omega
        rw [this]

/-- Fewer than `2^32` pushes onto a freshly initialised store leave the sequence
numbers of the stored window unwrapped. -/
theorem noSeqWrap_pushAll_init (C : Nat) (hC : 1 ≤ C) (rs : List FixRec)
    (hlen : rs.length < 4294967296) :
    ∃ s', pushAll (initTrackStore C) rs = some s' ∧ NoSeqWrap s' := by
  obtain ⟨s', hall, -, -, hcount', hnext', -, -⟩ :=
    pushAll_stored rs (initTrackStore C) (init_inv C hC)
  have hcount0 : (initTrackStore C).count = 0 := rfl
  have hnext0 : (initTrackStore C).nextSeq = 1 := rfl
  have hcap0 : (initTrackStore C).cap = C := rfl
  rw [hcount0, hcap0] at hcount'
  rw [hnext0] at hnext'
  refine ⟨s', hall, ?_⟩
  unfold NoSeqWrap
  rw [hcount', hnext']
  have := Nat.min_le_right C (0 + rs.length)
  omega

/-- Every stored record is the content of a ring slot. -/
theorem stored_subset_ring (s : TrackStore) (hinv : s.Inv) (r : FixRec) (hr : r ∈ stored s) :
    r ∈ s.ring := by
  obtain ⟨hcap, hlen, -, -, -, -, -⟩ := hinv
  unfold stored at hr
  obtain ⟨j, -, rfl⟩ := List.mem_map.mp hr
  have hidx : (s.head + s.cap - s.count + j) % s.cap < s.ring.length := by
    rw [hlen]
    exact Nat.mod_lt _ (by omega)
  rw [List.getD_eq_getElem _ _ hidx]
  exact List.getElem_mem _

/-- When the ring is full, every ring slot is one of the stored records. -/
theorem ring_subset_stored (s : TrackStore) (hinv : s.Inv) (hfull : s.count = s.cap)
    (r : FixRec) (hr : r ∈ s.ring) : r ∈ stored s := by
  obtain ⟨hcap, hlen, hhead, -, -, -, -⟩ := hinv
  obtain ⟨i, hi, rfl⟩ := List.mem_iff_getElem.mp hr
  rw [hlen] at hi
  have hj : (if s.head ≤ i then i - s.head else i + s.cap - s.head) < s.count := by
    split_ifs <;> omega
  have hidx : (s.head + s.cap - s.count +
      (if s.head ≤ i then i - s.head else i + s.cap - s.head)) % s.cap = i := by
    rw [mod_wrap _ _ (by split_ifs <;> omega)]
    split_ifs <;> omega
  have h := stored_getD s _ hj
  rw [hidx, List.getD_eq_getElem _ _ (by rw [stored_length]; exact hj),
    List.getD_eq_getElem _ _ (by omega)] at h
  rw [← h]
  exact List.getElem_mem _

theorem oneFixStore_reachable (r : FixRec) : Reachable (oneFixStore r) :=
  Reachable.push true (initTrackStore 1) r true { r with seq := 1 } (oneFixStore r)
    (Reachable.init 1 (Nat.le_refl 1)) rfl

/-! ### C1: sequence numbers of successive pushes -/

/-- Claim C1, as stated, fails at the wrap of the 32-bit counter: in the reachable store
of capacity 2 whose next sequence number is 4294967295, two successive successful
pushes assign 4294967295 and then 0, which is not 4294967295 + 1. -/
theorem push_sequence_wraps :
    Reachable lastSeqStore ∧
    ∃ a₁ s₁ a₂ s₂,
      trackStorePush true lastSeqStore fixOne = some (true, a₁, s₁) ∧
      trackStorePush true s₁ fixOne = some (true, a₂, s₂) ∧
      a₁.seq = 4294967295 ∧ a₂.seq = 0 ∧ a₂.seq ≠ a₁.seq + 1 := by
  refine ⟨lastSeqStore_reachable, { fixOne with seq := 4294967295 },
    { ring := [{ fixOne with seq := 4294967295 }, { fixOne with seq := 4294967294 }]
      cap := 2, head := 1, count := 2, nextSeq := 0, ackedTs := 0 },
    { fixOne with seq := 0 },
    { ring := [{ fixOne with seq := 4294967295 }, { fixOne with seq := 0 }]
      cap := 2, head := 0, count := 2, nextSeq := 1, ackedTs := 0 }, ?_⟩
  decide

/-- Claim C1 (amended): on every reachable store (capacity >= 1), two successive pushes
with the mutex acquired both succeed, the first record receives `nextSeq`, and the
second receives the first sequence number plus 1 modulo 2^32: exactly plus 1 when
the first is below 4294967295, and 0 when the first is 4294967295. Eviction plays
no part. -/
theorem push_sequence_successor (s : TrackStore) (hs : Reachable s) (r₁ r₂ : FixRec) :
    ∃ a₁ s₁ a₂ s₂,
      trackStorePush true s r₁ = some (true, a₁, s₁) ∧
      trackStorePush true s₁ r₂ = some (true, a₂, s₂) ∧
      a₁ = { r₁ with seq := s.nextSeq } ∧
      a₂.seq = (a₁.seq + 1) % 4294967296 ∧
      (a₁.seq < 4294967295 → a₂.seq = a₁.seq + 1) ∧
      (a₁.seq = 4294967295 → a₂.seq = 0) := by
  obtain ⟨s₁, h₁, hinv₁, -, -, hnext₁, -, -⟩ := push_inv s r₁ (reachable_inv s hs)
  obtain ⟨s₂, h₂, -⟩ := push_inv s₁ r₂ hinv₁
  refine ⟨_, s₁, _, s₂, h₁, h₂, rfl, ?_, ?_, ?_⟩
  · exact hnext₁
  · intro h
    show s₁.nextSeq = s.nextSeq + 1
    have h' : s.nextSeq < 4294967295 := h
    omega
  · intro h
    show s₁.nextSeq = 0
    have h' : s.nextSeq = 4294967295 := h
    omega

/-- Witness for C1 (amended): the theorem at the freshly initialised store of capacity 1. -/
theorem push_sequence_successor_witness :
    Reachable (initTrackStore 1) ∧
    ∃ a₁ s₁ a₂ s₂,
      trackStorePush true (initTrackStore 1) fixOne = some (true, a₁, s₁) ∧
      trackStorePush true s₁ fixOne = some (true, a₂, s₂) ∧
      a₁ = { fixOne with seq := (initTrackStore 1).nextSeq } ∧
      a₂.seq = (a₁.seq + 1) % 4294967296 ∧
      (a₁.seq < 4294967295 → a₂.seq = a₁.seq + 1) ∧
      (a₁.seq = 4294967295 → a₂.seq = 0) :=
  ⟨Reachable.init 1 (by decide),
    push_sequence_successor (initTrackStore 1) (Reachable.init 1 (by decide)) fixOne fixOne⟩

/-! ### C2: the acknowledgment watermark -/

/-- Claim C2: for every store state with watermark `w` and every `ts`, after
`trackStoreSetAckedTs(ts)` the value returned by `trackStoreGetAckedTs()` is
`max w ts` (mutex acquired in both calls); an attempt to lower the watermark
returns true and leaves the store as it was; and over any sequence of
`trackStoreSetAckedTs` calls, whatever the outcome of taking the mutex, the
watermark never decreases. -/
theorem ackedTs_set_get_max (s : TrackStore) (ts : Nat) :
    trackStoreGetAckedTs true (trackStoreSetAckedTs true s ts).2 =
      max (trackStoreGetAckedTs true s) ts ∧
    (ts ≤ trackStoreGetAckedTs true s → trackStoreSetAckedTs true s ts = (true, s)) ∧
    ∀ calls : List (Bool × Nat),
      trackStoreGetAckedTs true s ≤ trackStoreGetAckedTs true
        (calls.foldl (fun st c => (trackStoreSetAckedTs c.1 st c.2).2) s) := by
  refine ⟨?_, ?_, ?_⟩
  · simp only [trackStoreGetAckedTs, trackStoreSetAckedTs, if_true]
    split_ifs with h
    · exact (Nat.max_eq_right (Nat.le_of_lt h)).symm
    · exact (Nat.max_eq_left (Nat.le_of_not_lt h)).symm
  · intro h
    simp only [trackStoreGetAckedTs, if_true] at h
    simp only [trackStoreSetAckedTs, if_true]
    rw [if_neg (by omega)]
  · intro calls
    induction calls generalizing s with
    | nil => exact Nat.le_refl _
    | cons c cs ih =>
      rw [List.foldl_cons]
      refine Nat.le_trans ?_ (ih _)
      simp only [trackStoreGetAckedTs, trackStoreSetAckedTs, if_true]
      split_ifs
      · simp only
        omega
      · exact Nat.le_refl _
      · exact Nat.le_refl _

/-! ### C3, C4: batch retrieval -/

/-- Claim C3, as stated, fails where the 32-bit sequence counter wrapped between two
stored records: in the reachable store of capacity 2 after 4294967296 pushes,
`trackStoreGetBatch(outBuf, 2, 0)` returns the records with sequence numbers
4294967295 and 0, in this order, which is not ascending. -/
theorem getBatch_order_wraps :
    Reachable wrappedStore ∧
    trackStoreGetBatch true wrappedStore true 2 0 =
      some [{ fixOne with seq := 4294967295 }, { fixOne with seq := 0 }] ∧
    ¬ List.Pairwise (fun a b : FixRec => a.seq < b.seq)
      [{ fixOne with seq := 4294967295 }, { fixOne with seq := 0 }] := by
  refine ⟨wrappedStore_reachable, by decide, ?_⟩
  simp

/-- Claim C3 (amended): on every reachable store, for every `maxN` and `afterTs` (and
whether or not the mutex is taken and `outBuf` is null), `trackStoreGetBatch`
returns at most `maxN` records, each with `ts > afterTs`, in insertion order
(a sublist of the stored records from oldest to newest); the order is strictly
ascending in the sequence number whenever the 32-bit sequence counter has not
wrapped within the stored window, as is the case after fewer than `2^32` pushes
(`noSeqWrap_pushAll_init`). -/
theorem getBatch_bounded_filtered_ordered (s : TrackStore) (hs : Reachable s)
    (took outBufOk : Bool) (maxN afterTs : Nat) :
    ∃ out, trackStoreGetBatch took s outBufOk maxN afterTs = some out ∧
      out.length ≤ maxN ∧ (∀ r ∈ out, r.ts > afterTs) ∧ out.Sublist (stored s) ∧
      (NoSeqWrap s → out.Pairwise (fun a b => a.seq < b.seq)) := by
  have hinv := reachable_inv s hs
  have hempty : ∃ out, some ([] : List FixRec) = some out ∧
      out.length ≤ maxN ∧ (∀ r ∈ out, r.ts > afterTs) ∧ out.Sublist (stored s) ∧
      (NoSeqWrap s → out.Pairwise (fun a b => a.seq < b.seq)) :=
    ⟨[], rfl, Nat.zero_le _, by simp, List.nil_sublist _, fun _ => List.Pairwise.nil⟩
  cases took with
  | false =>
    have e : trackStoreGetBatch false s outBufOk maxN afterTs = some [] := by
      unfold trackStoreGetBatch
      split_ifs <;> first | rfl | contradiction
    rw [e]
    exact hempty
  | true =>
    cases outBufOk with
    | false =>
      unfold trackStoreGetBatch
      exact hempty
    | true =>
      have hsub : (((stored s).filter (fun r => decide (r.ts > afterTs))).take maxN).Sublist
          (stored s) := (List.take_sublist _ _).trans (List.filter_sublist _)
      refine ⟨_, getBatch_eq s hinv maxN afterTs, ?_, ?_, hsub, ?_⟩
      · exact List.length_take_le _ _
      · intro r hr
        have := List.mem_of_mem_take hr
        simpa using (List.mem_filter.mp this).2
      · intro hw
        exact (stored_pairwise s hinv hw).sublist hsub

/-- Witness for C3 (amended): the theorem at the store holding one record, where the
sequence counter has not wrapped, with `maxN = 2` and `afterTs = 0`. -/
theorem getBatch_bounded_filtered_ordered_witness :
    Reachable (oneFixStore fixParis) ∧ NoSeqWrap (oneFixStore fixParis) ∧
    ∃ out, trackStoreGetBatch true (oneFixStore fixParis) true 2 0 = some out ∧
      out.length ≤ 2 ∧ (∀ r ∈ out, r.ts > 0) ∧ out.Sublist (stored (oneFixStore fixParis)) ∧
      (NoSeqWrap (oneFixStore fixParis) → out.Pairwise (fun a b => a.seq < b.seq)) :=
  ⟨oneFixStore_reachable fixParis, by unfold NoSeqWrap; decide,
    getBatch_bounded_filtered_ordered (oneFixStore fixParis) (oneFixStore_reachable fixParis)
      true true 2 0⟩

/-- Claim C4: on every reachable store, for every `maxN` (in particular `maxN >= 1`) and
`afterTs`, `trackStoreGetBatch` (mutex acquired, `outBuf` not null) returns the
first `min maxN k` elements of the list of stored records with `ts > afterTs`
taken from oldest to newest, `k` being the number of such records; when
`k <= maxN` it returns all of them. Nothing is assumed about the order of the
timestamps. -/
theorem getBatch_first_matching (s : TrackStore) (hs : Reachable s) (maxN afterTs : Nat) :
    trackStoreGetBatch true s true maxN afterTs =
      some (((stored s).filter (fun r => decide (r.ts > afterTs))).take
        (min maxN ((stored s).filter (fun r => decide (r.ts > afterTs))).length)) ∧
    (((stored s).filter (fun r => decide (r.ts > afterTs))).length ≤ maxN →
      trackStoreGetBatch true s true maxN afterTs =
        some ((stored s).filter (fun r => decide (r.ts > afterTs)))) := by
  have h := getBatch_eq s (reachable_inv s hs) maxN afterTs
  refine ⟨?_, ?_⟩
  · rw [h]
    congr 1
    rcases Nat.le_total maxN ((stored s).filter (fun r => decide (r.ts > afterTs))).length
      with hle | hle
    · rw [Nat.min_eq_left hle]
    · rw [Nat.min_eq_right hle, List.take_length, List.take_of_length_le hle]
  · intro hle
    rw [h, List.take_of_length_le hle]

/-- Witness for C4: the theorem at the reachable store `lastSeqStore`, with `maxN = 1`
and `afterTs = 0`. -/
theorem getBatch_first_matching_witness :
    Reachable lastSeqStore ∧
    trackStoreGetBatch true lastSeqStore true 1 0 =
      some (((stored lastSeqStore).filter (fun r => decide (r.ts > 0))).take
        (min 1 ((stored lastSeqStore).filter (fun r => decide (r.ts > 0))).length)) ∧
    (((stored lastSeqStore).filter (fun r => decide (r.ts > 0))).length ≤ 1 →
      trackStoreGetBatch true lastSeqStore true 1 0 =
        some ((stored lastSeqStore).filter (fun r => decide (r.ts > 0)))) :=
  ⟨lastSeqStore_reachable, getBatch_first_matching lastSeqStore lastSeqStore_reachable 1 0⟩

/-! ### C5: eviction -/

/-- Claim C5: for every capacity `C >= 1` (a `size_t` capacity whose ring can be
allocated on the 32-bit target, so `C + 1 < 2^32`), pushing `C + 1` records
onto the freshly initialised store succeeds and leaves `trackStoreSize() == C`;
the stored records, oldest to newest, are the second to the last pushed record
with their fields unchanged and the sequence numbers `2 .. C + 1`; the ring
slots hold exactly these records; and no ring slot holds a record with sequence
number 1, so the first-pushed record is gone. -/
theorem push_capacity_plus_one_evicts_first (C : Nat) (hC : 1 ≤ C)
    (hfit : C + 1 < 4294967296) (rs : List FixRec) (hlen : rs.length = C + 1) :
    ∃ s', pushAll (initTrackStore C) rs = some s' ∧
      trackStoreSize true s' = C ∧
      stored s' = stamp 2 rs.tail ∧
      (stored s').map FixRec.seq = List.range' 2 C ∧
      (∀ r, r ∈ s'.ring ↔ r ∈ stored s') ∧
      (∀ r ∈ s'.ring, r.seq ≠ 1) := by
  obtain ⟨s', hall, hinv', hcap', hcount', -, -, hstored'⟩ :=
    pushAll_stored rs (initTrackStore C) (init_inv C hC)
  have hcap0 : (initTrackStore C).cap = C := rfl
  have hcount0 : (initTrackStore C).count = 0 := rfl
  have hnext0 : (initTrackStore C).nextSeq = 1 := rfl
  have hst0 : stored (initTrackStore C) = [] := by simp [stored, initTrackStore]
  rw [hcap0] at hcap'
  rw [hcap0, hcount0, hlen] at hcount'
  have hcnt : s'.count = C := by omega
  have hst : stored s' = stamp 2 rs.tail := by
    rw [hstored', hst0, hnext0, hcap0, hcount0, hlen, List.nil_append]
    have : 0 + (C + 1) - C = 1 := by omega
    rw [this]
    cases rs with
    | nil => simp at hlen
    | cons r tl => rfl
  have htl : rs.tail.length = C := by
    rw [List.length_tail, hlen]
    rfl
  have hseqs : (stored s').map FixRec.seq = List.range' 2 C := by
    rw [hst, stamp_seqs 2 _ (by omega), htl]
  have hring : ∀ r ∈ s'.ring, r ∈ stored s' :=
    fun r hr => ring_subset_stored s' hinv' (by omega) r hr
  refine ⟨s', hall, ?_, hst, hseqs, fun r => ⟨hring r, stored_subset_ring s' hinv' r⟩, ?_⟩
  · simp only [trackStoreSize, if_true]
    exact hcnt
  · intro r hr h1
    have hmem : r.seq ∈ (stored s').map FixRec.seq := List.mem_map_of_mem _ (hring r hr)
    rw [hseqs, List.mem_range'_1] at hmem
    omega

/-- Witness for C5: the theorem at capacity 2 with three pushed records. -/
theorem push_capacity_plus_one_evicts_first_witness :
    1 ≤ 2 ∧ 2 + 1 < 4294967296 ∧ [fixOne, fixOne, fixOne].length = 2 + 1 ∧
    ∃ s', pushAll (initTrackStore 2) [fixOne, fixOne, fixOne] = some s' ∧
      trackStoreSize true s' = 2 ∧
      stored s' = stamp 2 [fixOne, fixOne, fixOne].tail ∧
      (stored s').map FixRec.seq = List.range' 2 2 ∧
      (∀ r, r ∈ s'.ring ↔ r ∈ stored s') ∧
      (∀ r ∈ s'.ring, r.seq ≠ 1) :=
  ⟨by decide, by decide, rfl,
    push_capacity_plus_one_evicts_first 2 (by decide) (by decide) [fixOne, fixOne, fixOne] rfl⟩

/-! ### C6: the latest record -/

/-- Claim C6: `trackStoreGetLatest` returns false and leaves `out` untouched on a freshly
initialised store; and on every reachable store (capacity >= 1), after a push it
returns true with the pushed record: `ts`, `latE7`, `lonE7`, `bat` and `flags`
as pushed and `seq` the sequence number that push assigned. Later watermark
updates do not change this. -/
theorem getLatest_returns_last_push (C : Nat) (s : TrackStore) (hs : Reachable s)
    (recIn out : FixRec) :
    trackStoreGetLatest true (initTrackStore C) out = some (false, out) ∧
    ∃ s', trackStorePush true s recIn = some (true, { recIn with seq := s.nextSeq }, s') ∧
      trackStoreGetLatest true s' out = some (true, { recIn with seq := s.nextSeq }) ∧
      ∀ took ts, trackStoreGetLatest true (trackStoreSetAckedTs took s' ts).2 out =
        some (true, { recIn with seq := s.nextSeq }) := by
  refine ⟨by simp [trackStoreGetLatest, initTrackStore], ?_⟩
  obtain ⟨hcap, hlen, hhead, hcount, -, -, -⟩ := reachable_inv s hs
  have hpush : trackStorePush true s recIn = some (true, { recIn with seq := s.nextSeq },
      { s with
        ring := s.ring.set s.head { recIn with seq := s.nextSeq }
        head := (s.head + 1) % s.cap
        count := if s.count < s.cap then s.count + 1 else s.count
        nextSeq := (s.nextSeq + 1) % 4294967296 }) := by
    simp only [trackStorePush, if_true]
    rw [if_pos (by omega), if_neg (by omega)]
  have hidx : ((s.head + 1) % s.cap + s.cap - 1) % s.cap = s.head := by
    have e1 : (s.head + 1) % s.cap = s.head + 1 ∧ s.head + 1 < s.cap ∨
        (s.head + 1) % s.cap = 0 ∧ s.head + 1 = s.cap := by
      rw [mod_wrap _ _ (by omega)]
      split_ifs <;> omega
    generalize (s.head + 1) % s.cap = h' at e1 ⊢
    rw [mod_wrap _ _ (by omega)]
    split_ifs <;> omega
  have hlatest : trackStoreGetLatest true
      { s with
        ring := s.ring.set s.head { recIn with seq := s.nextSeq }
        head := (s.head + 1) % s.cap
        count := if s.count < s.cap then s.count + 1 else s.count
        nextSeq := (s.nextSeq + 1) % 4294967296 } out =
      some (true, { recIn with seq := s.nextSeq }) := by
    have hpos : (if s.count < s.cap then s.count + 1 else s.count) > 0 := by
      split_ifs <;> omega
    simp only [trackStoreGetLatest, if_true]
    rw [if_pos hpos, if_neg (by omega), hidx]
    simp [List.getElem?_set, hlen, hhead]
  refine ⟨_, hpush, hlatest, ?_⟩
  intro took ts
  rw [← hlatest]
  unfold trackStoreSetAckedTs
  split_ifs <;> rfl

/-- Witness for C6: the theorem at the reachable store `wrappedStore`. -/
theorem getLatest_returns_last_push_witness :
    Reachable wrappedStore ∧
    (trackStoreGetLatest true (initTrackStore 2) FixRec.zero = some (false, FixRec.zero) ∧
    ∃ s', trackStorePush true wrappedStore fixOne =
        some (true, { fixOne with seq := wrappedStore.nextSeq }, s') ∧
      trackStoreGetLatest true s' FixRec.zero =
        some (true, { fixOne with seq := wrappedStore.nextSeq }) ∧
      ∀ took ts, trackStoreGetLatest true (trackStoreSetAckedTs took s' ts).2 FixRec.zero =
        some (true, { fixOne with seq := wrappedStore.nextSeq })) :=
  ⟨wrappedStore_reachable,
    getLatest_returns_last_push 2 wrappedStore wrappedStore_reachable fixOne FixRec.zero⟩

/-! ## Theorems about the LoRa uplink pipeline -/

theorem and_0xFF (x : Nat) : x &&& 0xFF = x % 256 := Nat.and_pow_two_sub_one_eq_mod x 8

theorem bytesBE_eq (u : Nat) :
    bytesBE u = [u / 16777216 % 256, u / 65536 % 256, u / 256 % 256, u % 256] := by
  simp only [bytesBE, and_0xFF, Nat.shiftRight_eq_div_pow]

theorem toUInt32_toInt32 (u : Nat) (h : u < 4294967296) : toUInt32 (toInt32 u) = u := by
  unfold toUInt32 toInt32
  split_ifs <;> omega

theorem toUInt32_lt (x : Int) : toUInt32 x < 4294967296 := by
  unfold toUInt32
  omega

theorem toInt32_toUInt32 (x : Int) (h₁ : -2147483648 ≤ x) (h₂ : x ≤ 2147483647) :
    toInt32 (toUInt32 x) = x := by
  unfold toUInt32 toInt32
  split_ifs <;> omega

/-- Decoding the four bytes that `bytesBE` produces gives the value back. -/
theorem decode_bytesBE (u : Nat) (h : u < 4294967296) :
    u / 16777216 % 256 * 16777216 + u / 65536 % 256 * 65536 + u / 256 % 256 * 256 + u % 256 = u := by
  omega

theorem buildPayload_eq (ts latE7 lonE7 : Int) (bat : Nat) :
    buildPayload ts latE7 lonE7 bat =
      [toUInt32 ts / 16777216 % 256, toUInt32 ts / 65536 % 256, toUInt32 ts / 256 % 256,
        toUInt32 ts % 256,
        toUInt32 latE7 / 16777216 % 256, toUInt32 latE7 / 65536 % 256,
        toUInt32 latE7 / 256 % 256, toUInt32 latE7 % 256,
        toUInt32 lonE7 / 16777216 % 256, toUInt32 lonE7 / 65536 % 256,
        toUInt32 lonE7 / 256 % 256, toUInt32 lonE7 % 256,
        bat % 256] := by
  simp only [buildPayload, bytesBE_eq, List.cons_append, List.nil_append]

/-! ### C7, C8: the 13-byte payload -/

/-- Claim C7: for every timestamp (`uint32_t`), latitude and longitude (`int32_t`, negative
values included) and battery byte, `sendPayload`, called as `checkAndSend` calls it
with the timestamp converted to the `int32_t` parameter, hands exactly one payload to
the radio; the payload has exactly 13 bytes, each below 256; decoding bytes 0-3,
4-7 and 8-11 as big-endian 32-bit values (two's complement for latitude and
longitude) and byte 12 as `uint8_t` returns exactly the timestamp, latitude,
longitude and battery passed in. -/
theorem sendPayload_encoding_roundtrip (ts : Nat) (latE7 lonE7 : Int) (bat : Nat)
    (hts : ts < 4294967296)
    (hlat : -2147483648 ≤ latE7 ∧ latE7 ≤ 2147483647)
    (hlon : -2147483648 ≤ lonE7 ∧ lonE7 ≤ 2147483647)
    (hbat : bat < 256) (msTx : Nat) (st : LoraState) (hnode : st.nodePresent = true) :
    ∃ st' p, sendPayload msTx st (toInt32 ts) latE7 lonE7 bat = some st' ∧
      st'.sent = st.sent ++ [p] ∧
      p = buildPayload (toInt32 ts) latE7 lonE7 bat ∧
      p.length = 13 ∧ (∀ b ∈ p, b < 256) ∧
      decodeU32BE p 0 = ts ∧ decodeI32BE p 4 = latE7 ∧ decodeI32BE p 8 = lonE7 ∧
      p.getD 12 0 = bat := by
  refine ⟨{ st with
      lastLoraTxMs := msTx
      loraTxCount := (st.loraTxCount + 1) % 4294967296
      loraTxActive := false
      sent := st.sent ++ [buildPayload (toInt32 ts) latE7 lonE7 bat] },
    buildPayload (toInt32 ts) latE7 lonE7 bat, ?_, rfl, rfl, ?_, ?_, ?_, ?_, ?_, ?_⟩
  · simp only [sendPayload, hnode, if_true]
  · rw [buildPayload_eq]
    rfl
  · rw [buildPayload_eq]
    intro b hb
    simp only [List.mem_cons, List.mem_singleton, List.not_mem_nil, or_false] at hb
    rcases hb with h | h | h | h | h | h | h | h | h | h | h | h | h <;>
      (rw [h]; exact Nat.mod_lt _ (by decide))
  · rw [buildPayload_eq, toUInt32_toInt32 ts hts]
    simp only [decodeU32BE, List.getD_cons_zero, List.getD_cons_succ]
    exact decode_bytesBE ts hts
  · rw [buildPayload_eq]
    simp only [decodeI32BE, decodeU32BE, List.getD_cons_zero, List.getD_cons_succ]
    rw [decode_bytesBE _ (toUInt32_lt latE7)]
    exact toInt32_toUInt32 latE7 hlat.1 hlat.2
  · rw [buildPayload_eq]
    simp only [decodeI32BE, decodeU32BE, List.getD_cons_zero, List.getD_cons_succ]
    rw [decode_bytesBE _ (toUInt32_lt lonE7)]
    exact toInt32_toUInt32 lonE7 hlon.1 hlon.2
  · rw [buildPayload_eq]
    simp only [List.getD_cons_zero, List.getD_cons_succ]
    exact Nat.mod_eq_of_lt hbat

/-- Witness for C7: the theorem at a timestamp above `2^31` and negative coordinates. -/
theorem sendPayload_encoding_roundtrip_witness :
    ∃ st' p, sendPayload 5 idleLora (toInt32 4000000000) (-488566000) (-23522000) 77 = some st' ∧
      st'.sent = idleLora.sent ++ [p] ∧
      p = buildPayload (toInt32 4000000000) (-488566000) (-23522000) 77 ∧
      p.length = 13 ∧ (∀ b ∈ p, b < 256) ∧
      decodeU32BE p 0 = 4000000000 ∧ decodeI32BE p 4 = -488566000 ∧
      decodeI32BE p 8 = -23522000 ∧ p.getD 12 0 = 77 :=
  sendPayload_encoding_roundtrip 4000000000 (-488566000) (-23522000) 77 (by decide)
    (by decide) (by decide) (by decide) 5 idleLora rfl

/-- Claim C8, as stated, fails: for ts=1700000000, latE7=488566000, lonE7=23522000, bat=77
the packing of `sendPayload` does not produce the bytes
65 73 A5 00 1D CD 1B B8 01 65 E1 28 4D; those bytes decode to the timestamp
1702077696, latitude 499981240 and longitude 23453992. -/
theorem payload_example_differs :
    buildPayload (toInt32 1700000000) 488566000 23522000 77 ≠
      [0x65, 0x73, 0xA5, 0x00, 0x1D, 0xCD, 0x1B, 0xB8, 0x01, 0x65, 0xE1, 0x28, 0x4D] ∧
    decodeU32BE [0x65, 0x73, 0xA5, 0x00, 0x1D, 0xCD, 0x1B, 0xB8, 0x01, 0x65, 0xE1, 0x28, 0x4D] 0 =
      1702077696 ∧
    decodeI32BE [0x65, 0x73, 0xA5, 0x00, 0x1D, 0xCD, 0x1B, 0xB8, 0x01, 0x65, 0xE1, 0x28, 0x4D] 4 =
      499981240 ∧
    decodeI32BE [0x65, 0x73, 0xA5, 0x00, 0x1D, 0xCD, 0x1B, 0xB8, 0x01, 0x65, 0xE1, 0x28, 0x4D] 8 =
      23453992 := by
  decide

/-- Claim C8 (amended): encoding ts=1700000000, latE7=488566000, lonE7=23522000, bat=77 with
the packing of `sendPayload` produces exactly the 13 bytes
65 53 F1 00 1D 1E EC F0 01 66 EA D0 4D. -/
theorem payload_example_bytes :
    buildPayload (toInt32 1700000000) 488566000 23522000 77 =
      [0x65, 0x53, 0xF1, 0x00, 0x1D, 0x1E, 0xEC, 0xF0, 0x01, 0x66, 0xEA, 0xD0, 0x4D] := by
  decide

/-! ### C9: movement hysteresis -/

/-- Claim C9: the movement update of `checkAndSend` is a hysteresis with start threshold
2.0 km/h and stop threshold 1.0 km/h: for every speed `v`, a not-moving state
becomes moving iff `v >= 2.0`, a moving state becomes not-moving iff `v <= 1.0`,
and otherwise the state is kept (a speed that is not a number compares false
and keeps the state); from not-moving, the speeds 0, 1.5, 2.5, 1.2, 0.9 give the
moving states false, false, true, true, false. -/
theorem updateMoving_hysteresis (v : Flt) :
    MOVE_START_KMH = 2 ∧ MOVE_STOP_KMH = 1 ∧
    (updateMoving false v = true ↔ v.ge 2 = true) ∧
    (updateMoving true v = false ↔ v.le 1 = true) ∧
    (v.ge 2 = false → updateMoving false v = false) ∧
    (v.le 1 = false → updateMoving true v = true) ∧
    (∀ q : ℚ, (updateMoving false (Flt.num q) = true ↔ 2 ≤ q) ∧
      (updateMoving true (Flt.num q) = false ↔ q ≤ 1)) ∧
    (List.scanl updateMoving false
      [Flt.num 0, Flt.num (3 / 2), Flt.num (5 / 2), Flt.num (6 / 5), Flt.num (9 / 10)]).tail =
      [false, false, true, true, false] := by
  refine ⟨rfl, rfl, ?_, ?_, ?_, ?_, ?_, ?_⟩
  · simp [updateMoving, MOVE_START_KMH]
  · simp [updateMoving, MOVE_STOP_KMH]
  · intro h
    simp [updateMoving, MOVE_START_KMH, h]
  · intro h
    simp [updateMoving, MOVE_STOP_KMH, h]
  · intro q
    simp [updateMoving, MOVE_START_KMH, MOVE_STOP_KMH, Flt.ge, Flt.le]
  · simp [List.scanl, updateMoving, MOVE_START_KMH, MOVE_STOP_KMH, Flt.ge, Flt.le]
    norm_num

/-! ### C10: the send trigger -/

theorem equatorLora_reached :
    ∃ st, checkAndSend (envAt 200000 fixNoPosition) idleLora = some st ∧
      checkAndSend (envAt 200100 fixNoPosition) st = some equatorLora := by
  refine ⟨{ idleLora with moving := true }, ?_, ?_⟩
  · decide
  · decide

/-- Claim C10, as stated, fails when the last sent latitude is 0. The state `equatorLora` is
reached from `idleLora` by two evaluations that sent the position 0 N 0 E. In
the next evaluation, at 400000 ms with the latest fix in Paris, the rate limiter
permits, the state is Joined, the fix passes validation, the tracker is moving
before and after the speed update and the distance from the last sent position
is at least 50 m, so reasonDistance as the claim words it holds; yet nothing is
sent and `lastSendMs` is unchanged. -/
theorem checkAndSend_distance_guard_blocks :
    (∃ st, checkAndSend (envAt 200000 fixNoPosition) idleLora = some st ∧
      checkAndSend (envAt 200100 fixNoPosition) st = some equatorLora) ∧
    Reachable (envAt 400000 fixParis).store ∧
    ¬ subU32 (envAt 400000 fixParis).msCheck equatorLora.lastSendMs < MIN_SEND_INTERVAL_MS ∧
    equatorLora.hasJoined = true ∧ equatorLora.nodePresent = true ∧
    trackStoreGetLatest true (envAt 400000 fixParis).store FixRec.zero =
      some (true, { fixParis with seq := 1 }) ∧
    946684800 ≤ fixParis.ts ∧
    (-900000000 ≤ fixParis.latE7 ∧ fixParis.latE7 ≤ 900000000) ∧
    (-1800000000 ≤ fixParis.lonE7 ∧ fixParis.lonE7 ≤ 1800000000) ∧
    equatorLora.moving = true ∧
    updateMoving equatorLora.moving (envAt 400000 fixParis).speedKmh = true ∧
    ((envAt 400000 fixParis).distanceMeters equatorLora.lastLatE7 equatorLora.lastLonE7
      fixParis.latE7 fixParis.lonE7).ge 50 = true ∧
    ∃ st', checkAndSend (envAt 400000 fixParis) equatorLora = some st' ∧
      st'.sent = equatorLora.sent ∧ st'.lastSendMs = equatorLora.lastSendMs := by
  refine ⟨equatorLora_reached, oneFixStore_reachable fixParis, by decide, rfl, rfl, by decide,
    by decide, by decide, by decide, rfl, by decide, by decide, equatorLora, by decide, rfl, rfl⟩

/-- Claim C10 (amended): in every evaluation of `checkAndSend` in which the rate limiter
permits, the state is Joined and the latest stored fix exists and passes
validation, exactly one payload (the latest fix) is sent and `lastSendMs` is set
if movementChanged (`moving != prevMoving`, both as the previous evaluation left
them) or reasonDistance (moving after the speed update of this evaluation,
`lastLatE7 != 0`, and distance from the last sent position >= 50 m) or
heartbeatDue (`nowMs - lastHeartbeatMs >= 900000`) holds; when none holds,
nothing is sent and `lastSendMs` is unchanged. -/
theorem checkAndSend_sends_iff_triggered (e : SendEnv) (st : LoraState) (fix : FixRec)
    (hrate : ¬ subU32 e.msCheck st.lastSendMs < MIN_SEND_INTERVAL_MS)
    (hjoined : st.hasJoined = true) (hnode : st.nodePresent = true)
    (hlatest : trackStoreGetLatest e.took e.store FixRec.zero = some (true, fix))
    (hts : 946684800 ≤ fix.ts)
    (hlat : -900000000 ≤ fix.latE7 ∧ fix.latE7 ≤ 900000000)
    (hlon : -1800000000 ≤ fix.lonE7 ∧ fix.lonE7 ≤ 1800000000) :
    ∃ st', checkAndSend e st = some st' ∧
      st'.moving = updateMoving st.moving (if e.speedValid then e.speedKmh else Flt.num 0) ∧
      ((st.moving ≠ st.prevMoving ∨
        (st'.moving = true ∧ st.lastLatE7 ≠ 0 ∧
          (e.distanceMeters st.lastLatE7 st.lastLonE7 fix.latE7 fix.lonE7).ge 50 = true) ∨
        900000 ≤ subU32 e.msNow st.lastHeartbeatMs) →
        st'.sent = st.sent ++ [buildPayload (toInt32 fix.ts) fix.latE7 fix.lonE7 fix.bat] ∧
        st'.lastSendMs = e.msSent) ∧
      (¬ (st.moving ≠ st.prevMoving ∨
        (st'.moving = true ∧ st.lastLatE7 ≠ 0 ∧
          (e.distanceMeters st.lastLatE7 st.lastLonE7 fix.latE7 fix.lonE7).ge 50 = true) ∨
        900000 ≤ subU32 e.msNow st.lastHeartbeatMs) →
        st'.sent = st.sent ∧ st'.lastSendMs = st.lastSendMs) := by
  have h1 : (fix.ts == 0 || decide (fix.ts < 946684800)) = false := by
    simp only [Bool.or_eq_false_iff, beq_eq_false_iff_ne, decide_eq_false_iff_not]
    omega
  have h2 : (decide (fix.latE7 < -900000000) || decide (fix.latE7 > 900000000)) = false := by
    simp only [Bool.or_eq_false_iff, decide_eq_false_iff_not]
    omega
  have h3 : (decide (fix.lonE7 < -1800000000) || decide (fix.lonE7 > 1800000000)) = false := by
    simp only [Bool.or_eq_false_iff, decide_eq_false_iff_not]
    omega
  unfold checkAndSend
  rw [if_neg hrate]
  simp only [hjoined, hnode, Bool.not_true, Bool.or_self, Bool.false_eq_true, if_false, hlatest,
    h1, h2, h3]
  generalize updateMoving st.moving (if e.speedValid = true then e.speedKmh else Flt.num 0) = m
  have hiff : ((st.moving != st.prevMoving ||
      m && st.lastLatE7 != 0 &&
        (e.distanceMeters st.lastLatE7 st.lastLonE7 fix.latE7 fix.lonE7).ge DIST_TRIGGER_M ||
      decide (subU32 e.msNow st.lastHeartbeatMs ≥ HEARTBEAT_INTERVAL_MS)) = true) ↔
      (st.moving ≠ st.prevMoving ∨
        (m = true ∧ st.lastLatE7 ≠ 0 ∧
          (e.distanceMeters st.lastLatE7 st.lastLonE7 fix.latE7 fix.lonE7).ge 50 = true) ∨
        900000 ≤ subU32 e.msNow st.lastHeartbeatMs) := by
    simp only [DIST_TRIGGER_M, HEARTBEAT_INTERVAL_MS, Bool.or_eq_true, Bool.and_eq_true,
      bne_iff_ne, decide_eq_true_eq, ge_iff_le, and_assoc, or_assoc]
  by_cases hb : (st.moving != st.prevMoving ||
      m && st.lastLatE7 != 0 &&
        (e.distanceMeters st.lastLatE7 st.lastLonE7 fix.latE7 fix.lonE7).ge DIST_TRIGGER_M ||
      decide (subU32 e.msNow st.lastHeartbeatMs ≥ HEARTBEAT_INTERVAL_MS)) = true
  · rw [if_pos hb]
    simp only [sendPayload, if_true]
    exact ⟨_, rfl, rfl, fun _ => ⟨rfl, rfl⟩, fun hn => absurd (hiff.mp hb) hn⟩
  · rw [if_neg hb]
    exact ⟨_, rfl, rfl, fun ht => absurd (hiff.mpr ht) hb, fun _ => ⟨rfl, rfl⟩⟩

/-- Witness for C10 (amended): the theorem at an evaluation 900000 ms after start, where
the heartbeat is due. -/
theorem checkAndSend_sends_iff_triggered_witness :
    ∃ st', checkAndSend (envAt 900000 fixParis) idleLora = some st' ∧
      st'.moving = updateMoving idleLora.moving
        (if (envAt 900000 fixParis).speedValid then (envAt 900000 fixParis).speedKmh
          else Flt.num 0) ∧
      ((idleLora.moving ≠ idleLora.prevMoving ∨
        (st'.moving = true ∧ idleLora.lastLatE7 ≠ 0 ∧
          ((envAt 900000 fixParis).distanceMeters idleLora.lastLatE7 idleLora.lastLonE7
            488566000 23522000).ge 50 = true) ∨
        900000 ≤ subU32 (envAt 900000 fixParis).msNow idleLora.lastHeartbeatMs) →
        st'.sent = idleLora.sent ++ [buildPayload (toInt32 1700003000) 488566000 23522000 77] ∧
        st'.lastSendMs = (envAt 900000 fixParis).msSent) ∧
      (¬ (idleLora.moving ≠ idleLora.prevMoving ∨
        (st'.moving = true ∧ idleLora.lastLatE7 ≠ 0 ∧
          ((envAt 900000 fixParis).distanceMeters idleLora.lastLatE7 idleLora.lastLonE7
            488566000 23522000).ge 50 = true) ∨
        900000 ≤ subU32 (envAt 900000 fixParis).msNow idleLora.lastHeartbeatMs) →
        st'.sent = idleLora.sent ∧ st'.lastSendMs = idleLora.lastSendMs) :=
  checkAndSend_sends_iff_triggered (envAt 900000 fixParis) idleLora { fixParis with seq := 1 }
    (by decide) rfl rfl (by decide) (by decide) (by decide) (by decide)

/-! ### Evaluations of `checkAndSend`, case by case -/

/-- While the rate limiter blocks, `checkAndSend` returns with the state untouched. -/
theorem checkAndSend_rate_limited (e : SendEnv) (st : LoraState)
    (h : subU32 e.msCheck st.lastSendMs < MIN_SEND_INTERVAL_MS) :
    checkAndSend e st = some st := by
  unfold checkAndSend
  rw [if_pos h]

/-- Without a join or without a node, `checkAndSend` returns with the state untouched. -/
theorem checkAndSend_not_joined (e : SendEnv) (st : LoraState)
    (h : st.hasJoined = false ∨ st.nodePresent = false) :
    checkAndSend e st = some st := by
  have hc : (!st.hasJoined || !st.nodePresent) = true := by
    rcases h with h | h <;> simp [h]
  unfold checkAndSend
  by_cases h1 : subU32 e.msCheck st.lastSendMs < MIN_SEND_INTERVAL_MS
  · rw [if_pos h1]
  · rw [if_neg h1, if_pos hc]

/-- When `trackStoreGetLatest` finds no record, or the record fails the validation,
`checkAndSend` returns with the state untouched. -/
theorem checkAndSend_no_valid_fix (e : SendEnv) (st : LoraState) (found : Bool) (fix : FixRec)
    (hlatest : trackStoreGetLatest e.took e.store FixRec.zero = some (found, fix))
    (hbad : found = false ∨ fix.ts < 946684800 ∨
      fix.latE7 < -900000000 ∨ 900000000 < fix.latE7 ∨
      fix.lonE7 < -1800000000 ∨ 1800000000 < fix.lonE7) :
    checkAndSend e st = some st := by
  unfold checkAndSend
  by_cases h1 : subU32 e.msCheck st.lastSendMs < MIN_SEND_INTERVAL_MS
  · rw [if_pos h1]
  rw [if_neg h1]
  by_cases h2 : (!st.hasJoined || !st.nodePresent) = true
  · rw [if_pos h2]
  rw [if_neg h2, hlatest]
  simp only
  by_cases c1 : (!found) = true
  · rw [if_pos c1]
  rw [if_neg c1]
  by_cases c2 : (fix.ts == 0 || decide (fix.ts < 946684800)) = true
  · rw [if_pos c2]
  rw [if_neg c2]
  by_cases c3 : (decide (fix.latE7 < -900000000) || decide (fix.latE7 > 900000000)) = true
  · rw [if_pos c3]
  rw [if_neg c3]
  by_cases c4 : (decide (fix.lonE7 < -1800000000) || decide (fix.lonE7 > 1800000000)) = true
  · rw [if_pos c4]
  exfalso
  simp only [Bool.not_eq_true, Bool.not_eq_eq_eq_not, Bool.not_true, Bool.not_false] at c1
  simp only [Bool.or_eq_true, beq_iff_eq, decide_eq_true_eq, not_or, not_lt, gt_iff_lt] at c2 c3 c4
  rcases hbad with hb | hb | hb | hb | hb | hb
  · rw [hb] at c1
    exact absurd c1 (by decide)
  · omega
  · omega
  · omega
  · omega
  · omega

/-- An evaluation that passes the rate limiter, the join test and the validation of the
latest fix: the movement state is updated, and the fix is sent exactly when the
movement had changed, the distance test fires or the heartbeat is due. -/
theorem checkAndSend_valid (e : SendEnv) (st : LoraState) (fix : FixRec)
    (hrate : ¬ subU32 e.msCheck st.lastSendMs < MIN_SEND_INTERVAL_MS)
    (hjoined : st.hasJoined = true) (hnode : st.nodePresent = true)
    (hlatest : trackStoreGetLatest e.took e.store FixRec.zero = some (true, fix))
    (hts : 946684800 ≤ fix.ts)
    (hlat : -900000000 ≤ fix.latE7 ∧ fix.latE7 ≤ 900000000)
    (hlon : -1800000000 ≤ fix.lonE7 ∧ fix.lonE7 ≤ 1800000000) :
    checkAndSend e st = some
      (if shouldSendNow e st fix = true then sentState e st fix
      else { st with moving := movingAfter e st }) := by
  have h1 : (fix.ts == 0 || decide (fix.ts < 946684800)) = false := by
    simp only [Bool.or_eq_false_iff, beq_eq_false_iff_ne, decide_eq_false_iff_not]
    omega
  have h2 : (decide (fix.latE7 < -900000000) || decide (fix.latE7 > 900000000)) = false := by
    simp only [Bool.or_eq_false_iff, decide_eq_false_iff_not]
    omega
  have h3 : (decide (fix.lonE7 < -1800000000) || decide (fix.lonE7 > 1800000000)) = false := by
    simp only [Bool.or_eq_false_iff, decide_eq_false_iff_not]
    omega
  unfold checkAndSend
  rw [if_neg hrate]
  simp only [hjoined, hnode, Bool.not_true, Bool.or_self, Bool.false_eq_true, if_false, hlatest,
    h1, h2, h3, shouldSendNow, sentState, movingAfter]
  split_ifs <;> simp only [sendPayload, if_true]

/-- Every evaluation of `checkAndSend` that returns either leaves the state untouched,
or passed the rate limiter, the join test and the validation of the latest fix. -/
theorem checkAndSend_cases (e : SendEnv) (st st' : LoraState)
    (h : checkAndSend e st = some st') :
    st' = st ∨
    ∃ fix, ¬ subU32 e.msCheck st.lastSendMs < MIN_SEND_INTERVAL_MS ∧
      st.hasJoined = true ∧ st.nodePresent = true ∧
      trackStoreGetLatest e.took e.store FixRec.zero = some (true, fix) ∧
      946684800 ≤ fix.ts ∧
      (-900000000 ≤ fix.latE7 ∧ fix.latE7 ≤ 900000000) ∧
      (-1800000000 ≤ fix.lonE7 ∧ fix.lonE7 ≤ 1800000000) ∧
      st' = (if shouldSendNow e st fix = true then sentState e st fix
        else { st with moving := movingAfter e st }) := by
  by_cases hrate : subU32 e.msCheck st.lastSendMs < MIN_SEND_INTERVAL_MS
  · rw [checkAndSend_rate_limited e st hrate] at h
    exact Or.inl (Option.some.inj h).symm
  by_cases hj : st.hasJoined = true
  swap
  · rw [checkAndSend_not_joined e st (Or.inl (by simpa using hj))] at h
    exact Or.inl (Option.some.inj h).symm
  by_cases hn : st.nodePresent = true
  swap
  · rw [checkAndSend_not_joined e st (Or.inr (by simpa using hn))] at h
    exact Or.inl (Option.some.inj h).symm
  cases hlatest : trackStoreGetLatest e.took e.store FixRec.zero with
  | none =>
    exfalso
    unfold checkAndSend at h
    rw [if_neg hrate] at h
    simp [hj, hn, hlatest] at h
  | some res =>
    obtain ⟨found, fix⟩ := res
    by_cases hbad : found = false ∨ fix.ts < 946684800 ∨
        fix.latE7 < -900000000 ∨ 900000000 < fix.latE7 ∨
        fix.lonE7 < -1800000000 ∨ 1800000000 < fix.lonE7
    · rw [checkAndSend_no_valid_fix e st found fix hlatest hbad] at h
      exact Or.inl (Option.some.inj h).symm
    · simp only [not_or, not_lt, Bool.not_eq_false] at hbad
      obtain ⟨hf, hts, hlat1, hlat2, hlon1, hlon2⟩ := hbad
      subst hf
      rw [checkAndSend_valid e st fix hrate hj hn hlatest hts ⟨hlat1, hlat2⟩ ⟨hlon1, hlon2⟩] at h
      exact Or.inr ⟨fix, hrate, hj, hn, rfl, hts, ⟨hlat1, hlat2⟩, ⟨hlon1, hlon2⟩,
        (Option.some.inj h).symm⟩

theorem update_moving_self (st : LoraState) : { st with moving := st.moving } = st := by
  cases st
  rfl

/-- A quiet evaluation before the heartbeat is due leaves the state untouched. -/
theorem checkAndSend_quiet_not_due (e : SendEnv) (st : LoraState) (hq : QuietEval e st)
    (hearly : subU32 e.msNow st.lastHeartbeatMs < 900000) :
    checkAndSend e st = some st := by
  obtain ⟨hj, hn, hmove, hkeep, fix, hlatest, hts, hlat, hlon, hdist⟩ := hq
  by_cases hrate : subU32 e.msCheck st.lastSendMs < MIN_SEND_INTERVAL_MS
  · exact checkAndSend_rate_limited e st hrate
  · rw [checkAndSend_valid e st fix hrate hj hn hlatest hts hlat hlon]
    have hm : movingAfter e st = st.moving := hkeep
    have hs : shouldSendNow e st fix = false := by
      unfold shouldSendNow
      rw [hm, hdist, hmove]
      simp only [bne_self_eq_false, Bool.or_self, Bool.false_or, decide_eq_false_iff_not,
        HEARTBEAT_INTERVAL_MS, ge_iff_le, not_le]
      omega
    rw [hs, hm, update_moving_self]
    rfl

/-- A run of quiet evaluations before the heartbeat is due leaves the state untouched. -/
theorem runChecks_quiet_not_due (es : List SendEnv) (st : LoraState)
    (h : ∀ e ∈ es, QuietEval e st ∧ subU32 e.msNow st.lastHeartbeatMs < 900000) :
    runChecks es st = some st := by
  induction es with
  | nil => rfl
  | cons e es ih =>
    unfold runChecks
    rw [checkAndSend_quiet_not_due e st (h e (List.mem_cons_self _ _)).1
      (h e (List.mem_cons_self _ _)).2]
    exact ih (fun e' he' => h e' (List.mem_cons_of_mem _ he'))

/-! ### C11: the heartbeat -/

/-- Claim C11, as stated, fails when a send less than 150000 ms old blocks the rate
limiter. The state `recentSendLora` is reached from `idleLora` by an evaluation at
200000 ms (the tracker starts moving) and one at 800000 ms (which sends because the
movement changed and leaves `lastHeartbeatMs` at 0). The evaluation at 900000 ms
is in the Joined state with a valid latest fix, no movement change and no
distance trigger, and 900000 ms have elapsed since `lastHeartbeatMs`; it is the
first such evaluation, and it sends nothing. -/
theorem heartbeat_blocked_by_rate_limiter :
    (∃ st, checkAndSend (envAt 200000 fixParis) idleLora = some st ∧
      checkAndSend (envAt 800000 fixParis) st = some recentSendLora) ∧
    QuietEval (envAt 900000 fixParis) recentSendLora ∧
    900000 ≤ subU32 (envAt 900000 fixParis).msNow recentSendLora.lastHeartbeatMs ∧
    checkAndSend (envAt 900000 fixParis) recentSendLora = some recentSendLora := by
  refine ⟨⟨{ idleLora with moving := true }, by decide, by decide⟩, ?_, by decide, by decide⟩
  exact ⟨rfl, rfl, rfl, by decide, { fixParis with seq := 1 }, by decide, by decide, by decide,
    by decide, by decide⟩

/-- Claim C11 (amended): with the minimum send interval 150000 ms and the heartbeat interval
900000 ms, take a run of `checkAndSend` evaluations in the Joined state with a valid
latest fix, no movement change and no distance trigger. The evaluations in which
fewer than 900000 ms have elapsed since `lastHeartbeatMs` send nothing and leave
the state untouched; the first evaluation at or after 900000 ms at which the rate
limiter also permits sends exactly one payload, the latest fix, and sets
`lastHeartbeatMs` to its `nowMs`; and no further payload is sent by the following
evaluations in which fewer than 900000 ms have elapsed since then. -/
theorem heartbeat_run_sends_once (st : LoraState) (pre : List SendEnv) (e : SendEnv)
    (hpre : ∀ e' ∈ pre, QuietEval e' st ∧ subU32 e'.msNow st.lastHeartbeatMs < 900000)
    (hquiet : QuietEval e st)
    (hdue : 900000 ≤ subU32 e.msNow st.lastHeartbeatMs)
    (hrate : ¬ subU32 e.msCheck st.lastSendMs < 150000) :
    MIN_SEND_INTERVAL_MS = 150000 ∧ HEARTBEAT_INTERVAL_MS = 900000 ∧
    runChecks pre st = some st ∧
    ∃ fix st', trackStoreGetLatest e.took e.store FixRec.zero = some (true, fix) ∧
      checkAndSend e st = some st' ∧
      st'.sent = st.sent ++ [buildPayload (toInt32 fix.ts) fix.latE7 fix.lonE7 fix.bat] ∧
      st'.lastHeartbeatMs = e.msNow ∧
      ∀ post : List SendEnv,
        (∀ e'' ∈ post, QuietEval e'' st' ∧ subU32 e''.msNow e.msNow < 900000) →
        runChecks post st' = some st' := by
  refine ⟨rfl, rfl, runChecks_quiet_not_due pre st hpre, ?_⟩
  obtain ⟨hj, hn, -, -, fix, hlatest, hts, hlat, hlon, -⟩ := hquiet
  have hs : shouldSendNow e st fix = true := by
    unfold shouldSendNow
    have : decide (subU32 e.msNow st.lastHeartbeatMs ≥ HEARTBEAT_INTERVAL_MS) = true := by
      simp only [decide_eq_true_eq, HEARTBEAT_INTERVAL_MS, ge_iff_le]
      omega
    rw [this, Bool.or_true]
  have hhb : (sentState e st fix).lastHeartbeatMs = e.msNow := by
    have : decide (subU32 e.msNow st.lastHeartbeatMs ≥ HEARTBEAT_INTERVAL_MS) = true := by
      simp only [decide_eq_true_eq, HEARTBEAT_INTERVAL_MS, ge_iff_le]
      omega
    simp only [sentState, this, if_true]
  refine ⟨fix, sentState e st fix, hlatest, ?_, rfl, hhb, ?_⟩
  · rw [checkAndSend_valid e st fix hrate hj hn hlatest hts hlat hlon, if_pos hs]
  · intro post hpost
    apply runChecks_quiet_not_due
    intro e'' he''
    refine ⟨(hpost e'' he'').1, ?_⟩
    rw [hhb]
    exact (hpost e'' he'').2

theorem quietEval_equatorLora (ms : Nat) : QuietEval (envAt ms fixParis) equatorLora :=
  ⟨rfl, rfl, rfl, rfl, { fixParis with seq := 1 }, rfl, by decide, by decide,
    by decide, rfl⟩

/-- Witness for C11 (amended): from `equatorLora`, whose last send was at 200100 ms, an
evaluation at 400000 ms followed by one at 900000 ms. -/
theorem heartbeat_run_sends_once_witness :
    MIN_SEND_INTERVAL_MS = 150000 ∧ HEARTBEAT_INTERVAL_MS = 900000 ∧
    runChecks [envAt 400000 fixParis] equatorLora = some equatorLora ∧
    ∃ fix st',
      trackStoreGetLatest (envAt 900000 fixParis).took (envAt 900000 fixParis).store
        FixRec.zero = some (true, fix) ∧
      checkAndSend (envAt 900000 fixParis) equatorLora = some st' ∧
      st'.sent = equatorLora.sent ++
        [buildPayload (toInt32 fix.ts) fix.latE7 fix.lonE7 fix.bat] ∧
      st'.lastHeartbeatMs = (envAt 900000 fixParis).msNow ∧
      ∀ post : List SendEnv,
        (∀ e'' ∈ post, QuietEval e'' st' ∧
          subU32 e''.msNow (envAt 900000 fixParis).msNow < 900000) →
        runChecks post st' = some st' :=
  heartbeat_run_sends_once equatorLora [envAt 400000 fixParis] (envAt 900000 fixParis)
    (fun e' he' => by
      rw [List.mem_singleton] at he'
      subst he'
      exact ⟨quietEval_equatorLora 400000, by decide⟩)
    (quietEval_equatorLora 900000) (by decide) (by decide)

/-! ### C12: the rate limiter -/

/-- Claim C12: in every evaluation of `checkAndSend` in which the unsigned 32-bit difference
`millis() - lastSendMs` is below 150000, nothing is sent and the state is left
untouched, whatever the movement, distance or heartbeat conditions are.
Consequently two consecutive transmissions are at least 150000 ms apart: if
`lastSendMs` is the `millis()` value of the previous transmission at time `T₁`,
and an evaluation that checks the rate limiter at time `T₂c >= T₁` transmits and
records its send time at `T₂s >= T₂c`, then `T₂s >= T₁ + 150000`. -/
theorem rate_limiter_spacing (e : SendEnv) (st : LoraState) :
    MIN_SEND_INTERVAL_MS = 150000 ∧
    (subU32 e.msCheck st.lastSendMs < 150000 → checkAndSend e st = some st) ∧
    ∀ (st' : LoraState) (T₁ T₂c T₂s : Nat),
      st.lastSendMs = T₁ % 4294967296 → e.msCheck = T₂c % 4294967296 →
      e.msSent = T₂s % 4294967296 → T₁ ≤ T₂c → T₂c ≤ T₂s →
      checkAndSend e st = some st' → st'.sent ≠ st.sent →
      st'.lastSendMs = T₂s % 4294967296 ∧ T₁ + 150000 ≤ T₂s := by
  refine ⟨rfl, checkAndSend_rate_limited e st, ?_⟩
  intro st' T₁ T₂c T₂s h1 h2 h3 hle1 hle2 hcs hsent
  rcases checkAndSend_cases e st st' hcs with heq | ⟨fix, hrate, -, -, -, -, -, -, hst'⟩
  · exact absurd (by rw [heq]) hsent
  · by_cases hs : shouldSendNow e st fix = true
    · rw [if_pos hs] at hst'
      refine ⟨by rw [hst', ← h3]; rfl, ?_⟩
      unfold subU32 MIN_SEND_INTERVAL_MS at hrate
      rw [h1, h2] at hrate
      omega
    · rw [if_neg hs] at hst'
      exact absurd (by rw [hst']) hsent

/-! ### C13: no invalid fix is sent -/

/-- The payload of a fix with a 32-bit timestamp and 32-bit coordinates decodes to them. -/
theorem buildPayload_decode (ts : Nat) (latE7 lonE7 : Int) (bat : Nat)
    (hts : ts < 4294967296)
    (hlat : -2147483648 ≤ latE7 ∧ latE7 ≤ 2147483647)
    (hlon : -2147483648 ≤ lonE7 ∧ lonE7 ≤ 2147483647) :
    decodeU32BE (buildPayload (toInt32 ts) latE7 lonE7 bat) 0 = ts ∧
    decodeI32BE (buildPayload (toInt32 ts) latE7 lonE7 bat) 4 = latE7 ∧
    decodeI32BE (buildPayload (toInt32 ts) latE7 lonE7 bat) 8 = lonE7 := by
  rw [buildPayload_eq]
  simp only [decodeI32BE, decodeU32BE, List.getD_cons_zero, List.getD_cons_succ]
  rw [toUInt32_toInt32 ts hts, decode_bytesBE ts hts, decode_bytesBE _ (toUInt32_lt latE7),
    decode_bytesBE _ (toUInt32_lt lonE7)]
  exact ⟨rfl, toInt32_toUInt32 latE7 hlat.1 hlat.2, toInt32_toUInt32 lonE7 hlon.1 hlon.2⟩

/-- Claim C13: in every evaluation of `checkAndSend` in which the store is empty, or the
latest fix has `ts < 946684800`, or `latE7` outside [-900000000, 900000000], or
`lonE7` outside [-1800000000, 1800000000], nothing is sent and the whole state
(so `lastSendMs`, `lastHeartbeatMs`, the last sent position, `moving` and
`prevMoving`) is unchanged. Equivalently, every payload that `checkAndSend` sends
is that of the latest fix, whose timestamp is at least 946684800 and whose
coordinates are in range, and the payload decodes to them. -/
theorem invalid_fix_never_sent (e : SendEnv) (st : LoraState) :
    (e.store.count = 0 → checkAndSend e st = some st) ∧
    (∀ fix, trackStoreGetLatest e.took e.store FixRec.zero = some (true, fix) →
      (fix.ts < 946684800 ∨ fix.latE7 < -900000000 ∨ 900000000 < fix.latE7 ∨
        fix.lonE7 < -1800000000 ∨ 1800000000 < fix.lonE7) →
      checkAndSend e st = some st) ∧
    ∀ st', checkAndSend e st = some st' → st'.sent ≠ st.sent →
      ∃ fix, trackStoreGetLatest e.took e.store FixRec.zero = some (true, fix) ∧
        st'.sent = st.sent ++ [buildPayload (toInt32 fix.ts) fix.latE7 fix.lonE7 fix.bat] ∧
        946684800 ≤ fix.ts ∧
        (-900000000 ≤ fix.latE7 ∧ fix.latE7 ≤ 900000000) ∧
        (-1800000000 ≤ fix.lonE7 ∧ fix.lonE7 ≤ 1800000000) ∧
        (fix.ts < 4294967296 →
          decodeU32BE (buildPayload (toInt32 fix.ts) fix.latE7 fix.lonE7 fix.bat) 0 = fix.ts ∧
          decodeI32BE (buildPayload (toInt32 fix.ts) fix.latE7 fix.lonE7 fix.bat) 4 =
            fix.latE7 ∧
          decodeI32BE (buildPayload (toInt32 fix.ts) fix.latE7 fix.lonE7 fix.bat) 8 =
            fix.lonE7) := by
  refine ⟨?_, ?_, ?_⟩
  · intro hempty
    have hlatest : trackStoreGetLatest e.took e.store FixRec.zero = some (false, FixRec.zero) := by
      unfold trackStoreGetLatest
      rw [hempty, if_neg (by decide : ¬ 0 > 0)]
      split_ifs <;> rfl
    exact checkAndSend_no_valid_fix e st false FixRec.zero hlatest (Or.inl rfl)
  · intro fix hlatest hbad
    exact checkAndSend_no_valid_fix e st true fix hlatest (Or.inr hbad)
  · intro st' hcs hsent
    rcases checkAndSend_cases e st st' hcs with heq | ⟨fix, -, -, -, hlatest, hts, hlat, hlon, hst'⟩
    · exact absurd (by rw [heq]) hsent
    · by_cases hs : shouldSendNow e st fix = true
      · rw [if_pos hs] at hst'
        refine ⟨fix, hlatest, by rw [hst']; rfl, hts, hlat, hlon, ?_⟩
        intro h32
        exact buildPayload_decode fix.ts fix.latE7 fix.lonE7 fix.bat h32
          ⟨by omega, by omega⟩ ⟨by omega, by omega⟩
      · rw [if_neg hs] at hst'
        exact absurd (by rw [hst']) hsent

/-! ### C14: what a send updates -/

/-- Claim C14, as stated, fails for the last sent position: from `idleLora`, the evaluation
at 900000 ms finds `moving == prevMoving` (no movement change), sends because the
heartbeat is due, and changes `lastLatE7` from 0 to 488566000 and `lastLonE7` from
0 to 23522000. -/
theorem heartbeat_send_updates_position :
    idleLora.moving = idleLora.prevMoving ∧
    ∃ st', checkAndSend (envAt 900000 fixParis) idleLora = some st' ∧
      st'.sent ≠ idleLora.sent ∧
      idleLora.lastLatE7 = 0 ∧ st'.lastLatE7 = 488566000 ∧
      idleLora.lastLonE7 = 0 ∧ st'.lastLonE7 = 23522000 ∧
      st'.prevMoving = idleLora.prevMoving := by
  refine ⟨rfl, sentState (envAt 900000 fixParis) idleLora { fixParis with seq := 1 }, ?_⟩
  decide

/-- Claim C14 (amended): every transmitting evaluation of `checkAndSend` sets the last sent
position (`lastLatE7`, `lastLonE7`) to the position of the fix it sent, whatever
the trigger was. When the trigger was not a movement change (`movementChanged`
false) `prevMoving` is left unchanged; `prevMoving` is updated, to the new value
of `moving`, only when the movement had changed. -/
theorem send_updates_position_and_prevMoving (e : SendEnv) (st st' : LoraState)
    (hcs : checkAndSend e st = some st') (hsent : st'.sent ≠ st.sent) :
    ∃ fix, trackStoreGetLatest e.took e.store FixRec.zero = some (true, fix) ∧
      st'.sent = st.sent ++ [buildPayload (toInt32 fix.ts) fix.latE7 fix.lonE7 fix.bat] ∧
      st'.lastLatE7 = fix.latE7 ∧ st'.lastLonE7 = fix.lonE7 ∧
      (st.moving = st.prevMoving → st'.prevMoving = st.prevMoving) ∧
      (st.moving ≠ st.prevMoving → st'.prevMoving = st'.moving) := by
  rcases checkAndSend_cases e st st' hcs with heq | ⟨fix, -, -, -, hlatest, -, -, -, hst'⟩
  · exact absurd (by rw [heq]) hsent
  · by_cases hs : shouldSendNow e st fix = true
    · rw [if_pos hs] at hst'
      refine ⟨fix, hlatest, by rw [hst']; rfl, by rw [hst']; rfl, by rw [hst']; rfl, ?_, ?_⟩
      · intro hm
        rw [hst']
        simp [sentState, hm]
      · intro hm
        rw [hst']
        simp [sentState, hm]
    · rw [if_neg hs] at hst'
      exact absurd (by rw [hst']) hsent

/-- Witness for C14 (amended): the evaluation at 900000 ms from `idleLora`, which sends. -/
theorem send_updates_position_and_prevMoving_witness :
    ∃ fix, trackStoreGetLatest (envAt 900000 fixParis).took (envAt 900000 fixParis).store
        FixRec.zero = some (true, fix) ∧
      (sentState (envAt 900000 fixParis) idleLora { fixParis with seq := 1 }).sent =
        idleLora.sent ++ [buildPayload (toInt32 fix.ts) fix.latE7 fix.lonE7 fix.bat] ∧
      (sentState (envAt 900000 fixParis) idleLora { fixParis with seq := 1 }).lastLatE7 =
        fix.latE7 ∧
      (sentState (envAt 900000 fixParis) idleLora { fixParis with seq := 1 }).lastLonE7 =
        fix.lonE7 ∧
      (idleLora.moving = idleLora.prevMoving →
        (sentState (envAt 900000 fixParis) idleLora { fixParis with seq := 1 }).prevMoving =
          idleLora.prevMoving) ∧
      (idleLora.moving ≠ idleLora.prevMoving →
        (sentState (envAt 900000 fixParis) idleLora { fixParis with seq := 1 }).prevMoving =
          (sentState (envAt 900000 fixParis) idleLora { fixParis with seq := 1 }).moving) :=
  send_updates_position_and_prevMoving (envAt 900000 fixParis) idleLora
    (sentState (envAt 900000 fixParis) idleLora { fixParis with seq := 1 })
    (by decide) (by decide)

/-! ### C15: join retries -/

/-- Claim C15: in every `loraUpdate` tick that starts in NotJoined (`hasJoined` false), no
payload is sent, also when the join succeeds in it; a join is attempted only if
the unsigned 32-bit difference `millis() - lastJoinRetry` is at least 10000 (it is
attempted exactly when, in addition, WiFi reads not connected and the module is
initialised with a node); and at the end of the tick the state is Joined iff a
join was attempted and returned `RADIOLIB_ERR_NONE` or
`RADIOLIB_LORAWAN_NEW_SESSION`, otherwise it remains NotJoined. -/
theorem loraUpdate_not_joined_tick (k : RadioLibCodes) (e : UpdateEnv) (st : LoraState)
    (h : st.hasJoined = false) :
    ∃ st' attempted, loraUpdate k e st = some (st', attempted) ∧
      st'.sent = st.sent ∧
      (attempted = true → 10000 ≤ subU32 e.msRetryCheck st.lastJoinRetry) ∧
      (attempted = true ↔
        e.wifiConnected = false ∧ st.isInitialized = true ∧ st.nodePresent = true ∧
          10000 ≤ subU32 e.msRetryCheck st.lastJoinRetry) ∧
      (st'.hasJoined = true ↔
        attempted = true ∧ (e.joinState = k.errNone ∨ e.joinState = k.newSession)) := by
  unfold loraUpdate
  by_cases hw : e.wifiConnected = true
  · rw [if_pos hw]
    exact ⟨st, false, rfl, rfl, by simp, by simp [hw], by simp [h]⟩
  rw [if_neg hw]
  by_cases hi : (!st.isInitialized || !st.nodePresent) = true
  · rw [if_pos hi]
    refine ⟨st, false, rfl, rfl, by simp, ?_, by simp [h]⟩
    simp only [Bool.or_eq_true, Bool.not_eq_true'] at hi
    constructor
    · intro hf
      exact absurd hf (by decide)
    · rintro ⟨-, h1, h2, -⟩
      rcases hi with hi | hi
      · rw [hi] at h1
        exact absurd h1 (by decide)
      · rw [hi] at h2
        exact absurd h2 (by decide)
  rw [if_neg hi]
  simp only [Bool.or_eq_true, Bool.not_eq_true', not_or, Bool.not_eq_false] at hi
  simp only [Bool.not_eq_true] at hw
  have hnj : (!st.hasJoined) = true := by rw [h]; rfl
  rw [if_pos hnj]
  by_cases ht : subU32 e.msRetryCheck st.lastJoinRetry ≥ 10000
  · rw [if_pos ht]
    refine ⟨_, true, rfl, rfl, fun _ => ht, ⟨fun _ => ⟨hw, hi.1, hi.2, ht⟩, fun _ => rfl⟩, ?_⟩
    by_cases hok : e.joinState = k.errNone ∨ e.joinState = k.newSession
    · simp [hok]
    · simp [hok, h]
  · rw [if_neg ht]
    refine ⟨st, false, rfl, rfl, by simp, ?_, by simp [h]⟩
    constructor
    · intro hf
      exact absurd hf (by decide)
    · rintro ⟨-, -, -, h4⟩
      exact absurd h4 ht

/-- Witness for C15: a tick 20000 ms after start, from the state of a `loraInit` whose
initial join failed. -/
theorem loraUpdate_not_joined_tick_witness :
    ∃ st' attempted,
      loraUpdate radioCodes flagDropsEnv.update (loraInit radioCodes initJoinFails loraBoot) =
        some (st', attempted) ∧
      st'.sent = (loraInit radioCodes initJoinFails loraBoot).sent ∧
      (attempted = true → 10000 ≤ subU32 flagDropsEnv.update.msRetryCheck
        (loraInit radioCodes initJoinFails loraBoot).lastJoinRetry) ∧
      (attempted = true ↔
        flagDropsEnv.update.wifiConnected = false ∧
          (loraInit radioCodes initJoinFails loraBoot).isInitialized = true ∧
          (loraInit radioCodes initJoinFails loraBoot).nodePresent = true ∧
          10000 ≤ subU32 flagDropsEnv.update.msRetryCheck
            (loraInit radioCodes initJoinFails loraBoot).lastJoinRetry) ∧
      (st'.hasJoined = true ↔
        attempted = true ∧ (flagDropsEnv.update.joinState = radioCodes.errNone ∨
          flagDropsEnv.update.joinState = radioCodes.newSession)) :=
  loraUpdate_not_joined_tick radioCodes flagDropsEnv.update
    (loraInit radioCodes initJoinFails loraBoot) (by decide)

/-! ### C16: the `loraTask` loop while WiFi is connected -/

/-- An evaluation of `checkAndSend` changes neither `isInitialized`, `node` nor
`hasJoined`. -/
theorem checkAndSend_frame (e : SendEnv) (st st' : LoraState)
    (h : checkAndSend e st = some st') :
    st'.isInitialized = st.isInitialized ∧ st'.nodePresent = st.nodePresent ∧
    st'.hasJoined = st.hasJoined := by
  rcases checkAndSend_cases e st st' h with heq | ⟨fix, -, -, -, -, -, -, -, hst'⟩
  · rw [heq]
    exact ⟨rfl, rfl, rfl⟩
  · rw [hst']
    split_ifs <;> exact ⟨rfl, rfl, rfl⟩

/-- A call of `loraUpdate` keeps `hasJoined` unset where the module is not initialised
or has no node. -/
theorem loraUpdate_keeps_init_invariant (k : RadioLibCodes) (e : UpdateEnv)
    (st st' : LoraState) (a : Bool) (h : loraUpdate k e st = some (st', a))
    (hinv : st.hasJoined = true → st.isInitialized = true ∧ st.nodePresent = true) :
    st'.hasJoined = true → st'.isInitialized = true ∧ st'.nodePresent = true := by
  unfold loraUpdate at h
  by_cases h1 : e.wifiConnected = true
  · rw [if_pos h1] at h
    simp only [Option.some.injEq, Prod.mk.injEq] at h
    rw [← h.1]
    exact hinv
  rw [if_neg h1] at h
  by_cases h2 : (!st.isInitialized || !st.nodePresent) = true
  · rw [if_pos h2] at h
    simp only [Option.some.injEq, Prod.mk.injEq] at h
    rw [← h.1]
    exact hinv
  rw [if_neg h2] at h
  simp only [Bool.or_eq_true, Bool.not_eq_true', not_or, Bool.not_eq_false] at h2
  by_cases h3 : (!st.hasJoined) = true
  · rw [if_pos h3] at h
    by_cases h4 : subU32 e.msRetryCheck st.lastJoinRetry ≥ 10000
    · rw [if_pos h4] at h
      simp only [Option.some.injEq, Prod.mk.injEq] at h
      rw [← h.1]
      exact fun _ => h2
    · rw [if_neg h4] at h
      simp only [Option.some.injEq, Prod.mk.injEq] at h
      rw [← h.1]
      exact hinv
  · rw [if_neg h3] at h
    cases hcs : checkAndSend e.send st with
    | none =>
      rw [hcs] at h
      exact absurd h (by simp)
    | some st₂ =>
      rw [hcs] at h
      simp only [Option.some.injEq, Prod.mk.injEq] at h
      rw [← h.1]
      obtain ⟨f1, f2, f3⟩ := checkAndSend_frame e.send st st₂ hcs
      rw [f1, f2, f3]
      exact hinv

/-- The edge detection of `loraTask` keeps `hasJoined` unset where the module is not
initialised or has no node. -/
theorem taskEdge_keeps_init_invariant (e : TaskEnv) (t : TaskState)
    (hinv : t.lora.hasJoined = true → t.lora.isInitialized = true ∧ t.lora.nodePresent = true) :
    (taskEdge e t).1.lora.hasJoined = true →
      (taskEdge e t).1.lora.isInitialized = true ∧ (taskEdge e t).1.lora.nodePresent = true := by
  unfold taskEdge
  split_ifs
  · simp only [loraStop]
    split_ifs
    · exact hinv
    · simp
  · simp only [loraResume]
    split_ifs
    · exact hinv
    · simp
  · exact hinv

/-- At the start of every iteration of `loraTask`, `hasJoined` is set only if `loraInit`
completed (`isInitialized` set and `node` present). -/
theorem taskReachable_init_invariant (k : RadioLibCodes) (t : TaskState)
    (h : TaskReachable k t) :
    t.lora.hasJoined = true → t.lora.isInitialized = true ∧ t.lora.nodePresent = true := by
  induction h with
  | start e =>
    simp only [loraInit, loraBoot]
    split_ifs <;> simp
  | step e t out _ hstep ih =>
    have hedge := taskEdge_keeps_init_invariant e t ih
    unfold loraTaskIteration at hstep
    by_cases hu : (!e.wifiAtUpdate) = true
    · rw [if_pos hu] at hstep
      cases hup : loraUpdate k e.update (taskEdge e t).1.lora with
      | none =>
        rw [hup] at hstep
        exact absurd hstep (by simp)
      | some res =>
        obtain ⟨st', a⟩ := res
        rw [hup] at hstep
        simp only [Option.some.injEq] at hstep
        rw [← hstep]
        exact loraUpdate_keeps_init_invariant k e.update _ st' a hup hedge
    · rw [if_neg hu] at hstep
      simp only [Option.some.injEq] at hstep
      rw [← hstep]
      exact hedge

theorem taskEdge_wifi_up (e : TaskEnv) (t : TaskState)
    (h1 : e.wifiAtStop = true) (h2 : e.wifiAtResume = true) :
    taskEdge e t =
      if t.wasWifiConnected = true then (t, false)
      else ({ lora := (loraStop t.lora).1, wasWifiConnected := true }, (loraStop t.lora).2) := by
  unfold taskEdge
  rw [h1, h2]
  cases t.wasWifiConnected <;> rfl

theorem taskEdge_wifi_down (e : TaskEnv) (t : TaskState)
    (h1 : e.wifiAtStop = false) (h2 : e.wifiAtResume = false) :
    (taskEdge e t).1.wasWifiConnected = false := by
  unfold taskEdge
  rw [h1, h2]
  cases h : t.wasWifiConnected
  · simp [h]
  · simp

theorem loraStop_sent (st : LoraState) : (loraStop st).1.sent = st.sent := by
  unfold loraStop
  split_ifs <;> rfl

theorem loraStop_not_joined (st : LoraState)
    (hinv : st.hasJoined = true → st.isInitialized = true ∧ st.nodePresent = true) :
    (loraStop st).1.hasJoined = false := by
  unfold loraStop
  split_ifs with hc
  · simp only [Bool.or_eq_true, Bool.not_eq_true'] at hc
    cases hj : st.hasJoined with
    | false => rfl
    | true =>
      obtain ⟨i1, i2⟩ := hinv hj
      rcases hc with hc | hc
      · rw [hc] at i2
        exact absurd i2 (by decide)
      · rw [hc] at i1
        exact absurd i1 (by decide)
  · rfl

/-- What an iteration of `loraTask` does when `wifiConnected` reads true at every read:
no join attempt, no payload, `wasWifiConnected` set; on the rising edge
`hasJoined` ends false, otherwise the LoRa state is left as it was. -/
theorem loraTaskIteration_wifi_up (k : RadioLibCodes) (e : TaskEnv) (t : TaskState)
    (h1 : e.wifiAtStop = true) (h2 : e.wifiAtResume = true) (h3 : e.wifiAtUpdate = true)
    (hinv : t.lora.hasJoined = true → t.lora.isInitialized = true ∧ t.lora.nodePresent = true) :
    ∃ out, loraTaskIteration k e t = some out ∧ out.joinAttempted = false ∧
      out.state.lora.sent = t.lora.sent ∧ out.state.wasWifiConnected = true ∧
      (t.wasWifiConnected = false → out.state.lora.hasJoined = false) ∧
      (t.wasWifiConnected = true → out.state.lora = t.lora) := by
  unfold loraTaskIteration
  rw [h3, taskEdge_wifi_up e t h1 h2]
  simp only [Bool.not_true, Bool.false_eq_true, if_false]
  refine ⟨_, rfl, rfl, ?_, ?_, ?_, ?_⟩
  · split_ifs
    · rfl
    · exact loraStop_sent t.lora
  · split_ifs with hw
    · exact hw
    · rfl
  · intro hw
    rw [if_neg (by rw [hw]; decide)]
    exact loraStop_not_joined t.lora hinv
  · intro hw
    rw [if_pos hw]

/-- With a single value of `wifiConnected` per iteration, `loraTask` keeps `hasJoined`
unset while `wasWifiConnected` is set. -/
theorem loraTaskIteration_stable_flag (k : RadioLibCodes) (e : TaskEnv) (t : TaskState)
    (out : TaskStep) (w : Bool)
    (h1 : e.wifiAtStop = w) (h2 : e.wifiAtResume = w) (h3 : e.wifiAtUpdate = w)
    (hstep : loraTaskIteration k e t = some out)
    (hinv : t.lora.hasJoined = true → t.lora.isInitialized = true ∧ t.lora.nodePresent = true)
    (hwas : t.wasWifiConnected = true → t.lora.hasJoined = false) :
    out.state.wasWifiConnected = true → out.state.lora.hasJoined = false := by
  cases w with
  | true =>
    obtain ⟨out', ho, -, -, -, hrise, hkeep⟩ := loraTaskIteration_wifi_up k e t h1 h2 h3 hinv
    rw [ho] at hstep
    rw [← Option.some.inj hstep]
    intro _
    cases hw : t.wasWifiConnected with
    | false => exact hrise hw
    | true =>
      rw [hkeep hw]
      exact hwas hw
  | false =>
    intro hout
    exfalso
    have hedge := taskEdge_wifi_down e t h1 h2
    unfold loraTaskIteration at hstep
    rw [h3] at hstep
    simp only [Bool.not_false, if_true] at hstep
    cases hup : loraUpdate k e.update (taskEdge e t).1.lora with
    | none =>
      rw [hup] at hstep
      exact absurd hstep (by simp)
    | some res =>
      obtain ⟨st', a⟩ := res
      rw [hup] at hstep
      simp only [Option.some.injEq] at hstep
      rw [← hstep] at hout
      simp only at hout
      rw [hedge] at hout
      exact absurd hout (by decide)

/-- Claim C16 fails on the code at this input. Start: `loraInit` completed, its join
failed. Iteration A reads `wifiConnected` true in the rising-edge test (so
`loraStop` runs and `wasWifiConnected` is set) and false in the test before
`loraUpdate` and inside it; the join retry succeeds, so the iteration ends with
`wasWifiConnected` and `hasJoined` both set. Iteration B reads `wifiConnected` true
at every read: it makes no join attempt and sends nothing, but `loraStop` is not
called again and the iteration ends with `hasJoined` true. -/
theorem loraTask_flag_race_stays_joined :
    loraTaskIteration radioCodes flagDropsEnv
        { lora := loraInit radioCodes initJoinFails loraBoot, wasWifiConnected := false } =
      some { state := staleJoinTask, joinAttempted := true, radioSlept := true } ∧
    TaskReachable radioCodes staleJoinTask ∧
    staleJoinTask.wasWifiConnected = true ∧ staleJoinTask.lora.hasJoined = true ∧
    wifiUpEnv.wifiAtStop = true ∧ wifiUpEnv.wifiAtResume = true ∧
    wifiUpEnv.wifiAtUpdate = true ∧
    loraTaskIteration radioCodes wifiUpEnv staleJoinTask =
      some { state := staleJoinTask, joinAttempted := false, radioSlept := false } ∧
    staleJoinTask.lora.hasJoined = true := by
  have ha : loraTaskIteration radioCodes flagDropsEnv
      { lora := loraInit radioCodes initJoinFails loraBoot, wasWifiConnected := false } =
      some { state := staleJoinTask, joinAttempted := true, radioSlept := true } := by decide
  refine ⟨ha, ?_, rfl, rfl, rfl, rfl, rfl, by decide, rfl⟩
  exact TaskReachable.step flagDropsEnv _ _ (TaskReachable.start initJoinFails) ha

/-! ## Theorems about the WiFi network arbitration -/

theorem netOnHome_eq :
    netOnHome =
      { netBoot with
        wifiConnected := true
        currentNet := CurrentNet.HOME
        connectedSsid := "home"
        staIP := 3232235786
        lastScanMs := 5000
        lastConnectAttemptMs := 5000
        calls := [WifiCall.scanNetworks, WifiCall.scanDelete, WifiCall.disconnect true true,
          WifiCall.begin "home" "p2"] } := by
  decide

theorem netOnHome_reachable : NetReachable homeConfig netOnHome :=
  NetReachable.event _ _ _ (NetReachable.poll _ _ (NetReachable.init _ _ NetReachable.boot))

theorem netUploading_reachable : NetReachable homeConfig netUploading :=
  NetReachable.poll _ _ (NetReachable.uploadBegin _ netOnHome_reachable)

theorem netSwitchWaiting_reachable : NetReachable homeConfig netSwitchWaiting :=
  NetReachable.poll _ _ netUploading_reachable

theorem netSwitchReadyAfterWrap_reachable :
    NetReachable homeConfig netSwitchReadyAfterWrap :=
  NetReachable.uploadEnd _ (NetReachable.poll _ _
    (NetReachable.uploadBegin _ (NetReachable.poll _ _ netOnHome_reachable)))

/-! ### C17: `uploadBegin` -/

/-- Claim C17, as stated, fails at the largest value of the 32-bit counter: with the gate open
and `activeUploads = 4294967295`, `uploadBegin` grants and the counter becomes 0,
not 4294967296. -/
theorem uploadBegin_counter_wraps :
    (uploadBegin { netBoot with activeUploads := 4294967295 }).1 = true ∧
    (uploadBegin { netBoot with activeUploads := 4294967295 }).2.activeUploads = 0 ∧
    (uploadBegin { netBoot with activeUploads := 4294967295 }).2.activeUploads ≠
      ({ netBoot with activeUploads := 4294967295 } : NetState).activeUploads + 1 := by
  decide

/-- Claim C17 (amended): for every network state, `uploadBegin` returns granted (true) if and
only if the uploads-accepted gate is open; when it grants, the in-flight counter
is increased by 1 modulo 2^32 (by exactly 1 unless it was 4294967295) and nothing
else changes; when it refuses, the state is unchanged; in both cases the gate and
the switch-request flag are unchanged. -/
theorem uploadBegin_grants_iff_gate_open (st : NetState) :
    ((uploadBegin st).1 = true ↔ st.acceptUploads = true) ∧
    ((uploadBegin st).1 = true →
      (uploadBegin st).2 = { st with activeUploads := (st.activeUploads + 1) % 4294967296 } ∧
      (st.activeUploads < 4294967295 →
        (uploadBegin st).2.activeUploads = st.activeUploads + 1)) ∧
    ((uploadBegin st).1 = false → (uploadBegin st).2 = st) ∧
    (uploadBegin st).2.acceptUploads = st.acceptUploads ∧
    (uploadBegin st).2.switchRequested = st.switchRequested := by
  unfold uploadBegin
  by_cases h : st.acceptUploads = true
  · have hc : ¬ (!st.acceptUploads) = true := by rw [h]; decide
    rw [if_neg hc]
    refine ⟨⟨fun _ => h, fun _ => rfl⟩, fun _ => ⟨rfl, fun hlt => Nat.mod_eq_of_lt (by omega)⟩,
      fun hf => Bool.noConfusion hf, rfl, rfl⟩
  · have hc : (!st.acceptUploads) = true := by
      cases ha : st.acceptUploads
      · rfl
      · exact absurd ha h
    rw [if_pos hc]
    exact ⟨⟨fun hf => Bool.noConfusion hf, fun ha => absurd ha h⟩,
      fun hf => Bool.noConfusion hf, fun _ => rfl, rfl, rfl⟩

/-! ### C18: `uploadEnd` -/

/-- Claim C18, as stated, fails when the counter is 0: an upload begins on `netOnHome`, the
`STA_DISCONNECTED` event finds the station without link and resets the counter to
0, and the `uploadEnd` of that upload leaves it at 0, which is not the previous
value minus 1. -/
theorem uploadEnd_at_zero_keeps_zero :
    NetReachable homeConfig
      (onWiFiEvent homeConfig WifiEvent.staDisconnected statusDown (uploadBegin netOnHome).2) ∧
    (uploadBegin netOnHome).1 = true ∧
    (onWiFiEvent homeConfig WifiEvent.staDisconnected statusDown
      (uploadBegin netOnHome).2).activeUploads = 0 ∧
    (uploadEnd (onWiFiEvent homeConfig WifiEvent.staDisconnected statusDown
      (uploadBegin netOnHome).2)).activeUploads = 0 ∧
    ((uploadEnd (onWiFiEvent homeConfig WifiEvent.staDisconnected statusDown
      (uploadBegin netOnHome).2)).activeUploads : Int) ≠
      ((onWiFiEvent homeConfig WifiEvent.staDisconnected statusDown
        (uploadBegin netOnHome).2).activeUploads : Int) - 1 := by
  refine ⟨NetReachable.event _ _ _ (NetReachable.uploadBegin _ netOnHome_reachable), ?_⟩
  decide

/-- Claim C18 (amended): for every network state, `uploadEnd` decrements the in-flight upload
counter when it is positive (the counter afterwards is the previous value minus
1) and leaves the state untouched when the counter is 0; no other variable
changes. -/
theorem uploadEnd_decrements_when_positive (st : NetState) :
    (0 < st.activeUploads →
      ((uploadEnd st).activeUploads : Int) = (st.activeUploads : Int) - 1 ∧
      uploadEnd st = { st with activeUploads := st.activeUploads - 1 }) ∧
    (st.activeUploads = 0 → uploadEnd st = st) := by
  unfold uploadEnd
  refine ⟨?_, ?_⟩
  · intro h
    rw [if_pos h]
    refine ⟨?_, rfl⟩
    show ((st.activeUploads - 1 : Nat) : Int) = (st.activeUploads : Int) - 1
    omega
  · intro h
    rw [if_neg (by omega)]

/-! ### C19: the graceful hand-off -/

theorem updateStatus_calls (c : WifiConfig) (q : StatusQuery) (st : NetState) :
    (updateStatusFromWiFi c q st).calls = st.calls := by
  unfold updateStatusFromWiFi
  split_ifs <;> rfl

theorem callsExtend_of_eq (a b : NetState) (rest : List WifiCall)
    (h : b.calls = a.calls ++ rest) : CallsExtend a b :=
  ⟨rest, h⟩

theorem callsExtend_trans (a b c : NetState) (h₁ : CallsExtend a b) (h₂ : CallsExtend b c) :
    CallsExtend a c := by
  obtain ⟨r₁, e₁⟩ := h₁
  obtain ⟨r₂, e₂⟩ := h₂
  exact ⟨r₁ ++ r₂, by rw [e₂, e₁, List.append_assoc]⟩

theorem connectTo_extends (q : ConnectQuery) (ssid pass : String) (st : NetState) :
    CallsExtend st (connectTo q ssid pass st) := by
  unfold connectTo
  split_ifs
  · exact ⟨[], (List.append_nil _).symm⟩
  · exact ⟨[], (List.append_nil _).symm⟩
  · exact ⟨_, rfl⟩

theorem performSwitchIfSafe_extends (c : WifiConfig) (q : ConnectQuery) (st : NetState) :
    CallsExtend st (performSwitchIfSafe c q st) := by
  unfold performSwitchIfSafe
  split_ifs
  · exact ⟨[], (List.append_nil _).symm⟩
  · exact ⟨[], (List.append_nil _).symm⟩
  · exact callsExtend_trans _ _ _ ⟨[], (List.append_nil _).symm⟩ (connectTo_extends q _ _ _)

theorem cancelSwitch_calls (st : NetState) : (cancelSwitch st).calls = st.calls := by
  unfold cancelSwitch
  split_ifs <;> rfl

theorem dropStation_extends (c : WifiConfig) (e : CycleEnv) (st : NetState) :
    CallsExtend st (dropStation c e st) := by
  unfold dropStation
  split_ifs
  · exact ⟨[WifiCall.disconnect false false], by simp only [updateStatus_calls]⟩
  · exact ⟨[], by simp only [updateStatus_calls, List.append_nil]⟩

theorem scanRefresh_extends (c : WifiConfig) (q : StatusQuery) (st : NetState) :
    CallsExtend st (updateStatusFromWiFi c q
      { st with scanInProgress := false, calls := st.calls ++ [WifiCall.scanDelete] }) :=
  ⟨[WifiCall.scanDelete], by rw [updateStatus_calls]⟩

theorem processScanResults_extends (c : WifiConfig) (e : CycleEnv) (n : Nat) (st : NetState) :
    CallsExtend st (processScanResults c e n st) := by
  have h₁ := scanRefresh_extends c e.statusFirst st
  unfold processScanResults
  simp only
  split_ifs
  · exact callsExtend_trans _ _ _ h₁ ⟨[], (List.append_nil _).symm⟩
  · exact callsExtend_trans _ _ _ h₁ (callsExtend_trans _ _ _
      ⟨[], (List.append_nil _).symm⟩ (performSwitchIfSafe_extends c _ _))
  · exact callsExtend_trans _ _ _ h₁ ⟨[], by
      show (cancelSwitch _).calls = _
      rw [cancelSwitch_calls, List.append_nil]⟩
  · exact callsExtend_trans _ _ _ h₁ (callsExtend_trans _ _ _
      ⟨[], by rw [cancelSwitch_calls, List.append_nil]⟩ (connectTo_extends _ _ _ _))
  · exact callsExtend_trans _ _ _ h₁ (callsExtend_trans _ _ _
      ⟨[], by rw [cancelSwitch_calls, List.append_nil]⟩ (dropStation_extends c e _))

/-- A cycle of `ensurePriorityConnectionGraceful` keeps the driver calls issued by its
first `performSwitchIfSafe()` and only adds further calls. -/
theorem ensurePriority_extends (c : WifiConfig) (e : CycleEnv) (st : NetState) :
    CallsExtend (performSwitchIfSafe c e.connectFirst st)
      (ensurePriorityConnectionGraceful c e st) := by
  unfold ensurePriorityConnectionGraceful
  simp only
  split_ifs
  · exact ⟨_, rfl⟩
  · cases e.scan with
    | running => exact ⟨[], (List.append_nil _).symm⟩
    | failed => exact ⟨[], (List.append_nil _).symm⟩
    | done n => exact processScanResults_extends c e n _

/-- Claim C19, as stated, fails in both halves. First half: in the reachable state
`netUploading` an upload is in flight (`activeUploads = 1`) and the station is on
the home network; the cycle at 15000 ms finds the iPhone network visible while the
driver reports no link, so the status refresh resets the counter and the cycle
issues the disconnect and the connect to the iPhone network at once. Second half:
in the reachable state `netSwitchReadyAfterWrap` the switch is pending and
`activeUploads = 0`; in the cycle at `millis()` count 6000 the back-off test
`millis() - lastConnectAttemptMs < 4000` holds (the last attempt was at count
5000 before the 32-bit count wrapped), so no connect is issued and the request is
cleared. -/
theorem graceful_handoff_exceptions :
    (NetReachable homeConfig netUploading ∧
      netUploading.activeUploads = 1 ∧ netUploading.currentNet = CurrentNet.HOME ∧
      (ensurePriorityConnectionGraceful homeConfig
        (cycleAt 15000 (ScanState.done 2) ["iphone", "home"] statusDown) netUploading).calls =
        netUploading.calls ++ [WifiCall.scanDelete, WifiCall.disconnect true true,
          WifiCall.begin "iphone" "p1"] ∧
      (ensurePriorityConnectionGraceful homeConfig
        (cycleAt 15000 (ScanState.done 2) ["iphone", "home"] statusDown)
        netUploading).switchRequested = false) ∧
    (NetReachable homeConfig netSwitchReadyAfterWrap ∧
      netSwitchReadyAfterWrap.switchRequested = true ∧
      netSwitchReadyAfterWrap.activeUploads = 0 ∧
      netSwitchReadyAfterWrap.currentNet = CurrentNet.HOME ∧
      (ensurePriorityConnectionGraceful homeConfig
        (cycleAt 6000 ScanState.running [] statusHome) netSwitchReadyAfterWrap).calls =
        netSwitchReadyAfterWrap.calls ++ [WifiCall.scanNetworks] ∧
      (ensurePriorityConnectionGraceful homeConfig
        (cycleAt 6000 ScanState.running [] statusHome)
        netSwitchReadyAfterWrap).switchRequested = false) := by
  refine ⟨⟨netUploading_reachable, ?_⟩, ⟨netSwitchReadyAfterWrap_reachable, ?_⟩⟩
  · decide
  · decide

/-- Claim C19 (amended): take an arbitration cycle (`ensurePriorityConnectionGraceful`).
(1) If it runs while `activeUploads > 0`, processes scan results in which the
highest-priority network is visible, and the driver reports the station connected
to another network, then it issues no disconnect and no connect (its only driver
call is `scanDelete`), the counter is untouched, and afterwards the switch
request is pending with the gate closed. (2) If it runs while a switch is pending
and `activeUploads > 0` and does not process scan results, it issues no
disconnect and no connect and the request stays pending. (3) If it runs with the
switch pending and `activeUploads == 0`, its first step clears the request and
calls `connectTo` for the highest-priority network: the disconnect and the
connect are issued, before any other driver call of the cycle, provided at least
4000 ms (as unsigned 32-bit difference) have passed since the last connect
attempt and the station is not already connected to that network. -/
theorem graceful_handoff_cycle (c : WifiConfig) (e : CycleEnv) (st : NetState) :
    (∀ n, 0 < st.activeUploads → st.scanInProgress = true → e.scan = ScanState.done n →
      (List.range n).any (fun i => e.scanSsid i == c.ssidIphone) = true →
      e.statusFirst.status = WlStatus.connected → e.statusFirst.ssid ≠ c.ssidIphone →
      (ensurePriorityConnectionGraceful c e st).calls = st.calls ++ [WifiCall.scanDelete] ∧
      (ensurePriorityConnectionGraceful c e st).activeUploads = st.activeUploads ∧
      (ensurePriorityConnectionGraceful c e st).switchRequested = true ∧
      (ensurePriorityConnectionGraceful c e st).acceptUploads = false) ∧
    (0 < st.activeUploads → st.switchRequested = true →
      (st.scanInProgress = false ∨ e.scan = ScanState.running ∨ e.scan = ScanState.failed) →
      ((ensurePriorityConnectionGraceful c e st).calls = st.calls ∨
        (ensurePriorityConnectionGraceful c e st).calls = st.calls ++ [WifiCall.scanNetworks]) ∧
      (ensurePriorityConnectionGraceful c e st).activeUploads = st.activeUploads ∧
      (ensurePriorityConnectionGraceful c e st).switchRequested = true ∧
      (ensurePriorityConnectionGraceful c e st).acceptUploads = st.acceptUploads) ∧
    (st.activeUploads = 0 → st.switchRequested = true →
      (performSwitchIfSafe c e.connectFirst st).switchRequested = false ∧
      (RECONNECT_BACKOFF_MS ≤ subU32 e.connectFirst.msCheck st.lastConnectAttemptMs →
        ¬ (e.connectFirst.status = WlStatus.connected ∧ e.connectFirst.ssid = c.ssidIphone) →
        ∃ rest, (ensurePriorityConnectionGraceful c e st).calls =
          st.calls ++ [WifiCall.disconnect true true, WifiCall.begin c.ssidIphone c.passIphone]
            ++ rest)) := by
  refine ⟨?_, ?_, ?_⟩
  · intro n hup hscan hdone hvis hconn hssid
    have hnz : ¬ st.activeUploads = 0 := by omega
    have hnet : (if e.statusFirst.ssid = c.ssidIphone then CurrentNet.IPHONE
        else if e.statusFirst.ssid = c.ssidHome then CurrentNet.HOME else CurrentNet.NONE) ≠
        CurrentNet.IPHONE := by
      rw [if_neg hssid]
      split_ifs <;> decide
    cases hreq : st.switchRequested <;>
      simp [ensurePriorityConnectionGraceful, performSwitchIfSafe, processScanResults,
        updateStatusFromWiFi, requestSwitchToIphone, hreq, hup, hscan, hdone, hvis, hconn,
        hnet, hnz]
  · intro hup hreq hcase
    have hnz : ¬ st.activeUploads = 0 := by omega
    rcases hcase with h | h | h
    · simp [ensurePriorityConnectionGraceful, performSwitchIfSafe, hreq, hup, h, hnz]
    · cases hs : st.scanInProgress <;>
        simp [ensurePriorityConnectionGraceful, performSwitchIfSafe, hreq, hup, h, hs, hnz]
    · cases hs : st.scanInProgress <;>
        simp [ensurePriorityConnectionGraceful, performSwitchIfSafe, hreq, hup, h, hs, hnz]
  · intro hzero hreq
    have htop : performSwitchIfSafe c e.connectFirst st =
        connectTo e.connectFirst c.ssidIphone c.passIphone
          { st with switchReason := "", switchRequested := false } := by
      unfold performSwitchIfSafe
      rw [hreq, hzero]
      rfl
    refine ⟨?_, ?_⟩
    · rw [htop]
      unfold connectTo
      split_ifs <;> rfl
    · intro hback hnot
      obtain ⟨rest, hrest⟩ := ensurePriority_extends c e st
      refine ⟨rest, ?_⟩
      rw [hrest, htop]
      unfold connectTo
      rw [if_neg (by
        show ¬ subU32 e.connectFirst.msCheck st.lastConnectAttemptMs < RECONNECT_BACKOFF_MS
        omega), if_neg hnot]

/-- Claim C20 fails on the code at this input: `netSwitchWaiting` is reachable (an
upload is in flight on the home network when the scan finds the iPhone network), a
switch is requested there and the gate is closed, so `uploadBegin` refuses. A
`STA_DISCONNECTED` event whose status refresh sees the station not connected
then runs `updateStatusFromWiFi`, which opens the gate (`acceptUploads = true`)
and resets the counter while `switchRequested` stays true: the state after the
event is reachable, has the switch pending and the gate open, and `uploadBegin`
grants the upload. -/
theorem disconnect_event_opens_gate_during_switch :
    NetReachable homeConfig netSwitchWaiting ∧
    netSwitchWaiting.switchRequested = true ∧
    netSwitchWaiting.acceptUploads = false ∧
    (uploadBegin netSwitchWaiting).1 = false ∧
    NetReachable homeConfig
      (onWiFiEvent homeConfig WifiEvent.staDisconnected statusDown netSwitchWaiting) ∧
    (onWiFiEvent homeConfig WifiEvent.staDisconnected statusDown
      netSwitchWaiting).switchRequested = true ∧
    (onWiFiEvent homeConfig WifiEvent.staDisconnected statusDown
      netSwitchWaiting).acceptUploads = true ∧
    (uploadBegin (onWiFiEvent homeConfig WifiEvent.staDisconnected statusDown
      netSwitchWaiting)).1 = true := by
  refine ⟨netSwitchWaiting_reachable, ?_, ?_, ?_,
    NetReachable.event _ _ _ netSwitchWaiting_reachable, ?_, ?_, ?_⟩ <;> decide

/-! ### C21: a cycle while the scan is outstanding -/

theorem netSwitchReadyScanning_reachable : NetReachable homeConfig netSwitchReadyScanning :=
  NetReachable.uploadEnd _ (NetReachable.poll _ _ netSwitchWaiting_reachable)

theorem performSwitchIfSafe_scanInProgress (c : WifiConfig) (q : ConnectQuery) (st : NetState) :
    (performSwitchIfSafe c q st).scanInProgress = st.scanInProgress ∧
    (performSwitchIfSafe c q st).acceptUploads = st.acceptUploads := by
  unfold performSwitchIfSafe connectTo
  split_ifs <;> exact ⟨rfl, rfl⟩

/-- Claim C21, as stated, fails when a switch request is pending and no upload is in flight.
The state `netSwitchReadyScanning` is reachable; there a scan is outstanding
(`scanInProgress` is true), the switch is pending and `activeUploads` is 0. The
cycle at 25000 ms, in which the scan reports still running, issues the
disconnect and the connect to the iPhone network and clears `switchRequested`. -/
theorem scan_outstanding_cycle_switches :
    NetReachable homeConfig netSwitchReadyScanning ∧
    netSwitchReadyScanning.scanInProgress = true ∧
    netSwitchReadyScanning.switchRequested = true ∧
    netSwitchReadyScanning.activeUploads = 0 ∧
    (cycleAt 25000 ScanState.running [] statusHome).scan = ScanState.running ∧
    (ensurePriorityConnectionGraceful homeConfig
      (cycleAt 25000 ScanState.running [] statusHome) netSwitchReadyScanning).calls =
      netSwitchReadyScanning.calls ++
        [WifiCall.disconnect true true, WifiCall.begin "iphone" "p1"] ∧
    (ensurePriorityConnectionGraceful homeConfig
      (cycleAt 25000 ScanState.running [] statusHome)
      netSwitchReadyScanning).switchRequested = false ∧
    netSwitchReadyScanning.switchReason = "waiting: activeUploads>0" ∧
    (ensurePriorityConnectionGraceful homeConfig
      (cycleAt 25000 ScanState.running [] statusHome)
      netSwitchReadyScanning).switchReason = "" := by
  refine ⟨netSwitchReadyScanning_reachable, ?_⟩
  decide

/-- Claim C21 (amended): a call of `ensurePriorityConnectionGraceful` made while a scan is
outstanding (`scanInProgress` is true and the scan reports still running) does
what its leading `performSwitchIfSafe()` does and nothing else: no scan is
started or deleted, `scanInProgress` stays true and `acceptUploads` is unchanged.
Without a pending switch request the state is unchanged. With a pending request
and `activeUploads > 0` only `switchReason` is set (to "waiting: activeUploads>0").
With a pending request and `activeUploads == 0` the switch is performed:
`switchRequested` and `switchReason` are cleared, and the disconnect and the
connect to the highest-priority network are issued if at least 4000 ms (unsigned
32-bit difference) have passed since the last connect attempt and the station
is not already connected to that network; otherwise no driver call is made. -/
theorem scan_outstanding_cycle (c : WifiConfig) (e : CycleEnv) (st : NetState)
    (hscan : st.scanInProgress = true) (hrun : e.scan = ScanState.running) :
    ensurePriorityConnectionGraceful c e st = performSwitchIfSafe c e.connectFirst st ∧
    (ensurePriorityConnectionGraceful c e st).scanInProgress = true ∧
    (ensurePriorityConnectionGraceful c e st).acceptUploads = st.acceptUploads ∧
    (st.switchRequested = false → ensurePriorityConnectionGraceful c e st = st) ∧
    (st.switchRequested = true → 0 < st.activeUploads →
      ensurePriorityConnectionGraceful c e st =
        { st with switchReason := "waiting: activeUploads>0" }) ∧
    (st.switchRequested = true → st.activeUploads = 0 →
      (ensurePriorityConnectionGraceful c e st).switchRequested = false ∧
      (ensurePriorityConnectionGraceful c e st).switchReason = "" ∧
      ((RECONNECT_BACKOFF_MS ≤ subU32 e.connectFirst.msCheck st.lastConnectAttemptMs ∧
          ¬ (e.connectFirst.status = WlStatus.connected ∧
            e.connectFirst.ssid = c.ssidIphone)) →
        (ensurePriorityConnectionGraceful c e st).calls =
          st.calls ++ [WifiCall.disconnect true true,
            WifiCall.begin c.ssidIphone c.passIphone]) ∧
      (¬ (RECONNECT_BACKOFF_MS ≤ subU32 e.connectFirst.msCheck st.lastConnectAttemptMs ∧
          ¬ (e.connectFirst.status = WlStatus.connected ∧
            e.connectFirst.ssid = c.ssidIphone)) →
        (ensurePriorityConnectionGraceful c e st).calls = st.calls)) := by
  have hkeep := performSwitchIfSafe_scanInProgress c e.connectFirst st
  have heq : ensurePriorityConnectionGraceful c e st =
      performSwitchIfSafe c e.connectFirst st := by
    unfold ensurePriorityConnectionGraceful
    simp only [hkeep.1, hscan, Bool.not_true, Bool.false_eq_true, if_false, hrun]
  rw [heq]
  refine ⟨rfl, by rw [hkeep.1, hscan], hkeep.2, ?_, ?_, ?_⟩
  · intro hreq
    unfold performSwitchIfSafe
    rw [hreq]
    rfl
  · intro hreq hup
    unfold performSwitchIfSafe
    rw [hreq, if_neg (by decide), if_pos hup]
  · intro hreq hzero
    have htop : performSwitchIfSafe c e.connectFirst st =
        connectTo e.connectFirst c.ssidIphone c.passIphone
          { st with switchReason := "", switchRequested := false } := by
      unfold performSwitchIfSafe
      rw [hreq, hzero]
      rfl
    rw [htop]
    unfold connectTo
    refine ⟨by split_ifs <;> rfl, by split_ifs <;> rfl, ?_, ?_⟩
    · rintro ⟨hback, hnot⟩
      rw [if_neg (by
        show ¬ subU32 e.connectFirst.msCheck st.lastConnectAttemptMs < RECONNECT_BACKOFF_MS
        omega), if_neg hnot]
    · intro hno
      by_cases hb : subU32 e.connectFirst.msCheck st.lastConnectAttemptMs < RECONNECT_BACKOFF_MS
      · rw [if_pos hb]
      · rw [if_neg hb]
        have hconn : e.connectFirst.status = WlStatus.connected ∧
            e.connectFirst.ssid = c.ssidIphone := by
          by_contra hc
          exact hno ⟨by omega, hc⟩
        rw [if_pos hconn]

/-- Witness for C21 (amended): the cycle at 25000 ms from `netSwitchReadyScanning`. -/
theorem scan_outstanding_cycle_witness :
    ensurePriorityConnectionGraceful homeConfig
        (cycleAt 25000 ScanState.running [] statusHome) netSwitchReadyScanning =
      performSwitchIfSafe homeConfig
        (cycleAt 25000 ScanState.running [] statusHome).connectFirst netSwitchReadyScanning ∧
    (ensurePriorityConnectionGraceful homeConfig
      (cycleAt 25000 ScanState.running [] statusHome)
      netSwitchReadyScanning).scanInProgress = true :=
  ⟨(scan_outstanding_cycle homeConfig (cycleAt 25000 ScanState.running [] statusHome)
      netSwitchReadyScanning (by decide) rfl).1,
    (scan_outstanding_cycle homeConfig (cycleAt 25000 ScanState.running [] statusHome)
      netSwitchReadyScanning (by decide) rfl).2.1⟩

/-! ### C25: the in-flight counter and the running uploads -/

theorem updateStatus_activeUploads (c : WifiConfig) (q : StatusQuery) (st : NetState) :
    ((updateStatusFromWiFi c q st).activeUploads = st.activeUploads ∨
      (updateStatusFromWiFi c q st).activeUploads = 0) ∧
    (q.status = WlStatus.connected →
      (updateStatusFromWiFi c q st).activeUploads = st.activeUploads) := by
  unfold updateStatusFromWiFi
  by_cases h : q.status = WlStatus.connected
  · rw [if_neg (by simpa using h)]
    exact ⟨Or.inl rfl, fun _ => rfl⟩
  · rw [if_pos h]
    exact ⟨Or.inr rfl, fun h' => absurd h' h⟩

theorem connectTo_activeUploads (q : ConnectQuery) (ssid pass : String) (st : NetState) :
    (connectTo q ssid pass st).activeUploads = st.activeUploads := by
  unfold connectTo
  split_ifs <;> rfl

theorem performSwitchIfSafe_activeUploads (c : WifiConfig) (q : ConnectQuery) (st : NetState) :
    (performSwitchIfSafe c q st).activeUploads = st.activeUploads := by
  unfold performSwitchIfSafe
  split_ifs
  · rfl
  · rfl
  · rw [connectTo_activeUploads]

theorem cancelSwitch_activeUploads (st : NetState) :
    (cancelSwitch st).activeUploads = st.activeUploads := by
  unfold cancelSwitch
  split_ifs <;> rfl

theorem dropStation_activeUploads (c : WifiConfig) (e : CycleEnv) (st : NetState) :
    ((dropStation c e st).activeUploads = st.activeUploads ∨
      (dropStation c e st).activeUploads = 0) ∧
    (e.statusLast.status = WlStatus.connected →
      (dropStation c e st).activeUploads = st.activeUploads) := by
  unfold dropStation
  split_ifs
  · exact updateStatus_activeUploads c e.statusLast _
  · exact updateStatus_activeUploads c e.statusLast _

theorem processScanResults_counter (c : WifiConfig) (e : CycleEnv) (n : Nat) (st : NetState) :
    (processScanResults c e n st).activeUploads =
      (updateStatusFromWiFi c e.statusFirst
        { st with scanInProgress := false,
                  calls := st.calls ++ [WifiCall.scanDelete] }).activeUploads ∨
    (processScanResults c e n st).activeUploads =
      (dropStation c e (cancelSwitch (updateStatusFromWiFi c e.statusFirst
        { st with scanInProgress := false,
                  calls := st.calls ++ [WifiCall.scanDelete] }))).activeUploads := by
  unfold processScanResults
  simp only
  split_ifs
  · exact Or.inl rfl
  · exact Or.inl ((performSwitchIfSafe_activeUploads c _ _).trans rfl)
  · exact Or.inl (cancelSwitch_activeUploads _)
  · exact Or.inl ((connectTo_activeUploads _ _ _ _).trans (cancelSwitch_activeUploads _))
  · exact Or.inr rfl

theorem processScanResults_activeUploads (c : WifiConfig) (e : CycleEnv) (n : Nat)
    (st : NetState) :
    ((processScanResults c e n st).activeUploads = st.activeUploads ∨
      (processScanResults c e n st).activeUploads = 0) ∧
    (e.linkUp → (processScanResults c e n st).activeUploads = st.activeUploads) := by
  have h₁ := updateStatus_activeUploads c e.statusFirst
    { st with scanInProgress := false, calls := st.calls ++ [WifiCall.scanDelete] }
  have hd := dropStation_activeUploads c e (cancelSwitch (updateStatusFromWiFi c e.statusFirst
    { st with scanInProgress := false, calls := st.calls ++ [WifiCall.scanDelete] }))
  rw [cancelSwitch_activeUploads] at hd
  have h₀ : ({ st with scanInProgress := false,
                       calls := st.calls ++ [WifiCall.scanDelete] } : NetState).activeUploads =
      st.activeUploads := rfl
  rw [h₀] at h₁
  rcases processScanResults_counter c e n st with h | h
  · rw [h]
    exact ⟨h₁.1, fun hl => h₁.2 hl.1⟩
  · rw [h]
    refine ⟨?_, fun hl => (hd.2 hl.2).trans (h₁.2 hl.1)⟩
    rcases hd.1 with hk | hz
    · rw [hk]
      exact h₁.1
    · exact Or.inr hz

theorem ensurePriority_activeUploads (c : WifiConfig) (e : CycleEnv) (st : NetState) :
    ((ensurePriorityConnectionGraceful c e st).activeUploads = st.activeUploads ∨
      (ensurePriorityConnectionGraceful c e st).activeUploads = 0) ∧
    (e.linkUp → (ensurePriorityConnectionGraceful c e st).activeUploads = st.activeUploads) := by
  have hp := performSwitchIfSafe_activeUploads c e.connectFirst st
  have hs := processScanResults_activeUploads c e
  unfold ensurePriorityConnectionGraceful
  simp only
  split_ifs
  · exact ⟨Or.inl hp, fun _ => hp⟩
  · cases e.scan with
    | running => exact ⟨Or.inl hp, fun _ => hp⟩
    | failed => exact ⟨Or.inl hp, fun _ => hp⟩
    | done n =>
      have := hs n (performSwitchIfSafe c e.connectFirst st)
      rw [hp] at this
      exact this

theorem wifiInit_activeUploads (c : WifiConfig) (e : CycleEnv) (st : NetState) :
    ((WiFiInit c e st).activeUploads = st.activeUploads ∨ (WiFiInit c e st).activeUploads = 0) ∧
    (e.linkUp → (WiFiInit c e st).activeUploads = st.activeUploads) :=
  ensurePriority_activeUploads c e { st with scanInProgress := false }

theorem updateWiFi_activeUploads (c : WifiConfig) (e : PollEnv) (st : NetState) :
    ((updateWiFi c e st).activeUploads = st.activeUploads ∨
      (updateWiFi c e st).activeUploads = 0) ∧
    (e.cycle.linkUp ∧ e.statusAfter.status = WlStatus.connected →
      (updateWiFi c e st).activeUploads = st.activeUploads) := by
  unfold updateWiFi
  split_ifs
  · have h₁ := ensurePriority_activeUploads c e.cycle { st with lastScanMs := e.msSet }
    have h₂ := updateStatus_activeUploads c e.statusAfter
      (ensurePriorityConnectionGraceful c e.cycle { st with lastScanMs := e.msSet })
    have h₀ : ({ st with lastScanMs := e.msSet } : NetState).activeUploads =
        st.activeUploads := rfl
    rw [h₀] at h₁
    refine ⟨?_, fun hl => (h₂.2 hl.2).trans (h₁.2 hl.1)⟩
    rcases h₂.1 with hk | hz
    · rw [hk]
      exact h₁.1
    · exact Or.inr hz
  · exact ⟨Or.inl rfl, fun _ => rfl⟩

theorem onWiFiEvent_activeUploads (c : WifiConfig) (ev : WifiEvent) (q : StatusQuery)
    (st : NetState) :
    ((onWiFiEvent c ev q st).activeUploads = st.activeUploads ∨
      (onWiFiEvent c ev q st).activeUploads = 0) ∧
    (q.status = WlStatus.connected → (onWiFiEvent c ev q st).activeUploads = st.activeUploads) := by
  cases ev with
  | staGotIp => exact updateStatus_activeUploads c q st
  | staDisconnected => exact updateStatus_activeUploads c q st
  | other => exact ⟨Or.inl rfl, fun _ => rfl⟩

theorem uploadBegin_activeUploads (st : NetState) :
    (uploadBegin st).2.activeUploads =
      if (uploadBegin st).1 then (st.activeUploads + 1) % 4294967296 else st.activeUploads := by
  unfold uploadBegin
  split_ifs <;> first | rfl | simp_all

theorem netOnHome_run : NetRun homeConfig netOnHome 0 :=
  NetRun.event _ _ _ _ (NetRun.poll _ _ _ (NetRun.init _ _ _ NetRun.boot))

/-- Claim C25, as stated, fails when a status refresh finds the station not connected
during an upload. From `netOnHome` an upload is granted (one upload is running and
`activeUploads` is 1); the `STA_DISCONNECTED` event, whose refresh finds the
station without link, resets `activeUploads` to 0 while that upload is still
running. -/
theorem status_refresh_unlinks_counter :
    NetRun homeConfig (uploadBegin netOnHome).2 1 ∧
    (uploadBegin netOnHome).2.activeUploads = 1 ∧
    NetRun homeConfig
      (onWiFiEvent homeConfig WifiEvent.staDisconnected statusDown (uploadBegin netOnHome).2) 1 ∧
    (onWiFiEvent homeConfig WifiEvent.staDisconnected statusDown
      (uploadBegin netOnHome).2).activeUploads = 0 := by
  have h := NetRun.uploadBegin netOnHome 0 netOnHome_run
  have e : (if (uploadBegin netOnHome).1 = true then 0 + 1 else 0) = 1 := by decide
  rw [e] at h
  exact ⟨h, by decide, NetRun.event _ _ _ _ h, by decide⟩

/-- Claim C25 (amended): in every run of the network arbitrator in which every `uploadEnd`
belongs to a running upload, `activeUploads` never exceeds the number of uploads
currently running (granted `uploadBegin` calls whose `uploadEnd` has not been
called yet). It equals that number as long as no status refresh (in a scan cycle,
in `updateWiFi` or in a WiFi event) finds the station not connected while an
upload is running, and fewer than `2^32` uploads run at the same time; a
refresh that finds the station not connected resets the counter to 0. -/
theorem activeUploads_counts_running (c : WifiConfig) :
    (∀ st r, NetRun c st r → st.activeUploads ≤ r) ∧
    (∀ st r, NetRunLinked c st r → st.activeUploads = r) ∧
    (∀ q st, q.status ≠ WlStatus.connected →
      (updateStatusFromWiFi c q st).activeUploads = 0) := by
  refine ⟨?_, ?_, ?_⟩
  · intro st r h
    induction h with
    | boot => exact Nat.le_refl _
    | init e st r _ ih =>
      rcases (wifiInit_activeUploads c e st).1 with h | h <;> omega
    | poll e st r _ ih =>
      rcases (updateWiFi_activeUploads c e st).1 with h | h <;> omega
    | event ev q st r _ ih =>
      rcases (onWiFiEvent_activeUploads c ev q st).1 with h | h <;> omega
    | uploadBegin st r _ ih =>
      rw [uploadBegin_activeUploads]
      split_ifs <;> omega
    | uploadEnd st r _ hr ih =>
      unfold uploadEnd
      split_ifs with h
      · show st.activeUploads - 1 ≤ r - 1
        omega
      · omega
  · intro st r h
    induction h with
    | boot => rfl
    | init e st r _ hl ih =>
      rcases hl with hl | hl
      · rcases (wifiInit_activeUploads c e st).1 with h | h <;> omega
      · rw [(wifiInit_activeUploads c e st).2 hl, ih]
    | poll e st r _ hl ih =>
      rcases hl with hl | hl
      · rcases (updateWiFi_activeUploads c e st).1 with h | h <;> omega
      · rw [(updateWiFi_activeUploads c e st).2 hl, ih]
    | event ev q st r _ hl ih =>
      rcases hl with hl | hl
      · rcases (onWiFiEvent_activeUploads c ev q st).1 with h | h <;> omega
      · rw [(onWiFiEvent_activeUploads c ev q st).2 hl, ih]
    | uploadBegin st r _ hr ih =>
      rw [uploadBegin_activeUploads]
      split_ifs <;> omega
    | uploadEnd st r _ hr ih =>
      unfold uploadEnd
      split_ifs with h
      · show st.activeUploads - 1 = r - 1
        omega
      · omega
  · intro q st hq
    unfold updateStatusFromWiFi
    rw [if_pos hq]

/-- The run to `netUploading` keeps the counter linked: one upload is running and
`activeUploads` is 1. -/
theorem netUploading_linked :
    NetRunLinked homeConfig netUploading 1 ∧ netUploading.activeUploads = 1 := by
  have h0 : NetRunLinked homeConfig netOnHome 0 :=
    NetRunLinked.event _ _ _ _
      (NetRunLinked.poll _ _ _ (NetRunLinked.init _ _ _ NetRunLinked.boot (Or.inl rfl))
        (Or.inl rfl)) (Or.inl rfl)
  have h := NetRunLinked.uploadBegin netOnHome 0 h0 (by decide)
  have e : (if (uploadBegin netOnHome).1 = true then 0 + 1 else 0) = 1 := by decide
  rw [e] at h
  exact ⟨NetRunLinked.poll _ _ _ h (Or.inr ⟨⟨rfl, rfl⟩, rfl⟩), by decide⟩

/-! ## Theorems about the WiFi upload pipeline -/

/-- On a store that satisfies the invariant `trackStoreGetBatch` has defined behaviour,
whatever the outcome of taking the mutex and whatever the buffer. -/
theorem getBatch_total (s : TrackStore) (hinv : s.Inv) (took ok : Bool) (maxN afterTs : Nat) :
    ∃ b, trackStoreGetBatch took s ok maxN afterTs = some b := by
  cases ok with
  | false => exact ⟨[], by simp [trackStoreGetBatch]⟩
  | true =>
    cases took with
    | true => exact ⟨_, getBatch_eq s hinv maxN afterTs⟩
    | false => exact ⟨[], by simp [trackStoreGetBatch]⟩

theorem uploadBegin_granted (net : NetState) :
    (uploadBegin net).1 = net.acceptUploads := by
  unfold uploadBegin
  cases net.acceptUploads <;> rfl

/-- What a call of `uploadBatchOverWiFi` leaves behind, by the tests it makes. -/
theorem uploadBatch_result (e : UploadEnv) (net : NetState) (store : TrackStore)
    (stats : UploadStats) (batch : List FixRec)
    (hb : trackStoreGetBatch e.tookBatch store e.batchOk MAX_UPLOAD_BATCH_SIZE
      (trackStoreGetAckedTs e.tookAcked store) = some batch) :
    ∃ out, uploadBatchOverWiFi e net store stats = some out ∧
      out.granted = (net.wifiConnected && net.acceptUploads) ∧
      out.beginCalls = (if net.wifiConnected then 1 else 0) ∧
      out.endCalls = (if out.granted then 1 else 0) ∧
      out.net = (if out.granted then uploadEnd (uploadBegin net).2 else net) ∧
      out.store =
        (if net.wifiConnected = true ∧ net.acceptUploads = true ∧ batch ≠ [] ∧
            e.httpBeginOk = true ∧ e.code = 200 ∧
            (parseACKResponse e.json e.response (trackStoreGetAckedTs e.tookAcked store)).1 = true ∧
            (parseACKResponse e.json e.response (trackStoreGetAckedTs e.tookAcked store)).2 >
              trackStoreGetAckedTs e.tookAcked store
          then (trackStoreSetAckedTs e.tookSet store
            (parseACKResponse e.json e.response (trackStoreGetAckedTs e.tookAcked store)).2).2
          else store) := by
  unfold uploadBatchOverWiFi
  by_cases hw : net.wifiConnected = true
  · by_cases ha : net.acceptUploads = true
    · have hg : (uploadBegin net).1 = true := by rw [uploadBegin_granted, ha]
      simp only [hw, hg, hb, Bool.not_true, Bool.false_eq_true, if_false]
      by_cases hn : batch = []
      · subst hn
        simp [ha]
      · have hl : ¬ batch.length = 0 := by
          intro h0
          exact hn (List.length_eq_zero.mp h0)
        rw [if_neg hl]
        by_cases hh : e.httpBeginOk = true
        · simp only [hh, Bool.not_true, Bool.false_eq_true, if_false]
          by_cases hc : e.code = 200
          · simp only [hc, if_true]
            by_cases hp : (parseACKResponse e.json e.response
                (trackStoreGetAckedTs e.tookAcked store)).1 = true ∧
                (parseACKResponse e.json e.response
                  (trackStoreGetAckedTs e.tookAcked store)).2 >
                  trackStoreGetAckedTs e.tookAcked store
            · simp [hp.1, hp.2, ha, hn]
            · have hp' : ¬ ((parseACKResponse e.json e.response
                  (trackStoreGetAckedTs e.tookAcked store)).1 &&
                  decide ((parseACKResponse e.json e.response
                    (trackStoreGetAckedTs e.tookAcked store)).2 >
                    trackStoreGetAckedTs e.tookAcked store)) = true := by
                simpa using hp
              rw [if_neg hp']
              refine ⟨_, rfl, by simp [ha], rfl, rfl, rfl, ?_⟩
              rw [if_neg]
              rintro ⟨-, -, -, -, -, h1, h2⟩
              exact hp ⟨h1, h2⟩
          · simp [hc, ha]
        · simp [hh, ha]
    · have hg : (uploadBegin net).1 = false := by
        rw [uploadBegin_granted]
        simpa using ha
      have hu : (uploadBegin net).2 = net := by
        unfold uploadBegin
        simp [ha]
      simp [hw, hg, ha, hu]
  · simp [hw]
theorem setAcked_store (took : Bool) (s : TrackStore) (ts : Nat) :
    (trackStoreSetAckedTs took s ts).2 =
      { s with ackedTs := (trackStoreSetAckedTs took s ts).2.ackedTs } ∧
    (trackStoreSetAckedTs took s ts).2.ackedTs =
      (if took = true ∧ ts > s.ackedTs then ts else s.ackedTs) := by
  unfold trackStoreSetAckedTs
  cases took with
  | false => simp
  | true =>
    by_cases h : ts > s.ackedTs
    · simp [h]
    · simp [h]

theorem getAckedTs_le (took : Bool) (s : TrackStore) :
    trackStoreGetAckedTs took s ≤ s.ackedTs := by
  unfold trackStoreGetAckedTs
  split_ifs
  · exact Nat.le_refl _
  · exact Nat.zero_le _

theorem parseACK_cases (json : String → AckDoc) (response : String) (w : Nat) :
    ((json response).error = false → ∀ a, (json response).ackedTs = some a →
      parseACKResponse json response w = (true, a)) ∧
    ((json response).error = true ∨ (json response).ackedTs = none →
      parseACKResponse json response w = (false, w)) := by
  unfold parseACKResponse
  refine ⟨?_, ?_⟩
  · intro he a ha
    rw [he, ha]
    rfl
  · rintro (he | hn)
    · rw [he]
      rfl
    · rw [hn]
      cases (json response).error <;> rfl

/-- Claim C22: for every run of `uploadBatchOverWiFi` on a reachable store with starting
watermark `w` (no other task sets it meanwhile), the store is left unchanged
except for the watermark. The watermark afterwards is `a` if WiFi was connected,
`uploadBegin` granted, the batch was non-empty, `http.begin` succeeded, the HTTP
status was 200 and the body parsed to an `ackedTs` value `a` with `a > w` (the
mutex of `trackStoreSetAckedTs` being acquired, as with `portMAX_DELAY`). In every
other outcome (not connected, refused, empty batch, begin failure, transport
failure or non-200 status, unparseable body, `a <= w`) the watermark is still `w`. -/
theorem upload_advances_watermark (e : UploadEnv) (net : NetState) (store : TrackStore)
    (stats : UploadStats) (hs : Reachable store) :
    ∃ out batch, uploadBatchOverWiFi e net store stats = some out ∧
      trackStoreGetBatch e.tookBatch store e.batchOk MAX_UPLOAD_BATCH_SIZE
        (trackStoreGetAckedTs e.tookAcked store) = some batch ∧
      out.store = { store with ackedTs := out.store.ackedTs } ∧
      (∀ a, net.wifiConnected = true → net.acceptUploads = true → batch ≠ [] →
        e.httpBeginOk = true → e.code = 200 → (e.json e.response).error = false →
        (e.json e.response).ackedTs = some a → store.ackedTs < a → e.tookSet = true →
        out.store.ackedTs = a) ∧
      ((net.wifiConnected = false ∨ net.acceptUploads = false ∨ batch = [] ∨
          e.httpBeginOk = false ∨ e.code ≠ 200 ∨ (e.json e.response).error = true ∨
          (e.json e.response).ackedTs = none ∨
          (∃ a, (e.json e.response).ackedTs = some a ∧ a ≤ store.ackedTs)) →
        out.store.ackedTs = store.ackedTs) := by
  obtain ⟨batch, hb⟩ := getBatch_total store (reachable_inv store hs) e.tookBatch e.batchOk
    MAX_UPLOAD_BATCH_SIZE (trackStoreGetAckedTs e.tookAcked store)
  obtain ⟨out, hout, -, -, -, -, hstore⟩ := uploadBatch_result e net store stats batch hb
  have hle := getAckedTs_le e.tookAcked store
  have hpar := parseACK_cases e.json e.response (trackStoreGetAckedTs e.tookAcked store)
  have hset := setAcked_store e.tookSet store
    (parseACKResponse e.json e.response (trackStoreGetAckedTs e.tookAcked store)).2
  refine ⟨out, batch, hout, hb, ?_, ?_, ?_⟩
  · rw [hstore]
    split_ifs
    · exact hset.1
    · rfl
  · intro a hw ha hn hh hc he hv hgt htook
    have hp := hpar.1 he a hv
    rw [hstore, if_pos ⟨hw, ha, hn, hh, hc, by rw [hp], by rw [hp]; show a > _; omega⟩]
    rw [hset.2, hp, if_pos ⟨htook, hgt⟩]
  · intro hor
    rw [hstore]
    split_ifs with hall
    · obtain ⟨hw, ha, hn, hh, hc, h1, h2⟩ := hall
      rw [hset.2]
      rcases hor with h | h | h | h | h | h | h | ⟨a, hv, hle'⟩
      · rw [hw] at h
        exact absurd h (by decide)
      · rw [ha] at h
        exact absurd h (by decide)
      · exact absurd h hn
      · rw [hh] at h
        exact absurd h (by decide)
      · exact absurd hc h
      · rw [hpar.2 (Or.inl h)] at h1
        exact Bool.noConfusion h1
      · rw [hpar.2 (Or.inr h)] at h1
        exact Bool.noConfusion h1
      · by_cases he : (e.json e.response).error = true
        · rw [hpar.2 (Or.inl he)] at h1
          exact Bool.noConfusion h1
        · have he' : (e.json e.response).error = false := by simpa using he
          rw [hpar.1 he' a hv]
          rw [if_neg]
          rintro ⟨-, hgt⟩
          exact absurd hgt (by show ¬ a > store.ackedTs; omega)
    · rfl

/-- Witness for C22: connected to the home network, one stored fix with timestamp
1700003000, and the server answers 200 with `ackedTs` 1700003000: the watermark
moves from 0 to 1700003000. -/
theorem upload_advances_watermark_witness :
    (oneFixStore fixParis).ackedTs = 0 ∧
    ∃ out, uploadBatchOverWiFi uploadOkEnv netOnHome (oneFixStore fixParis) uploadBoot =
        some out ∧ out.store.ackedTs = 1700003000 := by
  obtain ⟨out, batch, hout, hb, -, hadv, -⟩ :=
    upload_advances_watermark uploadOkEnv netOnHome (oneFixStore fixParis) uploadBoot
      (oneFixStore_reachable fixParis)
  have hbatch : trackStoreGetBatch uploadOkEnv.tookBatch (oneFixStore fixParis)
      uploadOkEnv.batchOk MAX_UPLOAD_BATCH_SIZE
      (trackStoreGetAckedTs uploadOkEnv.tookAcked (oneFixStore fixParis)) =
      some [{ fixParis with seq := 1 }] := by decide
  rw [hbatch] at hb
  have hne : batch ≠ [] := by
    rw [← Option.some.inj hb]
    exact List.cons_ne_nil _ _
  exact ⟨rfl, out, hout, hadv 1700003000 (by decide) (by decide) hne rfl rfl (by decide)
    (by decide) (by decide) rfl⟩

/-- Claim C23: on every exit path of `uploadBatchOverWiFi` (not connected, refused, empty
batch, `http.begin` failure, any HTTP status and body), `uploadBegin` is called at
most once, and `uploadEnd` is called exactly once if `uploadBegin` was granted and
not at all otherwise. With no concurrent change the variables of the network
arbitrator at return are those at entry, in particular the in-flight counter
(the counter at entry being below the largest 32-bit value, so that the
increment does not wrap). -/
theorem upload_end_called_once (e : UploadEnv) (net : NetState) (store : TrackStore)
    (stats : UploadStats) (hs : Reachable store) :
    ∃ out, uploadBatchOverWiFi e net store stats = some out ∧
      out.beginCalls ≤ 1 ∧
      (out.granted = true ↔ net.wifiConnected = true ∧ net.acceptUploads = true) ∧
      (out.granted = true → out.beginCalls = 1 ∧ out.endCalls = 1) ∧
      (out.granted = false → out.endCalls = 0 ∧ out.net = net) ∧
      (net.activeUploads < 4294967295 →
        out.net = net ∧ out.net.activeUploads = net.activeUploads) := by
  obtain ⟨batch, hb⟩ := getBatch_total store (reachable_inv store hs) e.tookBatch e.batchOk
    MAX_UPLOAD_BATCH_SIZE (trackStoreGetAckedTs e.tookAcked store)
  obtain ⟨out, hout, hg, hbc, hec, hnet, -⟩ := uploadBatch_result e net store stats batch hb
  have hgi : out.granted = true ↔ net.wifiConnected = true ∧ net.acceptUploads = true := by
    rw [hg]
    simp
  refine ⟨out, hout, ?_, hgi, ?_, ?_, ?_⟩
  · rw [hbc]
    split_ifs <;> omega
  · intro h
    rw [hbc, hec, h, (hgi.mp h).1]
    exact ⟨rfl, rfl⟩
  · intro h
    rw [hec, hnet, h]
    exact ⟨rfl, rfl⟩
  · intro hlt
    have hnn : out.net = net := by
      rw [hnet]
      by_cases h : out.granted = true
      · rw [if_pos h]
        have ha := (hgi.mp h).2
        have hm : (net.activeUploads + 1) % 4294967296 = net.activeUploads + 1 :=
          Nat.mod_eq_of_lt (by omega)
        have hub : (uploadBegin net).2 =
            { net with activeUploads := net.activeUploads + 1 } := by
          unfold uploadBegin
          rw [if_neg (by rw [ha]; decide), hm]
        rw [hub]
        unfold uploadEnd
        rw [if_pos (by show net.activeUploads + 1 > 0; omega)]
        cases net
        rfl
      · rw [if_neg h]
    exact ⟨hnn, by rw [hnn]⟩

/-- Witness for C23: the upload of the witness for C22, which is granted and ends with
the in-flight counter at its entry value 0. -/
theorem upload_end_called_once_witness :
    netOnHome.activeUploads = 0 ∧
    ∃ out, uploadBatchOverWiFi uploadOkEnv netOnHome (oneFixStore fixParis) uploadBoot =
        some out ∧ out.granted = true ∧ out.endCalls = 1 ∧ out.net.activeUploads = 0 := by
  obtain ⟨out, hout, -, hg, hone, -, hkeep⟩ :=
    upload_end_called_once uploadOkEnv netOnHome (oneFixStore fixParis) uploadBoot
      (oneFixStore_reachable fixParis)
  have h0 : netOnHome.activeUploads = 0 := by decide
  have hgr : out.granted = true := hg.mpr ⟨by decide, by decide⟩
  exact ⟨h0, out, hout, hgr, (hone hgr).2, by rw [(hkeep (by rw [h0]; decide)).2, h0]⟩

/-! ## Theorems about winter time -/

theorem calcDayOfWeek_march (y d : Nat) :
    calcDayOfWeek y 3 d = (y + y / 4 - y / 100 + y / 400 + 2 + d) % 7 := by
  simp [calcDayOfWeek]

theorem calcDayOfWeek_october (y d : Nat) :
    calcDayOfWeek y 10 d = (y + y / 4 - y / 100 + y / 400 + 6 + d) % 7 := by
  simp [calcDayOfWeek]

/-- The loop of `lastSunday` over a month of 31 days whose weekdays are `(k + day) % 7`
ends at the last day of the month with weekday 0, one of the days 25 to 31. -/
theorem lastSundayFrom_31 (y m k : Nat) (h : ∀ d, calcDayOfWeek y m d = (k + d) % 7) :
    25 ≤ lastSundayFrom y m 31 31 ∧ lastSundayFrom y m 31 31 ≤ 31 ∧
    calcDayOfWeek y m (lastSundayFrom y m 31 31) = 0 ∧
    ∀ d, lastSundayFrom y m 31 31 < d → d ≤ 31 → calcDayOfWeek y m d ≠ 0 := by
  simp only [lastSundayFrom, h]
  have h7 : (k + 31) % 7 = 0 ∨ (k + 30) % 7 = 0 ∨ (k + 29) % 7 = 0 ∨ (k + 28) % 7 = 0 ∨
      (k + 27) % 7 = 0 ∨ (k + 26) % 7 = 0 ∨ (k + 25) % 7 = 0 := by omega
  by_cases h31 : (k + 31) % 7 = 0
  · rw [if_pos h31]
    exact ⟨by omega, by omega, h31, fun d _ _ => by omega⟩
  rw [if_neg h31]
  by_cases h30 : (k + 30) % 7 = 0
  · rw [if_pos h30]
    exact ⟨by omega, by omega, h30, fun d _ _ => by omega⟩
  rw [if_neg h30]
  by_cases h29 : (k + 29) % 7 = 0
  · rw [if_pos h29]
    exact ⟨by omega, by omega, h29, fun d _ _ => by omega⟩
  rw [if_neg h29]
  by_cases h28 : (k + 28) % 7 = 0
  · rw [if_pos h28]
    exact ⟨by omega, by omega, h28, fun d _ _ => by omega⟩
  rw [if_neg h28]
  by_cases h27 : (k + 27) % 7 = 0
  · rw [if_pos h27]
    exact ⟨by omega, by omega, h27, fun d _ _ => by omega⟩
  rw [if_neg h27]
  by_cases h26 : (k + 26) % 7 = 0
  · rw [if_pos h26]
    exact ⟨by omega, by omega, h26, fun d _ _ => by omega⟩
  rw [if_neg h26]
  have h25 : (k + 25) % 7 = 0 := by omega
  rw [if_pos h25]
  exact ⟨by omega, by omega, h25, fun d _ _ => by omega⟩

/-- The day that `lastSunday` returns for March and for October is the last day of the
month that `calcDayOfWeek` gives as a Sunday. -/
theorem lastSunday_is_last (y m : Nat) (hm : m = 3 ∨ m = 10) :
    25 ≤ lastSunday y m ∧ lastSunday y m ≤ 31 ∧ calcDayOfWeek y m (lastSunday y m) = 0 ∧
    ∀ d, lastSunday y m < d → d ≤ 31 → calcDayOfWeek y m d ≠ 0 := by
  rcases hm with rfl | rfl
  · exact lastSundayFrom_31 y 3 _ (fun d => calcDayOfWeek_march y d)
  · exact lastSundayFrom_31 y 10 _ (fun d => calcDayOfWeek_october y d)

/-- When the cached date is not the current one, `gpsIsWinterTime()` with a valid receiver
date returns the negation of `isSummer` for the current date and hour: summer
time from 01:00 on the last Sunday of March to before 01:00 on the last Sunday of
October. -/
theorem gpsIsWinterTime_cache_miss (y m d h : Nat) (c : WinterCache)
    (hy : y < 65536) (hm : m < 256) (hd : d < 256) (hh : h < 256)
    (hmiss : ¬ (y = c.cachedYear ∧ m = c.cachedMonth ∧ d = c.cachedDay)) :
    (gpsIsWinterTime (utcClock y m d h) c).1 = !isSummer y m d h ∧
    (isSummer y m d h = true ↔
      (3 < m ∧ m < 10) ∨ (m = 3 ∧ (lastSunday y 3 < d ∨ (d = lastSunday y 3 ∧ 1 ≤ h))) ∨
      (m = 10 ∧ (d < lastSunday y 10 ∨ (d = lastSunday y 10 ∧ h < 1)))) := by
  refine ⟨?_, ?_⟩
  · simp only [gpsIsWinterTime, utcClock, Bool.and_self, if_true, Nat.mod_eq_of_lt hy,
      Nat.mod_eq_of_lt hm, Nat.mod_eq_of_lt hd, Nat.mod_eq_of_lt hh, winterTimeOf]
    rw [if_neg hmiss]
  · unfold isSummer
    split_ifs <;> simp <;> omega

/-- Claim C26 fails on the code at this input: 31 March 2024 is the last Sunday of March.
A first call at 00:00 UTC computes winter time (true) and caches it for the date.
A second call at 02:00 UTC on the same date, after the change to summer time at
01:00, finds the cached date and returns the cached true, while the same call
with the cache of program start returns false: the result depends on the
earlier calls, and it is wrong from 01:00 to the end of the day. -/
theorem winter_time_cache_ignores_hour :
    lastSunday 2024 3 = 31 ∧
    gpsIsWinterTime (utcClock 2024 3 31 0) winterCacheBoot =
      (true, { cachedResult := true, cachedDay := 31, cachedMonth := 3, cachedYear := 2024 }) ∧
    (gpsIsWinterTime (utcClock 2024 3 31 2)
      { cachedResult := true, cachedDay := 31, cachedMonth := 3, cachedYear := 2024 }).1 = true ∧
    isSummer 2024 3 31 2 = true ∧
    (gpsIsWinterTime (utcClock 2024 3 31 2) winterCacheBoot).1 = false := by
  decide

/-! ## Theorems about the GPS sampler -/

theorem trackStorePush_result (took : Bool) (s : TrackStore) (recIn : FixRec) (ok : Bool)
    (r : FixRec) (s' : TrackStore) (h : trackStorePush took s recIn = some (ok, r, s')) :
    r.ts = recIn.ts ∧ r.latE7 = recIn.latE7 ∧ r.lonE7 = recIn.lonE7 ∧
    (ok = false → s' = s) := by
  unfold trackStorePush at h
  cases took with
  | false =>
    simp only [Bool.false_eq_true, if_false, Option.some.injEq, Prod.mk.injEq] at h
    obtain ⟨-, h2, h3⟩ := h
    subst h2 h3
    exact ⟨rfl, rfl, rfl, fun _ => rfl⟩
  | true =>
    simp only [if_true] at h
    split_ifs at h
    all_goals
      simp only [Option.some.injEq, Prod.mk.injEq] at h
      obtain ⟨h1, h2, -⟩ := h
      subst h2
      exact ⟨rfl, rfl, rfl, fun hf => by rw [hf] at h1; exact Bool.noConfusion h1⟩

/-- What `sampleGPSFix` checks before storing: a record is stored only with a timestamp of
at least 946684800, and with the fallback timestamp `millis() / 1000` (no
absolute time known, `now() <= 100000`) nothing is stored and the store is left as
it was. The coordinates of a stored record are the rounded coordinates of the
receiver, whatever their values. -/
theorem sampleGPSFix_checks_timestamp_only (e : SampleEnv) (s : TrackStore) (out : SampleRun)
    (h : sampleGPSFix e s = some out) :
    (out.stored = true →
      946684800 ≤ out.record.ts ∧
      out.record.ts = getTimestampSeconds e.now e.winter e.ms ∧
      out.record.latE7 = toInt32 (toUInt32 e.latRounded) ∧
      out.record.lonE7 = toInt32 (toUInt32 e.lngRounded)) ∧
    (e.now ≤ 100000 → out.pushCalled = false ∧ out.stored = false ∧ out.store = s) := by
  unfold sampleGPSFix at h
  simp only at h
  by_cases hts : getTimestampSeconds e.now e.winter e.ms < 946684800
  · rw [if_pos hts] at h
    rw [← Option.some.inj h]
    exact ⟨fun hf => Bool.noConfusion hf, fun _ => ⟨rfl, rfl, rfl⟩⟩
  · rw [if_neg hts] at h
    refine ⟨?_, ?_⟩
    · intro hst
      split at h
      · exact Option.noConfusion h
      · rename_i ok r' s' hpush
        rw [← Option.some.inj h]
        obtain ⟨h1, h2, h3, -⟩ := trackStorePush_result _ _ _ _ _ _ hpush
        exact ⟨by rw [h1]; exact Nat.le_of_not_lt hts, h1, h2, h3⟩
    · intro hnow
      exfalso
      apply hts
      unfold getTimestampSeconds
      rw [if_neg (by omega)]
      have : e.ms % 4294967296 < 4294967296 := Nat.mod_lt _ (by decide)
      omega

/-- Claim C24 fails on the code at this input: the time is known (`now()` is 1700003000,
winter time) and the receiver reports the latitude 95 degrees. `sampleGPSFix`
checks the timestamp only: it calls `trackStorePush`, which stores the record
with `latE7 = 950000000`, outside [-900000000, 900000000], and the record is the
latest of the store afterwards. -/
theorem sampler_stores_out_of_range_latitude :
    ∃ out, sampleGPSFix latitude95Env (initTrackStore 2) = some out ∧
      out.pushCalled = true ∧ out.stored = true ∧
      out.record.ts = 1699999400 ∧ out.record.latE7 = 950000000 ∧
      ¬ (-900000000 ≤ out.record.latE7 ∧ out.record.latE7 ≤ 900000000) ∧
      trackStoreGetLatest true out.store FixRec.zero = some (true, out.record) := by
  refine ⟨_, rfl, ?_⟩
  decide

/-! ### C29: the longitude difference of `distanceMeters` -/

/-- The subtraction of `distanceMeters` is defined exactly when the mathematical
difference fits `int32_t`; two longitudes that pass the validation of
`checkAndSend` can differ by up to 3600000000. -/
theorem lonDiffE7_defined_iff (lon1E7 lon2E7 : Int) :
    (lonDiffE7 lon1E7 lon2E7 = some (lon2E7 - lon1E7) ↔
      -2147483648 ≤ lon2E7 - lon1E7 ∧ lon2E7 - lon1E7 ≤ 2147483647) ∧
    (lonDiffE7 lon1E7 lon2E7 = none ↔
      ¬ (-2147483648 ≤ lon2E7 - lon1E7 ∧ lon2E7 - lon1E7 ≤ 2147483647)) := by
  unfold lonDiffE7
  by_cases h : -2147483648 ≤ lon2E7 - lon1E7 ∧ lon2E7 - lon1E7 ≤ 2147483647
  · rw [if_pos h]
    exact ⟨⟨fun _ => h, fun _ => rfl⟩, ⟨fun hn => Option.noConfusion hn, fun hn => absurd h hn⟩⟩
  · rw [if_neg h]
    exact ⟨⟨fun hs => Option.noConfusion hs, fun hs => absurd hs h⟩, ⟨fun _ => h, fun _ => rfl⟩⟩

/-- Claim C29 fails on the code at this input: the last sent position is 17 S 179.9 E
(the state `antimeridianLora`, reached from `idleLora`) and the latest fix is
17 S 179.9 W, across the antimeridian. Both longitudes pass the validation of
`checkAndSend`, and the evaluation at 600000 ms passes the rate limiter and
reaches the distance test (`moving` is true and `lastLatE7 != 0`), so
`distanceMeters` is called with them. The difference `lon2E7 - lon1E7` is
-3598000000, below the smallest `int32_t` value: the subtraction overflows. The
low 32 bits of the difference are 696967296 (69.7 degrees instead of 0.2). -/
theorem longitude_difference_overflows :
    (∃ st, checkAndSend (envAt 200000 fixEastOfFiji) idleLora = some st ∧
      checkAndSend (envAt 400000 fixEastOfFiji) st = some antimeridianLora) ∧
    (-1800000000 ≤ antimeridianLora.lastLonE7 ∧ antimeridianLora.lastLonE7 ≤ 1800000000) ∧
    (-1800000000 ≤ fixWestOfSamoa.lonE7 ∧ fixWestOfSamoa.lonE7 ≤ 1800000000) ∧
    ¬ subU32 (envAt 600000 fixWestOfSamoa).msCheck antimeridianLora.lastSendMs <
      MIN_SEND_INTERVAL_MS ∧
    antimeridianLora.hasJoined = true ∧ antimeridianLora.nodePresent = true ∧
    trackStoreGetLatest (envAt 600000 fixWestOfSamoa).took (envAt 600000 fixWestOfSamoa).store
      FixRec.zero = some (true, { fixWestOfSamoa with seq := 1 }) ∧
    946684800 ≤ fixWestOfSamoa.ts ∧
    (-900000000 ≤ fixWestOfSamoa.latE7 ∧ fixWestOfSamoa.latE7 ≤ 900000000) ∧
    movingAfter (envAt 600000 fixWestOfSamoa) antimeridianLora = true ∧
    antimeridianLora.lastLatE7 ≠ 0 ∧
    fixWestOfSamoa.lonE7 - antimeridianLora.lastLonE7 = -3598000000 ∧
    lonDiffE7 antimeridianLora.lastLonE7 fixWestOfSamoa.lonE7 = none ∧
    toInt32 (toUInt32 (fixWestOfSamoa.lonE7 - antimeridianLora.lastLonE7)) = 696967296 := by
  refine ⟨⟨{ idleLora with moving := true }, by decide, by decide⟩, ?_⟩
  decide

/-! ### C30: the send after a movement start -/

theorem runChecks_heldBack (es : List SendEnv) (st : LoraState)
    (h : ∀ e ∈ es, HeldBack e st) : runChecks es st = some st := by
  induction es with
  | nil => rfl
  | cons e es ih =>
    have he : checkAndSend e st = some st := by
      rcases h e (List.mem_cons_self _ _) with hr | ⟨found, fix, hl, hbad⟩
      · exact checkAndSend_rate_limited e st hr
      · exact checkAndSend_no_valid_fix e st found fix hl hbad
    simp only [runChecks, he]
    exact ih (fun e' he' => h e' (List.mem_cons_of_mem _ he'))

/-- Claim C30: `movementChanged` is computed from `moving` as the previous evaluation left
it, before the speed-based update. Take an evaluation of `checkAndSend` that passes
the rate limiter, the join test and the fix validation and starts with
`moving == prevMoving == false`, with no heartbeat due and no distance trigger,
in which the speed reaches the start threshold: it sets `moving` to true, changes
nothing else and sends no payload. The evaluations after it that the rate limiter
or the fix validation does not permit leave the state untouched, and the next
evaluation that they permit sends the latest fix; after it `prevMoving` equals
`moving`. -/
theorem movement_start_sends_in_next_evaluation (e₁ : SendEnv) (st : LoraState) (fix₁ : FixRec)
    (hm : st.moving = false) (hp : st.prevMoving = false)
    (hrate : ¬ subU32 e₁.msCheck st.lastSendMs < MIN_SEND_INTERVAL_MS)
    (hjoined : st.hasJoined = true) (hnode : st.nodePresent = true)
    (hlatest : trackStoreGetLatest e₁.took e₁.store FixRec.zero = some (true, fix₁))
    (hts : 946684800 ≤ fix₁.ts)
    (hlat : -900000000 ≤ fix₁.latE7 ∧ fix₁.latE7 ≤ 900000000)
    (hlon : -1800000000 ≤ fix₁.lonE7 ∧ fix₁.lonE7 ≤ 1800000000)
    (hhb : subU32 e₁.msNow st.lastHeartbeatMs < HEARTBEAT_INTERVAL_MS)
    (hdist : (st.lastLatE7 != 0 &&
      (e₁.distanceMeters st.lastLatE7 st.lastLonE7 fix₁.latE7 fix₁.lonE7).ge DIST_TRIGGER_M) = false)
    (hvalid : e₁.speedValid = true) (hspeed : e₁.speedKmh.ge MOVE_START_KMH = true) :
    checkAndSend e₁ st = some { st with moving := true } ∧
    ({ st with moving := true } : LoraState).sent = st.sent ∧
    ∀ mid : List SendEnv, (∀ e ∈ mid, HeldBack e { st with moving := true }) →
      runChecks mid { st with moving := true } = some { st with moving := true } ∧
      ∀ (e₂ : SendEnv) (fix₂ : FixRec),
        ¬ subU32 e₂.msCheck st.lastSendMs < MIN_SEND_INTERVAL_MS →
        trackStoreGetLatest e₂.took e₂.store FixRec.zero = some (true, fix₂) →
        946684800 ≤ fix₂.ts →
        (-900000000 ≤ fix₂.latE7 ∧ fix₂.latE7 ≤ 900000000) →
        (-1800000000 ≤ fix₂.lonE7 ∧ fix₂.lonE7 ≤ 1800000000) →
        ∃ st₂, checkAndSend e₂ { st with moving := true } = some st₂ ∧
          st₂.sent = st.sent ++ [buildPayload (toInt32 fix₂.ts) fix₂.latE7 fix₂.lonE7 fix₂.bat] ∧
          st₂.prevMoving = st₂.moving := by
  have hmove : movingAfter e₁ st = true := by
    unfold movingAfter updateMoving
    rw [hvalid, if_pos rfl, hm, hspeed]
    rfl
  have hno : shouldSendNow e₁ st fix₁ = false := by
    unfold shouldSendNow
    have hd : decide (subU32 e₁.msNow st.lastHeartbeatMs ≥ HEARTBEAT_INTERVAL_MS) = false := by
      simp only [decide_eq_false_iff_not, ge_iff_le, not_le]
      exact hhb
    rw [hm, hp, hmove, hd, Bool.true_and, hdist]
    rfl
  refine ⟨?_, rfl, ?_⟩
  · rw [checkAndSend_valid e₁ st fix₁ hrate hjoined hnode hlatest hts hlat hlon,
      if_neg (by rw [hno]; decide), hmove]
  · intro mid hmid
    refine ⟨runChecks_heldBack mid _ hmid, ?_⟩
    intro e₂ fix₂ hrate₂ hlatest₂ hts₂ hlat₂ hlon₂
    have hyes : shouldSendNow e₂ { st with moving := true } fix₂ = true := by
      unfold shouldSendNow
      show ((true != st.prevMoving) || _ || _) = true
      rw [hp]
      rfl
    refine ⟨sentState e₂ { st with moving := true } fix₂, ?_, rfl, ?_⟩
    · rw [checkAndSend_valid e₂ { st with moving := true } fix₂ hrate₂ hjoined hnode hlatest₂
        hts₂ hlat₂ hlon₂, if_pos hyes]
    · show (if (true != st.prevMoving) = true then movingAfter e₂ { st with moving := true }
        else st.prevMoving) = movingAfter e₂ { st with moving := true }
      rw [hp]
      rfl

/-- Witness for C30: from `idleLora`, the evaluation at 200000 ms at 5 km/h sets `moving`
and sends nothing; the evaluation at 400000 ms sends the fix. -/
theorem movement_start_sends_in_next_evaluation_witness :
    checkAndSend (envAt 200000 fixParis) idleLora = some { idleLora with moving := true } ∧
    ∃ st₂, checkAndSend (envAt 400000 fixParis) { idleLora with moving := true } = some st₂ ∧
      st₂.sent = idleLora.sent ++ [buildPayload (toInt32 1700003000) 488566000 23522000 77] ∧
      st₂.prevMoving = st₂.moving := by
  have h := movement_start_sends_in_next_evaluation (envAt 200000 fixParis) idleLora
    { fixParis with seq := 1 } rfl rfl (by decide) rfl rfl (by decide) (by decide) (by decide)
    (by decide) (by decide) (by decide) rfl (by decide)
  exact ⟨h.1, (h.2.2 [] (fun e he => absurd he (List.not_mem_nil e))).2
    (envAt 400000 fixParis) { fixParis with seq := 1 } (by decide) (by decide) (by decide)
    (by decide) (by decide)⟩

/-! ## Theorems about the fix store as a bounded FIFO -/

theorem drop_range_from (n k d : Nat) :
    (List.range' n k).drop d = List.range' (n + d) (k - d) := by
  induction d generalizing n k with
  | zero => rfl
  | succ d ih =>
    cases k with
    | zero => simp
    | succ k =>
      rw [List.range'_succ, List.drop_succ_cons, ih]
      have e1 : n + 1 + d = n + (d + 1) := by omega
      have e2 : k + 1 - (d + 1) = k - d := by omega
      rw [e1, e2]

theorem numbered_length (n : Nat) (rs : List FixRec) : (numbered n rs).length = rs.length := by
  induction rs generalizing n with
  | nil => rfl
  | cons r rs ih => simp [numbered, ih]

theorem numbered_seqs (n : Nat) (rs : List FixRec) :
    (numbered n rs).map FixRec.seq = List.range' n rs.length := by
  induction rs generalizing n with
  | nil => rfl
  | cons r rs ih =>
    rw [numbered, List.map_cons, List.length_cons, List.range'_succ, ih]

/-- Numbering changes the sequence number of a record and nothing else. -/
theorem numbered_getD (n i : Nat) (rs : List FixRec) (hi : i < rs.length) :
    (numbered n rs).getD i FixRec.zero = { rs.getD i FixRec.zero with seq := n + i } := by
  induction rs generalizing n i with
  | nil => simp at hi
  | cons r rs ih =>
    cases i with
    | zero => rfl
    | succ i =>
      rw [numbered, List.getD_cons_succ, List.getD_cons_succ,
        ih (n + 1) i (by simpa using hi)]
      have : n + 1 + i = n + (i + 1) := by omega
      rw [this]

/-- The store stamps the pushed records with their numbers reduced to 32 bits. -/
theorem stamp_eq_numbered (n : Nat) (rs : List FixRec) :
    stamp (n % 4294967296) rs = (numbered n rs).map wrapSeq := by
  induction rs generalizing n with
  | nil => rfl
  | cons r rs ih =>
    rw [stamp, numbered, List.map_cons]
    have e : (n % 4294967296 + 1) % 4294967296 = (n + 1) % 4294967296 := by omega
    rw [e, ih (n + 1)]
    rfl

theorem wrapSeq_of_lt (l : List FixRec) (h : ∀ r ∈ l, r.seq < 4294967296) :
    l.map wrapSeq = l := by
  induction l with
  | nil => rfl
  | cons r rs ih =>
    rw [List.map_cons, ih (fun x hx => h x (List.mem_cons_of_mem _ hx))]
    congr 1
    unfold wrapSeq
    rw [Nat.mod_eq_of_lt (h r (List.mem_cons_self _ _))]

theorem numbered_seq_lt (n : Nat) (rs : List FixRec) (r : FixRec) (hr : r ∈ numbered n rs) :
    r.seq < n + rs.length := by
  have hm : r.seq ∈ (numbered n rs).map FixRec.seq := List.mem_map_of_mem _ hr
  rw [numbered_seqs, List.mem_range'_1] at hm
  exact hm.2

/-- Successive pushes onto the bounded FIFO leave the last `C` of the records queued
before followed by the pushed records as numbered. -/
theorem fifoPushAll_eq (C : Nat) (q : List FixRec) (n : Nat) (rs : List FixRec)
    (hq : q.length ≤ C) :
    fifoPushAll C q n rs = (q ++ numbered n rs).drop (q.length + rs.length - C) := by
  induction rs generalizing q n with
  | nil =>
    have : q.length + ([] : List FixRec).length - C = 0 := by
      rw [List.length_nil]; omega
    rw [this, fifoPushAll, numbered, List.append_nil, List.drop_zero]
  | cons r rs ih =>
    rw [fifoPushAll, numbered, List.length_cons]
    unfold fifoPush
    by_cases hfull : (q ++ [{ r with seq := n }]).length > C
    · rw [if_pos hfull]
      have hlen : (q ++ [{ r with seq := n }]).length = q.length + 1 := by simp
      rw [ih _ _ (by rw [List.length_tail, hlen]; omega), List.length_tail, hlen,
        ← List.drop_one, ← List.drop_append_of_le_length (by rw [hlen]; omega),
        List.drop_drop, List.append_assoc, List.singleton_append]
      have : 1 + (q.length + 1 - 1 + rs.length - C) = q.length + (rs.length + 1) - C := by
        omega
      rw [this]
    · rw [if_neg hfull]
      have hlen : (q ++ [{ r with seq := n }]).length = q.length + 1 := by simp
      rw [ih _ _ (by rw [hlen]; rw [hlen] at hfull; omega), hlen, List.append_assoc,
        List.singleton_append]
      have : q.length + 1 + rs.length - C = q.length + (rs.length + 1) - C := by omega
      rw [this]

/-- The bounded FIFO after the records `rs` holds the last `min(k, C)` of them in push
order, numbered `k - min(k, C) + 1 .. k`. -/
theorem boundedFifo_eq (C : Nat) (rs : List FixRec) :
    boundedFifo C rs = (numbered 1 rs).drop (rs.length - C) ∧
    (boundedFifo C rs).length = min rs.length C ∧
    (boundedFifo C rs).map FixRec.seq =
      List.range' (rs.length - min rs.length C + 1) (min rs.length C) := by
  have h : boundedFifo C rs = (numbered 1 rs).drop (rs.length - C) := by
    unfold boundedFifo
    rw [fifoPushAll_eq C [] 1 rs (Nat.zero_le _), List.nil_append, List.length_nil,
      Nat.zero_add]
  refine ⟨h, ?_, ?_⟩
  · rw [h, List.length_drop, numbered_length]
    omega
  · rw [h, List.map_drop, numbered_seqs, drop_range_from]
    have e1 : 1 + (rs.length - C) = rs.length - min rs.length C + 1 := by omega
    have e2 : rs.length - (rs.length - C) = min rs.length C := by omega
    rw [e1, e2]
/-- On a store that satisfies the invariant, `trackStoreGetOldestTs` and
`trackStoreGetLatest` read the first and the last record of the stored window. -/
theorem oldest_latest_eq (s : TrackStore) (hinv : s.Inv) (out : FixRec) :
    trackStoreGetOldestTs true s =
      some (if s.count = 0 then 0 else ((stored s).getD 0 FixRec.zero).ts) ∧
    trackStoreGetLatest true s out =
      (if s.count = 0 then some (false, out)
      else some (true, (stored s).getD (s.count - 1) FixRec.zero)) ∧
    (s.count ≠ 0 → (s.head + s.cap - s.count) % s.cap < s.ring.length ∧
      (s.head + s.cap - 1) % s.cap < s.ring.length) := by
  obtain ⟨hcap, hlen, hhead, hcount, -, -, -⟩ := hinv
  have hcap0 : ¬ s.cap = 0 := by omega
  have hi1 : (s.head + s.cap - s.count) % s.cap < s.ring.length := by
    rw [hlen]
    exact Nat.mod_lt _ (by omega)
  have hi2 : (s.head + s.cap - 1) % s.cap < s.ring.length := by
    rw [hlen]
    exact Nat.mod_lt _ (by omega)
  refine ⟨?_, ?_, fun _ => ⟨hi1, hi2⟩⟩
  · unfold trackStoreGetOldestTs oldestIdx
    rw [if_pos rfl]
    by_cases h0 : s.count = 0
    · rw [if_pos h0, if_pos h0]
    · rw [if_neg h0, if_neg h0, if_neg hcap0]
      simp only
      rw [stored_getD s 0 (by omega), Nat.add_zero, List.getElem?_eq_getElem hi1,
        List.getD_eq_getElem _ _ hi1]
  · unfold trackStoreGetLatest
    rw [if_pos rfl]
    by_cases h0 : s.count = 0
    · rw [if_pos h0, if_neg (by omega)]
    · rw [if_neg h0, if_pos (by omega), if_neg hcap0]
      rw [stored_getD s (s.count - 1) (by omega)]
      have e : s.head + s.cap - s.count + (s.count - 1) = s.head + s.cap - 1 := by omega
      rw [e, List.getElem?_eq_getElem hi2, List.getD_eq_getElem _ _ hi2]

/-- Claim C27, as stated, fails for the sequence numbers once the 32-bit counter has
wrapped: after k = 4294967296 pushes onto the store of capacity 2 the size is 2,
and the two stored records carry the sequence numbers 4294967295 and 0, not
4294967295 and 4294967296. -/
theorem fifo_sequence_numbers_wrap :
    pushAll (initTrackStore 2) (List.replicate 4294967296 fixOne) = some wrappedStore ∧
    trackStoreSize true wrappedStore = min 4294967296 2 ∧
    (stored wrappedStore).map FixRec.seq = [4294967295, 0] ∧
    List.range' (4294967296 - min 4294967296 2 + 1) (min 4294967296 2) =
      [4294967295, 4294967296] ∧
    (stored wrappedStore).map FixRec.seq ≠
      List.range' (4294967296 - min 4294967296 2 + 1) (min 4294967296 2) := by
  have h := pushAll_cap_two fixOne 2147483647 (initTrackStore 2) rfl rfl rfl (by decide)
    (by decide)
  exact ⟨h, by decide, by decide, by decide, by decide⟩

/-- Claim C27 (amended): the ring buffer refines a bounded FIFO whose sequence numbers are
reduced to 32 bits. For every capacity `C >= 1` and every `k >= 0`, `k` pushes
onto a freshly initialised store succeed and `trackStoreSize() == min(k, C)`. The
bounded FIFO of capacity `C` after the same pushes holds the last `min(k, C)`
pushed records in push order, numbered `k - min(k, C) + 1 .. k`; the stored
records listed from oldest to newest are these records with each sequence number
taken modulo `2^32`, and exactly these records when `k < 2^32`. This is the order
scanned by `trackStoreGetBatch`, its first record is the one whose timestamp
`trackStoreGetOldestTs` reports and its last record the one that
`trackStoreGetLatest` returns. -/
theorem ring_refines_bounded_fifo (C : Nat) (hC : 1 ≤ C) (rs : List FixRec) :
    ∃ s, pushAll (initTrackStore C) rs = some s ∧
      trackStoreSize true s = min rs.length C ∧
      boundedFifo C rs = (numbered 1 rs).drop (rs.length - C) ∧
      (boundedFifo C rs).length = min rs.length C ∧
      (boundedFifo C rs).map FixRec.seq =
        List.range' (rs.length - min rs.length C + 1) (min rs.length C) ∧
      (∀ i, i < rs.length → (numbered 1 rs).getD i FixRec.zero =
        { rs.getD i FixRec.zero with seq := 1 + i }) ∧
      stored s = (boundedFifo C rs).map wrapSeq ∧
      (rs.length < 4294967296 → stored s = boundedFifo C rs) ∧
      (∀ maxN afterTs, trackStoreGetBatch true s true maxN afterTs =
        some (((stored s).filter (fun r => decide (r.ts > afterTs))).take maxN)) ∧
      trackStoreGetOldestTs true s =
        some (if rs.length = 0 then 0 else ((stored s).getD 0 FixRec.zero).ts) ∧
      (∀ out, trackStoreGetLatest true s out =
        (if rs.length = 0 then some (false, out)
        else some (true, (stored s).getD (min rs.length C - 1) FixRec.zero))) := by
  obtain ⟨s, hall, hinv, hcap, hcount, -, -, hstored⟩ :=
    pushAll_stored rs (initTrackStore C) (init_inv C hC)
  have hcap0 : (initTrackStore C).cap = C := rfl
  have hcount0 : (initTrackStore C).count = 0 := rfl
  have hnext0 : (initTrackStore C).nextSeq = 1 := rfl
  have hst0 : stored (initTrackStore C) = [] := by simp [stored, initTrackStore]
  rw [hcap0, hcount0, Nat.zero_add] at hcount
  rw [hst0, hcount0, hnext0, hcap0, List.nil_append, Nat.zero_add] at hstored
  obtain ⟨hf1, hf2, hf3⟩ := boundedFifo_eq C rs
  have hcnt : s.count = min rs.length C := by rw [hcount, Nat.min_comm]
  have hzero : s.count = 0 ↔ rs.length = 0 := by omega
  have hmap : stored s = (boundedFifo C rs).map wrapSeq := by
    rw [hstored, hf1, List.map_drop]
    have := stamp_eq_numbered 1 rs
    rw [Nat.mod_eq_of_lt (by decide : 1 < 4294967296)] at this
    rw [this]
  obtain ⟨ho, hl, -⟩ := oldest_latest_eq s hinv FixRec.zero
  refine ⟨s, hall, ?_, hf1, hf2, hf3, fun i hi => numbered_getD 1 i rs hi, hmap, ?_,
    fun maxN afterTs => getBatch_eq s hinv maxN afterTs, ?_, ?_⟩
  · show (if true = true then s.count else 0) = _
    rw [if_pos rfl, hcnt]
  · intro hk
    rw [hmap]
    apply wrapSeq_of_lt
    intro r hr
    rw [hf1] at hr
    have := numbered_seq_lt 1 rs r (List.mem_of_mem_drop hr)
    omega
  · rw [ho]
    by_cases h0 : rs.length = 0
    · rw [if_pos h0, if_pos (hzero.mpr h0)]
    · rw [if_neg h0, if_neg (fun h => h0 (hzero.mp h))]
  · intro out
    rw [(oldest_latest_eq s hinv out).2.1]
    by_cases h0 : rs.length = 0
    · rw [if_pos h0, if_pos (hzero.mpr h0)]
    · rw [if_neg h0, if_neg (fun h => h0 (hzero.mp h)), hcnt]

/-- Witness for C27 (amended): three pushes onto the store of capacity 2. -/
theorem ring_refines_bounded_fifo_witness :
    ∃ s, pushAll (initTrackStore 2) [fixOne, fixParis, fixNoPosition] = some s ∧
      trackStoreSize true s = 2 ∧
      stored s = [{ fixParis with seq := 2 }, { fixNoPosition with seq := 3 }] ∧
      boundedFifo 2 [fixOne, fixParis, fixNoPosition] =
        [{ fixParis with seq := 2 }, { fixNoPosition with seq := 3 }] := by
  obtain ⟨s, hall, hsize, -, -, -, -, -, hsame, -, -, -⟩ :=
    ring_refines_bounded_fifo 2 (by decide) [fixOne, fixParis, fixNoPosition]
  exact ⟨s, hall, hsize, by rw [hsame (by decide)]; decide, by decide⟩

/-! ### C28: ring indices stay in bounds -/

/-- Claim C28: on every store reached from `initTrackStore(capacity)` with `capacity >= 1`,
`head < cap` and `count <= cap` hold and the ring has `cap` slots; every operation
(push, getLatest, getOldestTs, getBatch, setAckedTs, size) has defined behaviour
there, that is, every ring index it computes is below `cap` and no remainder
modulo zero is taken, and push and setAckedTs lead to such a store again. The
precondition `capacity >= 1` is necessary: after `initTrackStore(0)` the ring is
empty and `cap` is 0, so a push writes outside the ring and computes a remainder
modulo 0. -/
theorem store_indices_stay_in_bounds (s : TrackStore) (hs : Reachable s) :
    (1 ≤ s.cap ∧ s.ring.length = s.cap ∧ s.head < s.cap ∧ s.count ≤ s.cap) ∧
    (∀ took recIn, ∃ ok r s', trackStorePush took s recIn = some (ok, r, s') ∧
      Reachable s' ∧ s'.cap = s.cap ∧ s'.ring.length = s'.cap ∧ s'.head < s'.cap ∧
      s'.count ≤ s'.cap) ∧
    (∀ took ts, Reachable (trackStoreSetAckedTs took s ts).2 ∧
      (trackStoreSetAckedTs took s ts).2.head = s.head ∧
      (trackStoreSetAckedTs took s ts).2.count = s.count ∧
      (trackStoreSetAckedTs took s ts).2.cap = s.cap) ∧
    (∀ took out, ∃ res, trackStoreGetLatest took s out = some res) ∧
    (∀ took, ∃ ts, trackStoreGetOldestTs took s = some ts) ∧
    (∀ took ok maxN afterTs, ∃ b, trackStoreGetBatch took s ok maxN afterTs = some b) ∧
    (∀ took, trackStoreSize took s ≤ s.cap) ∧
    (∃ i, oldestIdx s = some i ∧ i < s.cap) ∧ (s.head + s.cap - 1) % s.cap < s.cap ∧
    (∀ recIn, trackStorePush true (initTrackStore 0) recIn = none) ∧
    (initTrackStore 0).cap = 0 ∧ (initTrackStore 0).ring = [] ∧
    oldestIdx (initTrackStore 0) = none := by
  have hinv := reachable_inv s hs
  obtain ⟨hcap, hlen, hhead, hcount, -, -, -⟩ := reachable_inv s hs
  refine ⟨⟨hcap, hlen, hhead, hcount⟩, ?_, ?_, ?_, ?_, ?_, ?_, ?_, ?_, ?_, rfl, rfl, rfl⟩
  · intro took recIn
    cases took with
    | false =>
      exact ⟨false, recIn, s, rfl, hs, rfl, hlen, hhead, hcount⟩
    | true =>
      obtain ⟨s', hpush, hinv', hcap', -⟩ := push_inv s recIn hinv
      exact ⟨true, _, s', hpush, Reachable.push true s recIn true _ s' hs hpush, hcap',
        hinv'.2.1, hinv'.2.2.1, hinv'.2.2.2.1⟩
  · intro took ts
    refine ⟨Reachable.setAcked took s ts hs, ?_⟩
    unfold trackStoreSetAckedTs
    split_ifs <;> exact ⟨rfl, rfl, rfl⟩
  · intro took out
    cases took with
    | false => exact ⟨_, rfl⟩
    | true =>
      rw [(oldest_latest_eq s hinv out).2.1]
      split_ifs
      · exact ⟨_, rfl⟩
      · exact ⟨_, rfl⟩
  · intro took
    cases took with
    | false => exact ⟨_, rfl⟩
    | true => exact ⟨_, (oldest_latest_eq s hinv FixRec.zero).1⟩
  · intro took ok maxN afterTs
    exact getBatch_total s hinv took ok maxN afterTs
  · intro took
    unfold trackStoreSize
    split_ifs
    · exact hcount
    · exact Nat.zero_le _
  · refine ⟨(s.head + s.cap - s.count) % s.cap, ?_, Nat.mod_lt _ (by omega)⟩
    unfold oldestIdx
    rw [if_neg (by omega)]
  · exact Nat.mod_lt _ (by omega)
  · intro recIn
    rfl

/-- Witness for C28: the theorem at the store of capacity 1 holding one record. -/
theorem store_indices_stay_in_bounds_witness :
    (1 ≤ (oneFixStore fixParis).cap ∧
      (oneFixStore fixParis).ring.length = (oneFixStore fixParis).cap ∧
      (oneFixStore fixParis).head < (oneFixStore fixParis).cap ∧
      (oneFixStore fixParis).count ≤ (oneFixStore fixParis).cap) ∧
    ∃ b, trackStoreGetBatch true (oneFixStore fixParis) true 60 0 = some b :=
  ⟨(store_indices_stay_in_bounds (oneFixStore fixParis) (oneFixStore_reachable fixParis)).1,
    (store_indices_stay_in_bounds (oneFixStore fixParis)
      (oneFixStore_reachable fixParis)).2.2.2.2.2.1 true true 60 0⟩

end GpsTracker
